import Mathlib

set_option autoImplicit false

/-!
# Authenticated request resolver of the OpenAPI provider client

A shallow embedding of `openapi/auth.go`,
`openapi/openapi_spec_authenticator_refresh_token.go`,
`openapi/openapi_client.go` (URL resolver, request dispatcher and the four verbs),
`openapi/openapi_v2_headers.go` and `getServiceConfiguration` of
`openapi/plugin_config.go`.

Conventions of the embedding

* A Go `map[string]string` is an association list wrapped in `Option`:
  `none` is the nil map, `some []` the empty map.  Reading goes through
  `mapGet`, writing through `mapSet`; writing into the nil map is a run-time
  panic, as in Go.
* A Go `error` is a `GoError` carrying the rendered message; `Option GoError`
  is the usual nil-able error value.
* A run-time panic is the `Except.error` branch of `Except GoPanic`.
* The HTTP transport (`http_goclient.HttpClientIface`) is an oracle `Net`
  answering each call from the calls issued before it; every call is appended
  to `World.calls`.
* `World.dispatched` is ghost state: it records each dynamic dispatch of
  `authenticator.prepareAuth`, so that "no authenticator is invoked" can be
  stated.  Nothing reads it.
* `log.Printf` output is returned as a list of `LogEntry` (format string and
  arguments, not rendered).
* The interfaces `SpecBackendConfiguration` and `SpecResource` and the methods of
  `providerConfiguration` are collaborators declared elsewhere: they are
  structures of functions, and a method returning `(value, error)` is an
  `Except`.
-/

namespace OpenAPI

/-! ## Go values -/

/-- Entries of a Go `map[string]string`; the first binding of a key is the live one. -/
abbrev HeaderMap := List (String × String)

/-- Map read `m[k]` on a non-nil map, `none` when the key is absent. -/
def mapGet (m : HeaderMap) (k : String) : Option String :=
  match m with
  | [] => none
  | (k1, v1) :: rest => if k1 = k then some v1 else mapGet rest k

/-- Map write `m[k] = v` on a non-nil map: replaces the binding of `k` or adds one. -/
def mapSet (m : HeaderMap) (k v : String) : HeaderMap :=
  match m with
  | [] => [(k, v)]
  | (k1, v1) :: rest => if k1 = k then (k, v) :: rest else (k1, v1) :: mapSet rest k v

/-- Map read on a nil-able map; reading the nil map finds nothing. -/
def headersGet (h : Option HeaderMap) (k : String) : Option String :=
  match h with
  | none => none
  | some m => mapGet m k

/-- A Go `error` value with its rendered message. -/
structure GoError where
  msg : String
  deriving DecidableEq, Repr

/-- Run-time panics the embedded code can raise. -/
inductive GoPanic where
  | nilMapAssignment
  | nilDereference
  deriving DecidableEq, Repr

/-- Map write on a nil-able map; Go panics on a write into the nil map. -/
def headersSet (h : Option HeaderMap) (k v : String) : Except GoPanic HeaderMap :=
  match h with
  | none => .error .nilMapAssignment
  | some m => .ok (mapSet m k v)

/-- The `ServiceConfigV1` struct as `getServiceConfiguration` builds it. -/
structure ServiceConfigV1 where
  SwaggerURL : String
  InsecureSkipVerify : Bool
  deriving DecidableEq, Repr

/-- One `log.Printf` argument. -/
inductive LogArg where
  | str (s : String)
  | int (n : Int)
  | names (l : List String)
  | namesPtr (l : List String)
  | serviceConfig (c : Option ServiceConfigV1)
  deriving DecidableEq, Repr

/-- One `log.Printf` call: the format string and its arguments. -/
structure LogEntry where
  format : String
  args : List LogArg
  deriving DecidableEq, Repr

/-! ## HTTP transport -/

/-- The four methods of `http_goclient.HttpClientIface` the code calls. -/
inductive HttpVerb where
  | PostJson
  | PutJson
  | Get
  | Delete
  deriving DecidableEq, Repr

/-- A request or response payload (`interface{}`), `none` for nil. -/
abbrev Payload := Option String

/-- One call on a transport: which client, which method, and its arguments. -/
structure HttpCall where
  client : Nat
  verb : HttpVerb
  url : String
  headers : Option HeaderMap
  body : Payload
  out : Bool
  deriving DecidableEq, Repr

/-- The parts of `*http.Response` the code reads; header keys are canonical. -/
structure HttpResponse where
  StatusCode : Int
  Header : List (String × List String)
  deriving DecidableEq, Repr

/-- `http.Header.Get` for a key already in canonical form: first value, or the empty string. -/
def headerGet (h : List (String × List String)) (key : String) : String :=
  match h with
  | [] => ""
  | (k, vs) :: rest =>
    if k = key then
      match vs with
      | [] => ""
      | v :: _ => v
    else headerGet rest key

/-- What a transport call returns: a response with a nil error, or a non-nil error
(with or without a response). -/
inductive TransportResult where
  | ok (r : HttpResponse)
  | fail (r : Option HttpResponse) (err : GoError)
  deriving DecidableEq, Repr

/-- The transport oracle: the calls issued so far, the call, its result. -/
abbrev Net := List HttpCall → HttpCall → TransportResult

/-! ## Data model of the resolver -/

/-- The `SpecSecurityScheme` value: a scheme referenced by name. -/
structure SpecSecurityScheme where
  Name : String
  deriving DecidableEq, Repr

/-- The `SpecSecuritySchemes` slice. -/
abbrev SpecSecuritySchemes := List SpecSecurityScheme

/-- The `authContext` struct of `auth.go`. -/
structure authContext where
  headers : Option HeaderMap
  url : String
  deriving DecidableEq, Repr

/-- The `apiKey` struct of `auth.go`. -/
structure apiKey where
  name : String
  value : String
  deriving DecidableEq, Repr

/-- The `apiKeyHeader` struct: embeds `apiKey`. -/
structure apiKeyHeader extends apiKey
  deriving DecidableEq, Repr

/-- The `apiKeyQuery` struct: embeds `apiKey`. -/
structure apiKeyQuery extends apiKey
  deriving DecidableEq, Repr

/-- The `apiRefreshTokenAuthenticator` struct: embeds `apiKey`; `httpClient` names its transport. -/
structure apiRefreshTokenAuthenticator extends apiKey where
  refreshTokenURL : String
  httpClient : Nat
  deriving DecidableEq, Repr

/-- The implementations of the `authenticator` interface found in the source. -/
inductive authenticator where
  | keyHeader (a : apiKeyHeader)
  | keyQuery (a : apiKeyQuery)
  | refreshToken (a : apiRefreshTokenAuthenticator)
  deriving DecidableEq, Repr

/-- Observable state: transport calls issued so far (oldest first) and, as ghost
state, the authenticators whose `prepareAuth` has been dispatched. -/
structure World where
  calls : List HttpCall
  dispatched : List authenticator
  deriving DecidableEq, Repr

/-- The `SpecHeaderParam` value. -/
structure SpecHeaderParam where
  Name : String
  TerraformName : String
  deriving DecidableEq, Repr

/-- The fields and methods of `providerConfiguration` the resolver uses.
`SecuritySchemaDefinitions` is the map from scheme name to authenticator; a name
without a binding reads as nil. -/
structure providerConfiguration where
  SecuritySchemaDefinitions : List (String × authenticator)
  getHeaderValueFor : SpecHeaderParam → String
  getRegion : String
  getEndPoint : String → String

/-- Map read `providerConfig.SecuritySchemaDefinitions[name]`; `none` is the nil authenticator. -/
def providerConfiguration.securitySchemaDefinition (cfg : providerConfiguration)
    (name : String) : Option authenticator :=
  match cfg.SecuritySchemaDefinitions.find? (fun p => decide (p.1 = name)) with
  | none => none
  | some p => some p.2

/-- The `apiAuth` struct: the global schemes pointer, `none` when nil. -/
structure apiAuth where
  globalSecuritySchemes : Option SpecSecuritySchemes
  deriving DecidableEq, Repr

/-- Modelled from the spec: the constant `authorizationHeader` is declared outside the
given sources; the spec calls it the canonical authorization header key. -/
def authorizationHeader : String := "Authorization"

/-- The constants `http.StatusOK` and `http.StatusNoContent`. -/
def StatusOK : Int := 200

/-- The constant `http.StatusNoContent`. -/
def StatusNoContent : Int := 204

/-! ## `auth.go` -/

/-- Issue one call on the transport: ask the oracle, then record the call. -/
def httpDo (net : Net) (c : HttpCall) (w : World) : TransportResult × World :=
  (net w.calls c, { w with calls := w.calls ++ [c] })

/-- The method `apiAuth.authRequired`: the pair it returns, and its log lines. -/
def apiAuth.authRequired (oa : apiAuth) (url : String)
    (operationSecuritySchemes : SpecSecuritySchemes) :
    (Bool × SpecSecuritySchemes) × List LogEntry :=
  if operationSecuritySchemes.length ≠ 0 then
    ((true, operationSecuritySchemes),
      [⟨"operation security policies found for '%s' (overriding global security config if applicable). Selected the following based on order of appearance in the list %+v",
        [.str url, .names (operationSecuritySchemes.map (fun s => s.Name))]⟩])
  else
    let l1 : LogEntry :=
      ⟨"operation security schemes missing, falling back to global security schemes (if there's any)", []⟩
    match oa.globalSecuritySchemes with
    | none => ((false, []), [l1])
    | some g =>
      if g.length ≠ 0 then
        ((true, g),
          [l1, ⟨"the global configuration contains security schemes, selected the following based on order of appearance in the list %+v",
            [.namesPtr (g.map (fun s => s.Name))]⟩])
      else ((false, []), [l1])

/-- The message of the error `confirmOperationSecurityPoliciesAreDefined` builds: the
scheme struct is formatted with `%s`, which prints its field between braces. -/
def policyNotDefinedError (s : SpecSecurityScheme) : GoError :=
  ⟨"operation's security policy '\x7b" ++ s.Name ++ "\x7d' is not defined, please make sure the swagger file contains a security definition named '\x7b" ++ s.Name ++ "\x7d' under the securityDefinitions section"⟩

/-- The method `apiAuth.confirmOperationSecurityPoliciesAreDefined`. -/
def apiAuth.confirmOperationSecurityPoliciesAreDefined (oa : apiAuth)
    (operationSecuritySchemes : SpecSecuritySchemes) (providerConfig : providerConfiguration) :
    Option GoError :=
  match operationSecuritySchemes with
  | [] => none
  | s :: rest =>
    match providerConfig.securitySchemaDefinition s.Name with
    | none => some (policyNotDefinedError s)
    | some _ => oa.confirmOperationSecurityPoliciesAreDefined rest providerConfig

/-- The method `apiKeyHeader.getContext`. -/
def apiKeyHeader.getContext (a : apiKeyHeader) : apiKey := a.toapiKey

/-- The method `apiKeyHeader.prepareAuth`: the context after the call and the returned error. -/
def apiKeyHeader.prepareAuth (a : apiKeyHeader) (ctx : authContext) :
    Except GoPanic (authContext × Option GoError) :=
  let apiKey := a.getContext
  match headersSet ctx.headers apiKey.name apiKey.value with
  | .error p => .error p
  | .ok m => .ok ({ ctx with headers := some m }, none)

/-- The method `apiKeyQuery.getContext`. -/
def apiKeyQuery.getContext (a : apiKeyQuery) : apiKey := a.toapiKey

/-- The method `apiKeyQuery.prepareAuth`: `fmt.Sprintf("%s?%s=%s", url, name, value)`. -/
def apiKeyQuery.prepareAuth (a : apiKeyQuery) (ctx : authContext) :
    Except GoPanic (authContext × Option GoError) :=
  let apiKey := a.getContext
  .ok ({ ctx with url := ctx.url ++ "?" ++ apiKey.name ++ "=" ++ apiKey.value }, none)

/-! ## `openapi_spec_authenticator_refresh_token.go` -/

/-- The method `apiRefreshTokenAuthenticator.getContext`. -/
def apiRefreshTokenAuthenticator.getContext (a : apiRefreshTokenAuthenticator) : apiKey :=
  a.toapiKey

/-- The POST that the refresh-token authenticator issues. -/
def apiRefreshTokenAuthenticator.request (a : apiRefreshTokenAuthenticator) : HttpCall :=
  let apiKey := a.getContext
  { client := a.httpClient, verb := .PostJson, url := a.refreshTokenURL,
    headers := some [(apiKey.name, apiKey.value)], body := none, out := false }

/-- Error for a token-exchange answer whose status is neither 200 nor 204. -/
def refreshStatusError (url : String) (status : Int) : GoError :=
  ⟨"refresh token POST response '" ++ url ++ "' status code '" ++ toString status
    ++ "' not matching expected response status code [" ++ toString StatusOK ++ ", "
    ++ toString StatusNoContent ++ "]"⟩

/-- Error for a token-exchange answer without an access token. -/
def refreshMissingTokenError (url : String) : GoError :=
  ⟨"refresh token POST response '" ++ url ++ "' is missing the access token"⟩

/-- The method `apiRefreshTokenAuthenticator.prepareAuth`. -/
def apiRefreshTokenAuthenticator.prepareAuth (a : apiRefreshTokenAuthenticator) (net : Net)
    (ctx : authContext) (w : World) : Except GoPanic (authContext × Option GoError × World) :=
  let (res, w1) := httpDo net a.request w
  match res with
  | .fail _ err => .ok (ctx, some err, w1)
  | .ok r =>
    if r.StatusCode ≠ StatusOK ∧ r.StatusCode ≠ StatusNoContent then
      .ok (ctx, some (refreshStatusError a.refreshTokenURL r.StatusCode), w1)
    else
      let accessToken := headerGet r.Header authorizationHeader
      if accessToken = "" then
        .ok (ctx, some (refreshMissingTokenError a.refreshTokenURL), w1)
      else
        let headers : HeaderMap :=
          match ctx.headers with
          | none => []
          | some m => m
        .ok ({ ctx with headers := some (mapSet headers authorizationHeader accessToken) },
          none, w1)

/-! ## Dispatch and the resolver -/

/-- Interface call `authenticator.prepareAuth(authContext)`: notes the dispatch in the
ghost trace and runs the implementation. -/
def authenticator.prepareAuth (a : authenticator) (net : Net) (ctx : authContext)
    (w : World) : Except GoPanic (authContext × Option GoError × World) :=
  let w1 : World := { w with dispatched := w.dispatched ++ [a] }
  match a with
  | .keyHeader h =>
    match h.prepareAuth ctx with
    | .error p => .error p
    | .ok (c, e) => .ok (c, e, w1)
  | .keyQuery q =>
    match q.prepareAuth ctx with
    | .error p => .error p
    | .ok (c, e) => .ok (c, e, w1)
  | .refreshToken r => r.prepareAuth net ctx w1

/-- The `for` loop of `apiAuth.prepareAuth` over the required schemes: looks each one up
and runs it on the shared context, stopping at the first error. -/
def prepareAuthLoop (providerConfig : providerConfiguration) (net : Net) :
    SpecSecuritySchemes → authContext → World →
      Except GoPanic (authContext × Option GoError × World)
  | [], ctx, w => .ok (ctx, none, w)
  | s :: rest, ctx, w =>
    match providerConfig.securitySchemaDefinition s.Name with
    | none => .error .nilDereference
    | some a =>
      match a.prepareAuth net ctx w with
      | .error p => .error p
      | .ok (ctx1, some err, w1) => .ok (ctx1, some err, w1)
      | .ok (ctx1, none, w1) => prepareAuthLoop providerConfig net rest ctx1 w1

/-- What `apiAuth.prepareAuth` hands back: the context, the error, the state and the log. -/
structure AuthResult where
  ctx : authContext
  err : Option GoError
  world : World
  logs : List LogEntry
  deriving DecidableEq, Repr

/-- The method `apiAuth.prepareAuth`. -/
def apiAuth.prepareAuth (oa : apiAuth) (url : String)
    (operationSecuritySchemes : SpecSecuritySchemes) (providerConfig : providerConfiguration)
    (net : Net) (w : World) : Except GoPanic AuthResult :=
  let ctx0 : authContext := { headers := some [], url := url }
  let ((required, requiredSecuritySchemes), logs) :=
    oa.authRequired url operationSecuritySchemes
  if required then
    match oa.confirmOperationSecurityPoliciesAreDefined requiredSecuritySchemes providerConfig with
    | some err => .ok ⟨ctx0, some err, w, logs⟩
    | none =>
      match prepareAuthLoop providerConfig net requiredSecuritySchemes ctx0 w with
      | .error p => .error p
      | .ok (c, e, w1) => .ok ⟨c, e, w1, logs⟩
  else .ok ⟨ctx0, none, w, logs⟩

/-! ## `openapi_client.go`: the request dispatcher -/

/-- The fields of `specResourceOperation` the dispatcher reads.  A nil slice and an
empty slice of header parameters are both the empty list. -/
structure specResourceOperation where
  SecuritySchemes : SpecSecuritySchemes
  HeaderParameters : List SpecHeaderParam
  deriving DecidableEq, Repr

/-- The four operations of a resource, `specResourceOperations`; each is a pointer,
`none` when nil. -/
structure specResourceOperations where
  Post : Option specResourceOperation
  Get : Option specResourceOperation
  Put : Option specResourceOperation
  Delete : Option specResourceOperation
  deriving DecidableEq, Repr

/-- The methods of the `SpecBackendConfiguration` interface that `getResourceURL` calls.
A method returning `(value, error)` is an `Except`: the code drops the value whenever
the error is not nil.  `isMultiRegion` returns the flag, a string the code discards and
the regions. -/
structure SpecBackendConfiguration where
  isMultiRegion : Except GoError (Bool × String × List String)
  getDefaultRegion : List String → Except GoError String
  getHostByRegion : String → Except GoError String
  getHost : Except GoError String
  getBasePath : String
  getHTTPSchemes : List String

/-- The methods of the `SpecResource` interface that the client calls. -/
structure SpecResource where
  getResourceName : String
  getHost : Except GoError String
  getResourcePath : List String → Except GoError String
  getResourceOperations : specResourceOperations

/-- The `ProviderClient` struct; `httpClient` names its transport. -/
structure ProviderClient where
  openAPIBackendConfiguration : SpecBackendConfiguration
  httpClient : Nat
  providerConfiguration : providerConfiguration
  apiAuthenticator : apiAuth

/-- The constants `httpGet`, `httpPost`, `httpPut` and `httpDelete`. -/
def httpGet : String := "GET"

/-- The constant `httpPost`. -/
def httpPost : String := "POST"

/-- The constant `httpPut`. -/
def httpPut : String := "PUT"

/-- The constant `httpDelete`. -/
def httpDelete : String := "DELETE"

/-- The method `ProviderClient.appendUserAgentHeader`; `userAgent` is the header-name
constant, declared outside the given sources and taken as a parameter. -/
def ProviderClient.appendUserAgentHeader (_o : ProviderClient) (userAgent : String)
    (headers : Option HeaderMap) (value : String) : Except GoPanic HeaderMap :=
  headersSet headers userAgent value

/-- The method `ProviderClient.logHeadersSafely`: the lines it logs, in iteration order. -/
def ProviderClient.logHeadersSafely (_o : ProviderClient) (headers : HeaderMap) :
    List LogEntry :=
  match headers with
  | [] => []
  | (headerName, headerValue) :: rest =>
    (if headerValue = "" then
      [(⟨"[DEBUG] Request Header '%s' sent with empty value :(", [.str headerName]⟩ : LogEntry)]
    else [])
    ++ [⟨"[DEBUG] Request Header '%s' sent", [.str headerName]⟩]
    ++ ProviderClient.logHeadersSafely _o rest

/-- The method `ProviderClient.appendOperationHeaders`: writes one header per operation
header parameter into the map it is given. -/
def ProviderClient.appendOperationHeaders (o : ProviderClient)
    (operationHeaders : List SpecHeaderParam) (providerConfig : OpenAPI.providerConfiguration)
    (headers : Option HeaderMap) : Except GoPanic (Option HeaderMap) :=
  match operationHeaders with
  | [] => .ok headers
  | headerParam :: rest =>
    match headersSet headers headerParam.Name (providerConfig.getHeaderValueFor headerParam) with
    | .error p => .error p
    | .ok m => o.appendOperationHeaders rest providerConfig (some m)

/-- What a dispatcher method hands back: response, error, the state and the log. -/
structure ClientResult where
  resp : Option HttpResponse
  err : Option GoError
  world : World
  logs : List LogEntry
  deriving DecidableEq, Repr

/-- The pair `(*http.Response, error)` of a transport result. -/
def TransportResult.toPair : TransportResult → Option HttpResponse × Option GoError
  | .ok r => (some r, none)
  | .fail r err => (r, some err)

/-- The method `ProviderClient.performRequest`.  `userAgent` is the header-name constant
and `userAgentHeader` the value of `version.BuildUserAgent(runtime.GOOS, runtime.GOARCH)`,
both from outside the given sources.  `operation` is a pointer, `none` when nil.  The
decoding of the response body into `responsePayload` is left to the transport. -/
def ProviderClient.performRequest (o : ProviderClient) (userAgent userAgentHeader : String)
    (net : Net) (method : String) (resourceURL : String)
    (operation : Option specResourceOperation) (requestPayload : Payload) (w : World) :
    Except GoPanic ClientResult :=
  match operation with
  | none => .error .nilDereference
  | some op =>
    match o.apiAuthenticator.prepareAuth resourceURL op.SecuritySchemes
        o.providerConfiguration net w with
    | .error p => .error p
    | .ok r =>
      match r.err with
      | some err => .ok ⟨none, some err, r.world, r.logs⟩
      | none =>
        match o.appendOperationHeaders op.HeaderParameters o.providerConfiguration
            r.ctx.headers with
        | .error p => .error p
        | .ok h1 =>
          let l1 : LogEntry := ⟨"[DEBUG] Performing %s %s", [.str method, .str r.ctx.url]⟩
          match o.appendUserAgentHeader userAgent h1 userAgentHeader with
          | .error p => .error p
          | .ok h2 =>
            let logs := r.logs ++ [l1] ++ o.logHeadersSafely h2
            let send (verb : HttpVerb) (body : Payload) (out : Bool) : Except GoPanic ClientResult :=
              let (res, w1) := httpDo net
                { client := o.httpClient, verb := verb, url := r.ctx.url, headers := some h2,
                  body := body, out := out } r.world
              .ok ⟨res.toPair.1, res.toPair.2, w1, logs⟩
            if method = httpPost then send .PostJson requestPayload true
            else if method = httpPut then send .PutJson requestPayload true
            else if method = httpGet then send .Get none true
            else if method = httpDelete then send .Delete none false
            else .ok ⟨none, some ⟨"method '" ++ method ++ "' not supported"⟩, r.world, logs⟩

/-! ## `openapi_client.go`: the URL resolver -/

/-- The test `strings.Index(s, "/") == 0`: the first `/` of `s` is its first character. -/
def beginsWithSlash (s : String) : Bool :=
  match s.data with
  | c :: _ => c = '/'
  | [] => false

/-- The test `strings.HasSuffix(s, "/")`. -/
def endsWithSlash (s : String) : Bool :=
  match s.data.reverse with
  | c :: _ => c = '/'
  | [] => false

/-- First part of `getResourceURL`: the host according to the backend configuration,
by region when the backend is multi-region, else the single host. -/
def ProviderClient.backendHost (o : ProviderClient) : Except GoError String :=
  match o.openAPIBackendConfiguration.isMultiRegion with
  | .error err => .error err
  | .ok (isMultiRegion, _, regions) =>
    if isMultiRegion then
      let region := o.providerConfiguration.getRegion
      if region = "" then
        match o.openAPIBackendConfiguration.getDefaultRegion regions with
        | .error err => .error err
        | .ok region => o.openAPIBackendConfiguration.getHostByRegion region
      else o.openAPIBackendConfiguration.getHostByRegion region
    else o.openAPIBackendConfiguration.getHost

/-- The loop of `getResourceURL` over `getHTTPSchemes()`: starts from `http` and switches
to `https` at every element equal to `https`. -/
def defaultScheme (schemes : List String) : String :=
  schemes.foldl (fun d scheme => if scheme = "https" then "https" else d) "http"

/-- Last part of `getResourceURL`: the path made to begin with a slash, then joined with
scheme, host and base path by `fmt.Sprintf`. -/
def joinResourceURL (scheme host basePath resourceRelativePath : String) : String :=
  let path :=
    if beginsWithSlash resourceRelativePath then resourceRelativePath
    else "/" ++ resourceRelativePath
  if basePath ≠ "" ∧ basePath ≠ "/" then
    if beginsWithSlash basePath then scheme ++ "://" ++ host ++ basePath ++ path
    else scheme ++ "://" ++ host ++ "/" ++ basePath ++ path
  else scheme ++ "://" ++ host ++ path

/-- The error of `getResourceURL` for an empty host or path. -/
def hostAndPathMandatoryError (host resourceRelativePath : String) : GoError :=
  ⟨"host and path are mandatory attributes to get the resource URL - host['" ++ host
    ++ "'], path['" ++ resourceRelativePath ++ "']"⟩

/-- The method `ProviderClient.getResourceURL`: the pair it returns (`("", err)` is
`.error err`) and its log lines. -/
def ProviderClient.getResourceURL (o : ProviderClient) (resource : SpecResource)
    (ids : List String) : Except GoError String × List LogEntry :=
  match o.backendHost with
  | .error err => (.error err, [])
  | .ok host =>
    let basePath := o.openAPIBackendConfiguration.getBasePath
    match resource.getResourcePath ids with
    | .error err => (.error err, [])
    | .ok resourceRelativePath =>
      match resource.getHost with
      | .error err => (.error err, [])
      | .ok hostOverride =>
        let (host1, logs1) : String × List LogEntry :=
          if hostOverride ≠ "" then
            (hostOverride,
              [⟨"[INFO] resource '%s' is configured with host override, API calls will be made against '%s' instead of '%s'",
                [.str resourceRelativePath, .str hostOverride, .str host]⟩])
          else (host, [])
        let endPointHost := o.providerConfiguration.getEndPoint resource.getResourceName
        let (host2, logs2) : String × List LogEntry :=
          if endPointHost ≠ "" then
            (endPointHost,
              [⟨"[INFO] resource '%s' is configured with endpoint override, API calls will be made against '%s' instead of '%s'",
                [.str resourceRelativePath, .str endPointHost, .str host1]⟩])
          else (host1, [])
        if host2 = "" ∨ resourceRelativePath = "" then
          (.error (hostAndPathMandatoryError host2 resourceRelativePath), logs1 ++ logs2)
        else
          (.ok (joinResourceURL (defaultScheme o.openAPIBackendConfiguration.getHTTPSchemes)
            host2 basePath resourceRelativePath), logs1 ++ logs2)

/-- The method `ProviderClient.getResourceIDURL`; `ids.getLastD` reads `ids[len(ids)-1]`
of a list known to be non-empty. -/
def ProviderClient.getResourceIDURL (o : ProviderClient) (resource : SpecResource)
    (ids : List String) : Except GoError String × List LogEntry :=
  if ids.length ≤ 0 then
    (.error ⟨"getResourceIDURL cannot be called without the instance id"⟩, [])
  else
    match o.getResourceURL resource ids with
    | (.error err, logs) => (.error err, logs)
    | (.ok url, logs) =>
      if endsWithSlash url then (.ok (url ++ ids.getLastD ""), logs)
      else (.ok (url ++ "/" ++ ids.getLastD ""), logs)

/-! ## `openapi_client.go`: the four verbs -/

/-- Runs `performRequest` after the URL was resolved, keeping the log lines of the
resolution in front. -/
def ProviderClient.performAfterURL (o : ProviderClient) (userAgent userAgentHeader : String)
    (net : Net) (method : String) (resolved : Except GoError String × List LogEntry)
    (operation : Option specResourceOperation) (requestPayload : Payload) (w : World) :
    Except GoPanic ClientResult :=
  match resolved with
  | (.error err, logs) => .ok ⟨none, some err, w, logs⟩
  | (.ok resourceURL, logs) =>
    match o.performRequest userAgent userAgentHeader net method resourceURL operation
        requestPayload w with
    | .error p => .error p
    | .ok r => .ok { r with logs := logs ++ r.logs }

/-- The method `ProviderClient.Post`. -/
def ProviderClient.Post (o : ProviderClient) (userAgent userAgentHeader : String) (net : Net)
    (resource : SpecResource) (requestPayload : Payload) (w : World) :
    Except GoPanic ClientResult :=
  let ids : List String := []
  o.performAfterURL userAgent userAgentHeader net httpPost (o.getResourceURL resource ids)
    resource.getResourceOperations.Post requestPayload w

/-- The method `ProviderClient.Put`; the `id` argument is not read by the body. -/
def ProviderClient.Put (o : ProviderClient) (userAgent userAgentHeader : String) (net : Net)
    (resource : SpecResource) (_id : String) (requestPayload : Payload) (w : World) :
    Except GoPanic ClientResult :=
  let ids : List String := []
  o.performAfterURL userAgent userAgentHeader net httpPut (o.getResourceIDURL resource ids)
    resource.getResourceOperations.Put requestPayload w

/-- The method `ProviderClient.Get`; the `id` argument is not read by the body. -/
def ProviderClient.Get (o : ProviderClient) (userAgent userAgentHeader : String) (net : Net)
    (resource : SpecResource) (_id : String) (w : World) : Except GoPanic ClientResult :=
  let ids : List String := []
  o.performAfterURL userAgent userAgentHeader net httpGet (o.getResourceIDURL resource ids)
    resource.getResourceOperations.Get none w

/-- The method `ProviderClient.Delete`; the `id` argument is not read by the body. -/
def ProviderClient.Delete (o : ProviderClient) (userAgent userAgentHeader : String) (net : Net)
    (resource : SpecResource) (_id : String) (w : World) : Except GoPanic ClientResult :=
  let ids : List String := []
  o.performAfterURL userAgent userAgentHeader net httpDelete (o.getResourceIDURL resource ids)
    resource.getResourceOperations.Delete none w

/-! ## `openapi_spec_authenticator_refresh_token.go`: the constructor -/

/-- The function `newAPIRefreshTokenAuthenticator`; the transport it allocates
(`&http_goclient.HttpClient{...}`) is named by `client`. -/
def newAPIRefreshTokenAuthenticator (name refreshToken refreshTokenURL : String)
    (client : Nat) : apiRefreshTokenAuthenticator :=
  { name := name, value := refreshToken, refreshTokenURL := refreshTokenURL,
    httpClient := client }

/-! ## `openapi_v2_headers.go` -/

/-- The fields of `spec.Parameter` that the header functions read.  `Extensions` holds
the string-valued vendor extensions under their lower-cased keys, which is what
`Extensions.GetString` can return. -/
structure Parameter where
  Name : String
  In : String
  Extensions : List (String × String)
  deriving DecidableEq, Repr

/-- The call `parameter.Extensions.GetString(key)` for a lower-case key: the pair
`(value, exists)` as an `Option`. -/
def Parameter.extensionString (parameter : Parameter) (key : String) : Option String :=
  match parameter.Extensions.find? (fun e => decide (e.1 = key)) with
  | none => none
  | some e => some e.2

/-- The constant `extTfHeader`. -/
def extTfHeader : String := "x-terraform-header"

/-- The `parameterGroups` type. -/
abbrev parameterGroups := List (List Parameter)

/-- The `SpecHeaderParameters` slice. -/
abbrev SpecHeaderParameters := List SpecHeaderParam

/-- The body of the inner loop of `getHeaderConfigurationsForParameterGroups` for one
parameter: the `switch` on `parameter.In`. -/
def appendHeaderConfiguration (headerParameters : SpecHeaderParameters)
    (parameter : Parameter) : SpecHeaderParameters :=
  if parameter.In = "header" then
    match parameter.extensionString extTfHeader with
    | some preferredName =>
      headerParameters ++ [{ Name := parameter.Name, TerraformName := preferredName }]
    | none => headerParameters ++ [{ Name := parameter.Name, TerraformName := "" }]
  else headerParameters

/-- The function `getHeaderConfigurationsForParameterGroups`: the two nested loops. -/
def getHeaderConfigurationsForParameterGroups (parametersGroup : parameterGroups) :
    SpecHeaderParameters :=
  parametersGroup.foldl
    (fun headerParameters parameters => parameters.foldl appendHeaderConfiguration
      headerParameters) []

/-- The function `getHeaderConfigurations`. -/
def getHeaderConfigurations (parameters : List Parameter) : SpecHeaderParameters :=
  getHeaderConfigurationsForParameterGroups [parameters]

/-- The field of `spec.Operation` that the header functions read. -/
structure Operation where
  Parameters : List Parameter
  deriving DecidableEq, Repr

/-- The operations of `spec.PathItem` that `getPathHeaderParams` reads; each is a
pointer, `none` when nil. -/
structure PathItem where
  Post : Option Operation
  Get : Option Operation
  Put : Option Operation
  Delete : Option Operation
  deriving DecidableEq, Repr

/-- The function `appendOperationParametersIfPresent`. -/
def appendOperationParametersIfPresent (parametersGroups : parameterGroups)
    (operation : Option Operation) : parameterGroups :=
  match operation with
  | some op => parametersGroups ++ [op.Parameters]
  | none => parametersGroups

/-- The function `getPathHeaderParams`. -/
def getPathHeaderParams (path : PathItem) : SpecHeaderParameters :=
  let parametersGroup : parameterGroups := []
  let parametersGroup := appendOperationParametersIfPresent parametersGroup path.Post
  let parametersGroup := appendOperationParametersIfPresent parametersGroup path.Get
  let parametersGroup := appendOperationParametersIfPresent parametersGroup path.Put
  let parametersGroup := appendOperationParametersIfPresent parametersGroup path.Delete
  getHeaderConfigurationsForParameterGroups parametersGroup

/-! ## `plugin_config.go`: `getServiceConfiguration` -/

/-- The constant `OpenAPIPluginConfigurationFileName`. -/
def OpenAPIPluginConfigurationFileName : String := "terraform-provider-openapi.yaml"

/-- The constant `otfVarInsecureSkipVerify`. -/
def otfVarInsecureSkipVerify : String := "OTF_INSECURE_SKIP_VERIFY"

/-- The call `fmt.Sprintf(otfVarSwaggerURL, name)` for the constant
`otfVarSwaggerURL = "OTF_VAR_%s_SWAGGER_URL"`. -/
def otfVarSwaggerURL (name : String) : String := "OTF_VAR_" ++ name ++ "_SWAGGER_URL"

/-- The field of `PluginConfigSchemaV1` that `getServiceConfiguration` writes: the map
of services by provider name. -/
structure PluginConfigSchemaV1 where
  Services : List (String × ServiceConfigV1)
  deriving DecidableEq, Repr

/-- The `PluginConfiguration` struct.  `Configuration` is an `io.Reader`: `none` when
nil, else what `ioutil.ReadAll` returns for it. -/
structure PluginConfiguration where
  ProviderName : String
  Configuration : Option (Except GoError String)

/-- The functions that `getServiceConfiguration` calls and that are declared outside the
given sources: `os.Getenv`, `strings.ToUpper`, `strconv.ParseBool` (its error is
dropped by the caller), `yaml.Unmarshal` into the current schema value, and the methods
`Validate`, `GetServiceConfig` (its result is a nil-able interface) and
`GetSwaggerURL`. -/
structure PluginEnvironment where
  getenv : String → String
  toUpper : String → String
  parseBool : String → Bool
  unmarshal : String → PluginConfigSchemaV1 → Except GoError PluginConfigSchemaV1
  validate : PluginConfigSchemaV1 → Option GoError
  getServiceConfig : PluginConfigSchemaV1 → String → Except GoError (Option ServiceConfigV1)
  getSwaggerURL : ServiceConfigV1 → String

/-- What `getServiceConfiguration` hands back: the pair it returns, its log lines and,
as ghost state, whether `ioutil.ReadAll(p.Configuration)` was called. -/
structure ServiceConfigurationResult where
  config : Option ServiceConfigV1
  err : Option GoError
  logs : List LogEntry
  readConfiguration : Bool
  deriving DecidableEq, Repr

/-- The error of `getServiceConfiguration` when no swagger URL was found. -/
def swaggerURLNotProvidedError (providerName : String) : GoError :=
  ⟨"swagger url not provided, please export OTF_VAR_<provider_name>_SWAGGER_URL env variable with the URL where '"
    ++ providerName ++ "' service provider is exposing the swagger file OR create a plugin configuration file at ~/.terraform.d/plugins following the Plugin configuration schema specifications"⟩

/-- End of `getServiceConfiguration`: the debug line and the final check. -/
def PluginConfiguration.checkServiceConfiguration (p : PluginConfiguration)
    (k : PluginEnvironment) (serviceConfig : Option ServiceConfigV1) (logs : List LogEntry)
    (readConfiguration : Bool) : ServiceConfigurationResult :=
  let logs := logs ++ [⟨"[DEBUG] serviceConfig = %+v", [.serviceConfig serviceConfig]⟩]
  match serviceConfig with
  | none => ⟨none, some (swaggerURLNotProvidedError p.ProviderName), logs, readConfiguration⟩
  | some sc =>
    if k.getSwaggerURL sc = "" then
      ⟨none, some (swaggerURLNotProvidedError p.ProviderName), logs, readConfiguration⟩
    else ⟨some sc, none, logs, readConfiguration⟩

/-- Middle of `getServiceConfiguration`: the fall back to the configuration reader when
no service configuration was found so far. -/
def PluginConfiguration.fallBackToReader (p : PluginConfiguration) (k : PluginEnvironment)
    (pluginConfigV1 : PluginConfigSchemaV1) (serviceConfig : Option ServiceConfigV1)
    (logs : List LogEntry) : ServiceConfigurationResult :=
  match serviceConfig with
  | some sc => p.checkServiceConfiguration k (some sc) logs false
  | none =>
    match p.Configuration with
    | none => p.checkServiceConfiguration k none logs false
    | some (.error _) =>
      ⟨none, some ⟨"failed to read " ++ OpenAPIPluginConfigurationFileName
        ++ " configuration file"⟩, logs, true⟩
    | some (.ok source) =>
      match k.unmarshal source pluginConfigV1 with
      | .error err =>
        ⟨none, some ⟨"failed to unmarshall " ++ OpenAPIPluginConfigurationFileName
          ++ " configuration file - error = " ++ err.msg⟩, logs, true⟩
      | .ok pluginConfig =>
        match k.validate pluginConfig with
        | some err =>
          ⟨none, some ⟨"error occurred while validating '" ++ OpenAPIPluginConfigurationFileName
            ++ "' - error = " ++ err.msg⟩, logs, true⟩
        | none =>
          match k.getServiceConfig pluginConfig p.ProviderName with
          | .error err =>
            ⟨none, some ⟨"error occurred when getting service configuration from plugin configuration file "
              ++ OpenAPIPluginConfigurationFileName ++ " - error = " ++ err.msg⟩, logs, true⟩
          | .ok sc => p.checkServiceConfiguration k sc logs true

/-- The method `PluginConfiguration.getServiceConfiguration`. -/
def PluginConfiguration.getServiceConfiguration (p : PluginConfiguration)
    (k : PluginEnvironment) : ServiceConfigurationResult :=
  let pluginConfigV1 : PluginConfigSchemaV1 := ⟨[]⟩
  let skipVerify := k.parseBool (k.getenv otfVarInsecureSkipVerify)
  let (swaggerURLEnvVar, apiDiscoveryURL) : String × String :=
    if k.getenv (otfVarSwaggerURL p.ProviderName) = "" then
      (otfVarSwaggerURL (k.toUpper p.ProviderName),
        k.getenv (otfVarSwaggerURL (k.toUpper p.ProviderName)))
    else (otfVarSwaggerURL p.ProviderName, k.getenv (otfVarSwaggerURL p.ProviderName))
  if apiDiscoveryURL ≠ "" then
    let l1 : LogEntry :=
      ⟨"[INFO] %s set with value %s", [.str swaggerURLEnvVar, .str apiDiscoveryURL]⟩
    let pluginConfigV1 : PluginConfigSchemaV1 :=
      ⟨[(p.ProviderName, ⟨apiDiscoveryURL, skipVerify⟩)]⟩
    match k.getServiceConfig pluginConfigV1 p.ProviderName with
    | .error err => ⟨none, some err, [l1], false⟩
    | .ok serviceConfig => p.fallBackToReader k pluginConfigV1 serviceConfig [l1]
  else p.fallBackToReader k pluginConfigV1 none []

/-! ## `createSecuritySchemes` -/

/-- Modelled from the spec: `createSecuritySchemes` is declared outside the given
sources; only its test and the doc comment of `authRequired` are there.  The spec says
that of several alternative groups the first-declared one takes precedence, so the
result is one scheme for each name of the first group, and nothing for an empty list.
A group (`map[string][]string`) is a list of names with their scopes. -/
def createSecuritySchemes (securitySchemes : List (List (String × List String))) :
    SpecSecuritySchemes :=
  match securitySchemes with
  | [] => []
  | first :: _ => first.map (fun entry => ⟨entry.1⟩)

/-! ## Notions used to state the properties -/

/-- The header key an authenticator assigns when its `prepareAuth` succeeds, read off
the three implementations: the configured key name for `apiKeyHeader`
(`headers[apiKey.name] = ...`), the fixed `authorizationHeader` for the refresh-token
authenticator (`headers[authorizationHeader] = ...`), none for `apiKeyQuery`. -/
def authenticator.headerKey : authenticator → Option String
  | .keyHeader h => some h.getContext.name
  | .keyQuery _ => none
  | .refreshToken _ => some authorizationHeader

/-- What the caller of `apiAuth.prepareAuth` gets back or can observe: context, error
and state (the log lines left out). -/
def AuthResult.outcome (r : AuthResult) : authContext × Option GoError × World :=
  (r.ctx, r.err, r.world)

/-! ## Concrete inputs -/

/-- A credential store with one scheme of each kind. -/
def exampleConfig : providerConfiguration :=
  { SecuritySchemaDefinitions :=
      [("apiKeyAuth", .keyHeader ⟨⟨"X-Api-Key", "k1"⟩⟩),
       ("queryAuth", .keyQuery ⟨⟨"token", "s3cret"⟩⟩),
       ("refreshAuth", .refreshToken
          { name := "Authorization", value := "refresh-me",
            refreshTokenURL := "http://auth.local/refresh", httpClient := 7 })],
    getHeaderValueFor := fun p => "value-of-" ++ p.Name,
    getRegion := "",
    getEndPoint := fun _ => "" }

/-- A credential store in which two schemes share a header key, and a header scheme
uses the key of the refresh-token scheme. -/
def clashConfig : providerConfiguration :=
  { SecuritySchemaDefinitions :=
      [("apiKeyA", .keyHeader ⟨⟨"X-Api-Key", "first"⟩⟩),
       ("apiKeyB", .keyHeader ⟨⟨"X-Api-Key", "second"⟩⟩),
       ("legacyAuth", .keyHeader ⟨⟨"Authorization", "static-token"⟩⟩),
       ("refreshAuth", .refreshToken
          { name := "Authorization", value := "refresh-me",
            refreshTokenURL := "http://auth.local/refresh", httpClient := 7 })],
    getHeaderValueFor := fun p => "value-of-" ++ p.Name,
    getRegion := "",
    getEndPoint := fun _ => "" }

/-- The refresh-token authenticator of the two example stores. -/
def exampleRefresh : apiRefreshTokenAuthenticator :=
  { name := "Authorization", value := "refresh-me",
    refreshTokenURL := "http://auth.local/refresh", httpClient := 7 }

/-- A network whose token endpoint (client 7) answers 200 with `Authorization: Bearer abc`
and whose API answers 201. -/
def exampleNet : Net := fun _ c =>
  if c.client = 7 then .ok ⟨200, [("Authorization", ["Bearer abc"])]⟩ else .ok ⟨201, []⟩

/-- A network whose token endpoint (client 7) answers 404. -/
def exampleNet404 : Net := fun _ c =>
  if c.client = 7 then .ok ⟨404, []⟩ else .ok ⟨201, []⟩

/-- The state before any call. -/
def emptyWorld : World := ⟨[], []⟩

/-- A single-region backend: host `h`, base path `/`, plain http. -/
def exampleBackend : SpecBackendConfiguration :=
  { isMultiRegion := .ok (false, "", []),
    getDefaultRegion := fun _ => .error ⟨"no regions"⟩,
    getHostByRegion := fun _ => .error ⟨"no regions"⟩,
    getHost := .ok "h",
    getBasePath := "/",
    getHTTPSchemes := ["http"] }

/-- A provider client over `exampleBackend` and `exampleConfig` without global schemes;
its transport is client 1. -/
def exampleClient : ProviderClient :=
  { openAPIBackendConfiguration := exampleBackend, httpClient := 1,
    providerConfiguration := exampleConfig, apiAuthenticator := ⟨none⟩ }

/-! ## Further notions and concrete inputs for the URL resolver and the dispatcher -/

/-- Spec-side reading of "normalised to start with exactly one leading slash": every
leading slash is dropped and one is put in front. -/
def exactlyOneLeadingSlash (p : String) : String :=
  "/" ++ String.mk (p.data.dropWhile (fun c => c = '/'))

/-- An operation without security schemes and header parameters. -/
def plainOperation : specResourceOperation := ⟨[], []⟩

/-- The cdn resource: collection path `/v1/cdns`, no host override. -/
def cdnResource : SpecResource :=
  { getResourceName := "cdns_v1",
    getHost := .ok "",
    getResourcePath := fun _ => .ok "/v1/cdns",
    getResourceOperations :=
      ⟨some plainOperation, some plainOperation, some plainOperation, some plainOperation⟩ }

/-- The firewall sub-resource of a cdn: its path holds the parent id, and it declares
the host override `fw.host`. -/
def firewallResource : SpecResource :=
  { getResourceName := "cdns_v1_firewalls_v1",
    getHost := .ok "fw.host",
    getResourcePath := fun ids =>
      match ids with
      | parent :: _ => .ok ("/v1/cdns/" ++ parent ++ "/v1/firewalls")
      | [] => .error ⟨"missing parent id"⟩,
    getResourceOperations :=
      ⟨some plainOperation, some plainOperation, some plainOperation, some plainOperation⟩ }

/-- The firewall sub-resource without host override. -/
def firewallResourcePlain : SpecResource :=
  { firewallResource with getHost := .ok "" }

/-- A resource whose path begins with two slashes. -/
def doubleSlashResource : SpecResource :=
  { cdnResource with getResourcePath := fun _ => .ok "//cdns" }

/-- Operator configuration with an endpoint override for the firewall resource. -/
def endpointConfig : providerConfiguration :=
  { exampleConfig with
    getEndPoint := fun name => if name = "cdns_v1_firewalls_v1" then "endpoint.host" else "" }

/-- A client whose operator configured the endpoint override of `endpointConfig`. -/
def endpointClient : ProviderClient :=
  { exampleClient with providerConfiguration := endpointConfig }

/-- A multi-region backend: regions `rst1` and `dub1`, the first one the default, host
`api.<region>.host`, base path `api`, http and https. -/
def multiRegionBackend : SpecBackendConfiguration :=
  { isMultiRegion := .ok (true, "api.${region}.host", ["rst1", "dub1"]),
    getDefaultRegion := fun regions =>
      match regions with
      | r :: _ => .ok r
      | [] => .error ⟨"no regions"⟩,
    getHostByRegion := fun region =>
      if region = "rst1" ∨ region = "dub1" then .ok ("api." ++ region ++ ".host")
      else .error ⟨"region not supported"⟩,
    getHost := .error ⟨"multi-region backend"⟩,
    getBasePath := "api",
    getHTTPSchemes := ["http", "https"] }

/-- A client of the multi-region backend whose operator set no region. -/
def multiRegionClient : ProviderClient :=
  { exampleClient with openAPIBackendConfiguration := multiRegionBackend }

/-- A backend whose host is empty. -/
def hostlessBackend : SpecBackendConfiguration :=
  { exampleBackend with getHost := .ok "" }

/-- A client of the backend without host. -/
def hostlessClient : ProviderClient :=
  { exampleClient with openAPIBackendConfiguration := hostlessBackend }

/-- Whether a string begins with two slashes or more. -/
def beginsWithTwoSlashes (s : String) : Bool :=
  match s.data with
  | c1 :: c2 :: _ => c1 = '/' ∧ c2 = '/'
  | _ => false

/-- An operation secured by the header scheme and the query scheme, with one header
parameter whose name is the key of the header scheme. -/
def securedOperation : specResourceOperation :=
  ⟨[⟨"apiKeyAuth"⟩, ⟨"queryAuth"⟩], [⟨"X-Api-Key", "x_api_key"⟩]⟩

/-- What `apiAuth.prepareAuth` returns for `securedOperation` on `http://h/v1/cdns`. -/
def securedAuthResult : AuthResult :=
  ⟨⟨some [("X-Api-Key", "k1")], "http://h/v1/cdns?token=s3cret"⟩, none,
    ⟨[], [.keyHeader ⟨⟨"X-Api-Key", "k1"⟩⟩, .keyQuery ⟨⟨"token", "s3cret"⟩⟩]⟩,
    (apiAuth.authRequired ⟨none⟩ "http://h/v1/cdns" [⟨"apiKeyAuth"⟩, ⟨"queryAuth"⟩]).2⟩

/-! ## Further notions and concrete inputs for the remaining properties -/

/-- Spec-side reading of "the left fold of the authenticators' prepareAuth, in list
order": each authenticator runs on the context and state the previous one left, unless
an earlier one failed. -/
def foldPrepareAuth (net : Net) (auths : List authenticator) (ctx : authContext)
    (w : World) : Except GoPanic (authContext × Option GoError × World) :=
  auths.foldl
    (fun acc a =>
      match acc with
      | .ok (c, none, w1) => a.prepareAuth net c w1
      | other => other)
    (.ok (ctx, none, w))

/-- Successive calls of the refresh-token `prepareAuth` on one authenticator, each on
the context the previous call left, whatever that call returned: the context and state
after the last call. -/
def prepareAuthTimes (a : apiRefreshTokenAuthenticator) (net : Net) :
    Nat → authContext → World → Except GoPanic (authContext × World)
  | 0, ctx, w => .ok (ctx, w)
  | k + 1, ctx, w =>
    match a.prepareAuth net ctx w with
    | .error p => .error p
    | .ok (c, _, w1) => prepareAuthTimes a net k c w1

/-- What a header contributes to the log of `logHeadersSafely`: its name and whether
its value is empty. -/
def headerShape (header : String × String) : String × Bool :=
  (header.1, decide (header.2 = ""))

/-- The log lines of one header, from its shape alone. -/
def headerShapeLines (shape : String × Bool) : List LogEntry :=
  (if shape.2 then
    [(⟨"[DEBUG] Request Header '%s' sent with empty value :(", [.str shape.1]⟩ : LogEntry)]
  else [])
  ++ [⟨"[DEBUG] Request Header '%s' sent", [.str shape.1]⟩]

/-- Rendering of a format string whose verbs are `%s`, on string arguments, as
`log.Printf` prints it when there is one argument for each verb. -/
def renderFormat : List Char → List String → List Char
  | [], _ => []
  | [c], _ => [c]
  | c1 :: c2 :: rest, args =>
    if c1 = '%' ∧ c2 = 's' then
      match args with
      | a :: more => a.data ++ renderFormat rest more
      | [] => c1 :: c2 :: renderFormat rest []
    else c1 :: renderFormat (c2 :: rest) args

/-- The text of a log line with string arguments. -/
def renderStrings (format : String) (args : List String) : String :=
  String.mk (renderFormat format.data args)

/-- A backend whose single host cannot be resolved. -/
def brokenBackend : SpecBackendConfiguration :=
  { exampleBackend with getHost := .error ⟨"host not configured"⟩ }

/-- A client of the broken backend whose operator configured the endpoint override of
`endpointConfig`. -/
def brokenClient : ProviderClient :=
  { endpointClient with openAPIBackendConfiguration := brokenBackend }

/-- The security requirement of the test: the group of `secDef1` and `secDef2`, or the
group of `secDef3`. -/
def exampleRequirements : List (List (String × List String)) :=
  [[("secDef1", []), ("secDef2", [])], [("secDef3", [])]]

/-- A header parameter with its preferred terraform name, a query parameter, and a
header parameter without extension. -/
def exampleParameters : List Parameter :=
  [⟨"X-Request-ID", "header", [("x-terraform-header", "x_request_id")]⟩,
   ⟨"limit", "query", []⟩,
   ⟨"X-Trace", "header", []⟩]

/-- A path with a POST and a DELETE operation, the second repeating a header. -/
def examplePath : PathItem :=
  { Post := some ⟨exampleParameters⟩, Get := none, Put := none,
    Delete := some ⟨[⟨"X-Trace", "header", []⟩, ⟨"id", "path", []⟩]⟩ }

/-- A credential store with two API-key-in-query schemes. -/
def twoQueryConfig : providerConfiguration :=
  { exampleConfig with
    SecuritySchemaDefinitions :=
      [("queryAuth", .keyQuery ⟨⟨"token", "s3cret"⟩⟩),
       ("signatureAuth", .keyQuery ⟨⟨"sig", "abc"⟩⟩)] }

/-- An environment in which only the upper-case spelling of the swagger URL variable of
`myprovider` is set, with natural readings of the collaborators: the schema is looked up
by provider name and the swagger URL is the field of the service configuration. -/
def exampleEnvironment : PluginEnvironment :=
  { getenv := fun envName =>
      if envName = "OTF_VAR_MYPROVIDER_SWAGGER_URL" then "http://h/swagger.yaml" else "",
    toUpper := fun s => String.mk (s.data.map Char.toUpper),
    parseBool := fun s => decide (s = "true"),
    unmarshal := fun _ schema => .ok schema,
    validate := fun _ => none,
    getServiceConfig := fun schema name =>
      match schema.Services.find? (fun entry => decide (entry.1 = name)) with
      | some entry => .ok (some entry.2)
      | none => .error ⟨"'" ++ name ++ "' not found in provider's services configuration"⟩,
    getSwaggerURL := fun serviceConfig => serviceConfig.SwaggerURL }

/-- The same environment without any variable set. -/
def emptyEnvironment : PluginEnvironment :=
  { exampleEnvironment with getenv := fun _ => "" }

/-- What an authenticator appends to the URL of the context when its `prepareAuth`
succeeds, read off the three implementations: `?name=value` for `apiKeyQuery`, nothing
for the other two. -/
def authenticator.querySuffix : authenticator → String
  | .keyQuery q => "?" ++ q.getContext.name ++ "=" ++ q.getContext.value
  | .keyHeader _ => ""
  | .refreshToken _ => ""

/-- What the schemes of a list append to the URL, in list order, under a credential
store. -/
def querySuffixes (cfg : providerConfiguration) : SpecSecuritySchemes → String
  | [] => ""
  | s :: rest =>
    (match cfg.securitySchemaDefinition s.Name with
      | some a => a.querySuffix
      | none => "") ++ querySuffixes cfg rest

/-- The credential store `exampleConfig` after the value of its query key was rotated. -/
def rotatedConfig : providerConfiguration :=
  { exampleConfig with
    SecuritySchemaDefinitions :=
      [("apiKeyAuth", .keyHeader ⟨⟨"X-Api-Key", "k1"⟩⟩),
       ("queryAuth", .keyQuery ⟨⟨"token", "rotated"⟩⟩),
       ("refreshAuth", .refreshToken
          { name := "Authorization", value := "refresh-me",
            refreshTokenURL := "http://auth.local/refresh", httpClient := 7 })] }

/-! ## Auxiliary lemmas -/

/-- Reading a key just written returns the written value. -/
theorem mapGet_mapSet_same (m : HeaderMap) (k v : String) : mapGet (mapSet m k v) k = some v := by
  induction m with
  | nil => simp [mapSet, mapGet]
  | cons p rest ih =>
    obtain ⟨k1, v1⟩ := p
    by_cases h : k1 = k
    · simp [mapSet, mapGet, h]
    · simp [mapSet, mapGet, h, ih]

/-- Writing a key leaves the reading of every other key unchanged. -/
theorem mapGet_mapSet_other (m : HeaderMap) (k v k2 : String) (h2 : k2 ≠ k) :
    mapGet (mapSet m k v) k2 = mapGet m k2 := by
  induction m with
  | nil => simp [mapSet, mapGet, Ne.symm h2]
  | cons p rest ih =>
    obtain ⟨k1, v1⟩ := p
    by_cases h : k1 = k
    · subst h
      simp [mapSet, mapGet, Ne.symm h2]
    · by_cases h3 : k1 = k2
      · subst h3
        simp [mapSet, mapGet, h]
      · simp [mapSet, mapGet, h, h3, ih]

/-- Writing a key removes no key. -/
theorem mapGet_mapSet_isSome (m : HeaderMap) (k v k2 : String)
    (h : mapGet m k2 ≠ none) : mapGet (mapSet m k v) k2 ≠ none := by
  by_cases hk : k2 = k
  · subst hk
    simp [mapGet_mapSet_same]
  · rw [mapGet_mapSet_other m k v k2 hk]
    exact h

/-- Reading a key just written, on a nil-able map. -/
theorem headersGet_mapSet_same (m : HeaderMap) (k v : String) :
    headersGet (some (mapSet m k v)) k = some v := mapGet_mapSet_same m k v

/-- With a non-empty operation list `authRequired` selects it, whatever the receiver. -/
theorem authRequired_of_ne_nil (oa : apiAuth) (url : String) (ops : SpecSecuritySchemes)
    (hops : ops ≠ []) :
    oa.authRequired url ops =
      ((true, ops),
        [⟨"operation security policies found for '%s' (overriding global security config if applicable). Selected the following based on order of appearance in the list %+v",
          [.str url, .names (ops.map (fun s => s.Name))]⟩]) := by
  have h : ops.length ≠ 0 := by
    intro h0
    exact hops (List.length_eq_zero.mp h0)
  simp [apiAuth.authRequired, h]

/-- With an empty operation list and a non-empty global list `authRequired` selects the global list. -/
theorem authRequired_global (url : String) (g : SpecSecuritySchemes) (hg : g ≠ []) :
    (apiAuth.authRequired ⟨some g⟩ url []).1 = (true, g) := by
  have h : g.length ≠ 0 := by
    intro h0
    exact hg (List.length_eq_zero.mp h0)
  simp [apiAuth.authRequired, h]

/-- The definedness check does not read its receiver. -/
theorem confirm_irrelevant_receiver (oa1 oa2 : apiAuth) (sel : SpecSecuritySchemes)
    (cfg : providerConfiguration) :
    oa1.confirmOperationSecurityPoliciesAreDefined sel cfg =
      oa2.confirmOperationSecurityPoliciesAreDefined sel cfg := by
  induction sel with
  | nil => simp [apiAuth.confirmOperationSecurityPoliciesAreDefined]
  | cons s rest ih =>
    simp only [apiAuth.confirmOperationSecurityPoliciesAreDefined]
    cases cfg.securitySchemaDefinition s.Name with
    | none => rfl
    | some a => simpa using ih

/-- If some scheme of the list is undefined the check fails, with the error of an undefined scheme of the list. -/
theorem confirm_some_of_undefined (oa : apiAuth) (sel : SpecSecuritySchemes)
    (cfg : providerConfiguration)
    (h : ∃ s ∈ sel, cfg.securitySchemaDefinition s.Name = none) :
    ∃ s ∈ sel, cfg.securitySchemaDefinition s.Name = none ∧
      oa.confirmOperationSecurityPoliciesAreDefined sel cfg = some (policyNotDefinedError s) := by
  induction sel with
  | nil => simp at h
  | cons s rest ih =>
    cases hs : cfg.securitySchemaDefinition s.Name with
    | none =>
      exact ⟨s, by simp, hs, by simp [apiAuth.confirmOperationSecurityPoliciesAreDefined, hs]⟩
    | some a =>
      obtain ⟨t, ht, htn⟩ := h
      have ht2 : t ∈ rest := by
        rcases List.mem_cons.mp ht with h1 | h1
        · subst h1
          rw [hs] at htn
          cases htn
        · exact h1
      obtain ⟨s2, hs2, hu, he⟩ := ih ⟨t, ht2, htn⟩
      exact ⟨s2, List.mem_cons_of_mem _ hs2, hu,
        by simp [apiAuth.confirmOperationSecurityPoliciesAreDefined, hs, he]⟩

/-- The definedness check passes exactly when every scheme of the list is defined. -/
theorem confirm_none_iff (oa : apiAuth) (sel : SpecSecuritySchemes)
    (cfg : providerConfiguration) :
    oa.confirmOperationSecurityPoliciesAreDefined sel cfg = none ↔
      ∀ s ∈ sel, ∃ a, cfg.securitySchemaDefinition s.Name = some a := by
  induction sel with
  | nil => simp [apiAuth.confirmOperationSecurityPoliciesAreDefined]
  | cons s rest ih =>
    cases hs : cfg.securitySchemaDefinition s.Name with
    | none => simp [apiAuth.confirmOperationSecurityPoliciesAreDefined, hs]
    | some a => simp [apiAuth.confirmOperationSecurityPoliciesAreDefined, hs, ih]

/-- Unfolding of `apiAuth.prepareAuth` once the selected list is known. -/
theorem prepareAuth_of_selected (oa : apiAuth) (url : String) (ops sel : SpecSecuritySchemes)
    (cfg : providerConfiguration) (net : Net) (w : World)
    (hsel : (oa.authRequired url ops).1 = (true, sel)) :
    oa.prepareAuth url ops cfg net w =
      match oa.confirmOperationSecurityPoliciesAreDefined sel cfg with
      | some err => .ok ⟨⟨some [], url⟩, some err, w, (oa.authRequired url ops).2⟩
      | none =>
        match prepareAuthLoop cfg net sel ⟨some [], url⟩ w with
        | .error p => .error p
        | .ok (c, e, w1) => .ok ⟨c, e, w1, (oa.authRequired url ops).2⟩ := by
  unfold apiAuth.prepareAuth
  rcases hr : oa.authRequired url ops with ⟨⟨req, s⟩, logs⟩
  rw [hr] at hsel
  simp only [Prod.mk.injEq] at hsel
  obtain ⟨h1, h2⟩ := hsel
  subst h1 h2
  simp

/-- One authenticator call leaves every header key other than its own unchanged. -/
theorem authenticator_step_other_key (a : authenticator) (net : Net) (ctx c : authContext)
    (w w1 : World) (e : Option GoError) (k : String)
    (hrun : a.prepareAuth net ctx w = .ok (c, e, w1)) (hk : a.headerKey ≠ some k) :
    headersGet c.headers k = headersGet ctx.headers k := by
  cases a with
  | keyHeader h =>
    have hne : k ≠ h.name := by
      intro hh
      apply hk
      simp [authenticator.headerKey, apiKeyHeader.getContext, hh]
    cases hh : ctx.headers with
    | none =>
      simp [authenticator.prepareAuth, apiKeyHeader.prepareAuth, headersSet, hh] at hrun
    | some m =>
      simp [authenticator.prepareAuth, apiKeyHeader.prepareAuth, headersSet, hh,
        apiKeyHeader.getContext] at hrun
      obtain ⟨hc, _, _⟩ := hrun
      subst hc
      simpa [headersGet] using mapGet_mapSet_other m h.name h.value k hne
  | keyQuery q =>
    simp [authenticator.prepareAuth, apiKeyQuery.prepareAuth] at hrun
    obtain ⟨hc, _, _⟩ := hrun
    subst hc
    rfl
  | refreshToken r =>
    have hne : k ≠ authorizationHeader := by
      intro hh
      apply hk
      simp [authenticator.headerKey, hh]
    simp only [authenticator.prepareAuth, apiRefreshTokenAuthenticator.prepareAuth, httpDo] at hrun
    split at hrun
    · simp at hrun
      obtain ⟨hc, _, _⟩ := hrun
      subst hc
      rfl
    · split at hrun
      · simp at hrun
        obtain ⟨hc, _, _⟩ := hrun
        subst hc
        rfl
      · split at hrun
        · simp at hrun
          obtain ⟨hc, _, _⟩ := hrun
          subst hc
          rfl
        · simp at hrun
          obtain ⟨hc, _, _⟩ := hrun
          subst hc
          cases hh : ctx.headers with
          | none => simp [headersGet, mapSet, mapGet, Ne.symm hne]
          | some m => simpa [headersGet] using mapGet_mapSet_other m _ _ k hne

/-- One authenticator call removes no header key. -/
theorem authenticator_step_keeps_keys (a : authenticator) (net : Net) (ctx c : authContext)
    (w w1 : World) (e : Option GoError) (k : String)
    (hrun : a.prepareAuth net ctx w = .ok (c, e, w1)) (hk : headersGet ctx.headers k ≠ none) :
    headersGet c.headers k ≠ none := by
  cases hh : ctx.headers with
  | none => simp [headersGet, hh] at hk
  | some m =>
    rw [hh] at hk
    simp only [headersGet] at hk
    cases a with
    | keyHeader h =>
      simp [authenticator.prepareAuth, apiKeyHeader.prepareAuth, headersSet, hh,
        apiKeyHeader.getContext] at hrun
      obtain ⟨hc, _, _⟩ := hrun
      subst hc
      simpa [headersGet] using mapGet_mapSet_isSome m h.name h.value k hk
    | keyQuery q =>
      simp [authenticator.prepareAuth, apiKeyQuery.prepareAuth] at hrun
      obtain ⟨hc, _, _⟩ := hrun
      subst hc
      simpa [headersGet, hh] using hk
    | refreshToken r =>
      simp only [authenticator.prepareAuth, apiRefreshTokenAuthenticator.prepareAuth, httpDo] at hrun
      split at hrun
      · simp at hrun
        obtain ⟨hc, _, _⟩ := hrun
        subst hc
        simpa [headersGet, hh] using hk
      · split at hrun
        · simp at hrun
          obtain ⟨hc, _, _⟩ := hrun
          subst hc
          simpa [headersGet, hh] using hk
        · split at hrun
          · simp at hrun
            obtain ⟨hc, _, _⟩ := hrun
            subst hc
            simpa [headersGet, hh] using hk
          · simp [hh] at hrun
            obtain ⟨hc, _, _⟩ := hrun
            subst hc
            simpa [headersGet] using mapGet_mapSet_isSome m _ _ k hk

/-- After an `apiKeyHeader` call its key holds its value. -/
theorem keyHeader_step_value (h : apiKeyHeader) (net : Net) (ctx c : authContext)
    (w w1 : World) (e : Option GoError)
    (hrun : (authenticator.keyHeader h).prepareAuth net ctx w = .ok (c, e, w1)) :
    headersGet c.headers h.name = some h.value := by
  cases hh : ctx.headers with
  | none =>
    simp [authenticator.prepareAuth, apiKeyHeader.prepareAuth, headersSet, hh] at hrun
  | some m =>
    simp [authenticator.prepareAuth, apiKeyHeader.prepareAuth, headersSet, hh,
      apiKeyHeader.getContext] at hrun
    obtain ⟨hc, _, _⟩ := hrun
    subst hc
    exact headersGet_mapSet_same m h.name h.value

/-- After a successful refresh-token call the authorization key holds the token of the answer to its POST. -/
theorem refreshToken_step_value (r : apiRefreshTokenAuthenticator) (net : Net)
    (ctx c : authContext) (w w1 : World)
    (hrun : (authenticator.refreshToken r).prepareAuth net ctx w = .ok (c, none, w1)) :
    ∃ resp, net w.calls r.request = .ok resp ∧
      headersGet c.headers authorizationHeader =
        some (headerGet resp.Header authorizationHeader) := by
  simp only [authenticator.prepareAuth, apiRefreshTokenAuthenticator.prepareAuth, httpDo] at hrun
  split at hrun
  · simp at hrun
  · rename_i resp hresp
    split at hrun
    · simp at hrun
    · split at hrun
      · simp at hrun
      · simp at hrun
        obtain ⟨hc, _⟩ := hrun
        subst hc
        exact ⟨resp, hresp, headersGet_mapSet_same _ _ _⟩

/-- The loop over a concatenation runs the first part, then, unless that failed, the second. -/
theorem prepareAuthLoop_append (cfg : providerConfiguration) (net : Net)
    (xs ys : SpecSecuritySchemes) (ctx : authContext) (w : World) :
    prepareAuthLoop cfg net (xs ++ ys) ctx w =
      match prepareAuthLoop cfg net xs ctx w with
      | .error p => .error p
      | .ok (c, some err, w1) => .ok (c, some err, w1)
      | .ok (c, none, w1) => prepareAuthLoop cfg net ys c w1 := by
  induction xs generalizing ctx w with
  | nil => simp [prepareAuthLoop]
  | cons s rest ih =>
    simp only [List.cons_append, prepareAuthLoop]
    cases cfg.securitySchemaDefinition s.Name with
    | none => rfl
    | some a =>
      simp only []
      rcases a.prepareAuth net ctx w with p | ⟨c, e, w1⟩
      · rfl
      · cases e with
        | some err => rfl
        | none => exact ih c w1

/-- The loop leaves a header key unchanged when none of its authenticators assigns it. -/
theorem prepareAuthLoop_other_key (cfg : providerConfiguration) (net : Net)
    (post : SpecSecuritySchemes) (k : String)
    (hpost : ∀ t ∈ post, ∀ b, cfg.securitySchemaDefinition t.Name = some b → b.headerKey ≠ some k)
    (ctx c : authContext) (w w1 : World) (e : Option GoError)
    (hrun : prepareAuthLoop cfg net post ctx w = .ok (c, e, w1)) :
    headersGet c.headers k = headersGet ctx.headers k := by
  induction post generalizing ctx w with
  | nil =>
    simp [prepareAuthLoop] at hrun
    rw [hrun.1]
  | cons s rest ih =>
    simp only [prepareAuthLoop] at hrun
    cases hs : cfg.securitySchemaDefinition s.Name with
    | none => simp [hs] at hrun
    | some a =>
      rw [hs] at hrun
      simp only [] at hrun
      have hak := hpost s (by simp) a hs
      rcases hstep : a.prepareAuth net ctx w with p | ⟨c2, e2, w2⟩
      · simp [hstep] at hrun
      · rw [hstep] at hrun
        have h1 := authenticator_step_other_key a net ctx c2 w w2 e2 k hstep hak
        cases e2 with
        | some err =>
          simp at hrun
          rw [← hrun.1, h1]
        | none =>
          simp only [] at hrun
          rw [ih (fun t ht => hpost t (List.mem_cons_of_mem _ ht)) c2 w2 hrun, h1]

/-- The loop removes no header key. -/
theorem prepareAuthLoop_keeps_keys (cfg : providerConfiguration) (net : Net)
    (post : SpecSecuritySchemes) (k : String)
    (ctx c : authContext) (w w1 : World) (e : Option GoError)
    (hrun : prepareAuthLoop cfg net post ctx w = .ok (c, e, w1))
    (hk : headersGet ctx.headers k ≠ none) :
    headersGet c.headers k ≠ none := by
  induction post generalizing ctx w with
  | nil =>
    simp [prepareAuthLoop] at hrun
    rw [← hrun.1]
    exact hk
  | cons s rest ih =>
    simp only [prepareAuthLoop] at hrun
    cases hs : cfg.securitySchemaDefinition s.Name with
    | none => simp [hs] at hrun
    | some a =>
      rw [hs] at hrun
      simp only [] at hrun
      rcases hstep : a.prepareAuth net ctx w with p | ⟨c2, e2, w2⟩
      · simp [hstep] at hrun
      · rw [hstep] at hrun
        have h1 := authenticator_step_keeps_keys a net ctx c2 w w2 e2 k hstep hk
        cases e2 with
        | some err =>
          simp at hrun
          rw [← hrun.1]
          exact h1
        | none =>
          simp only [] at hrun
          exact ih c2 w2 hrun h1

/-- Splitting a successful run of the loop at one scheme of the list. -/
theorem prepareAuthLoop_split (cfg : providerConfiguration) (net : Net)
    (pre post : SpecSecuritySchemes) (s : SpecSecurityScheme) (ctx c : authContext)
    (w w3 : World)
    (hrun : prepareAuthLoop cfg net (pre ++ s :: post) ctx w = .ok (c, none, w3)) :
    ∃ a c1 w1 c2 w2, cfg.securitySchemaDefinition s.Name = some a ∧
      prepareAuthLoop cfg net pre ctx w = .ok (c1, none, w1) ∧
      a.prepareAuth net c1 w1 = .ok (c2, none, w2) ∧
      prepareAuthLoop cfg net post c2 w2 = .ok (c, none, w3) := by
  rw [prepareAuthLoop_append] at hrun
  rcases hpre : prepareAuthLoop cfg net pre ctx w with p | ⟨c1, e1, w1⟩
  · simp [hpre] at hrun
  · rw [hpre] at hrun
    cases e1 with
    | some err => simp at hrun
    | none =>
      simp only [prepareAuthLoop] at hrun
      cases hs : cfg.securitySchemaDefinition s.Name with
      | none => simp [hs] at hrun
      | some a =>
        rw [hs] at hrun
        simp only [] at hrun
        rcases hstep : a.prepareAuth net c1 w1 with p | ⟨c2, e2, w2⟩
        · simp [hstep] at hrun
        · rw [hstep] at hrun
          cases e2 with
          | some err => simp at hrun
          | none =>
            simp only [] at hrun
            exact ⟨a, c1, w1, c2, w2, rfl, rfl, hstep, hrun⟩

/-- A successful `apiAuth.prepareAuth` is a successful run of the loop over the selected list from the fresh context. -/
theorem prepareAuth_ok_loop (oa : apiAuth) (url : String) (ops sel : SpecSecuritySchemes)
    (cfg : providerConfiguration) (net : Net) (w : World) (R : AuthResult)
    (hsel : (oa.authRequired url ops).1 = (true, sel))
    (hrun : oa.prepareAuth url ops cfg net w = .ok R) (hok : R.err = none) :
    prepareAuthLoop cfg net sel ⟨some [], url⟩ w = .ok (R.ctx, none, R.world) := by
  rw [prepareAuth_of_selected oa url ops sel cfg net w hsel] at hrun
  cases hc : oa.confirmOperationSecurityPoliciesAreDefined sel cfg with
  | some err =>
    rw [hc] at hrun
    simp at hrun
    rw [← hrun] at hok
    simp at hok
  | none =>
    rw [hc] at hrun
    simp only [] at hrun
    rcases hl : prepareAuthLoop cfg net sel ⟨some [], url⟩ w with p | ⟨c, e, w1⟩
    · simp [hl] at hrun
    · rw [hl] at hrun
      simp at hrun
      rw [← hrun] at hok ⊢
      simp at hok
      simp [hok]

/-- One authenticator call on a context with a non-nil headers map returns normally and
leaves the map non-nil. -/
theorem authenticator_step_returns (a : authenticator) (net : Net) (ctx : authContext)
    (w : World) (hh : ctx.headers ≠ none) :
    ∃ c e w1, a.prepareAuth net ctx w = .ok (c, e, w1) ∧ c.headers ≠ none := by
  cases hm : ctx.headers with
  | none => exact absurd hm hh
  | some m =>
    cases a with
    | keyHeader h =>
      refine ⟨⟨some (mapSet m h.name h.value), ctx.url⟩, none,
        { w with dispatched := w.dispatched ++ [.keyHeader h] }, ?_, by simp⟩
      simp [authenticator.prepareAuth, apiKeyHeader.prepareAuth, headersSet, hm,
        apiKeyHeader.getContext]
    | keyQuery q =>
      refine ⟨⟨ctx.headers, ctx.url ++ "?" ++ q.name ++ "=" ++ q.value⟩, none,
        { w with dispatched := w.dispatched ++ [.keyQuery q] }, ?_, by simp [hm]⟩
      simp [authenticator.prepareAuth, apiKeyQuery.prepareAuth, apiKeyQuery.getContext]
    | refreshToken r =>
      simp only [authenticator.prepareAuth, apiRefreshTokenAuthenticator.prepareAuth, httpDo]
      split
      · exact ⟨_, _, _, rfl, by simp [hm]⟩
      · split
        · exact ⟨_, _, _, rfl, by simp [hm]⟩
        · split
          · exact ⟨_, _, _, rfl, by simp [hm]⟩
          · exact ⟨_, _, _, rfl, by simp⟩

/-- The loop over defined schemes, started on a non-nil headers map, returns normally. -/
theorem prepareAuthLoop_returns (cfg : providerConfiguration) (net : Net)
    (sel : SpecSecuritySchemes)
    (hdef : ∀ s ∈ sel, ∃ a, cfg.securitySchemaDefinition s.Name = some a)
    (ctx : authContext) (w : World) (hh : ctx.headers ≠ none) :
    ∃ c e w1, prepareAuthLoop cfg net sel ctx w = .ok (c, e, w1) := by
  induction sel generalizing ctx w with
  | nil => exact ⟨_, _, _, rfl⟩
  | cons s rest ih =>
    obtain ⟨a, ha⟩ := hdef s (by simp)
    obtain ⟨c, e, w1, hstep, hc⟩ := authenticator_step_returns a net ctx w hh
    simp only [prepareAuthLoop, ha, hstep]
    cases e with
    | some err => exact ⟨_, _, _, rfl⟩
    | none => exact ih (fun t ht => hdef t (List.mem_cons_of_mem _ ht)) c w1 hc

/-- The resolver always returns: `apiAuth.prepareAuth` raises no panic. -/
theorem prepareAuth_returns (oa : apiAuth) (url : String) (ops : SpecSecuritySchemes)
    (cfg : providerConfiguration) (net : Net) (w : World) :
    ∃ R, oa.prepareAuth url ops cfg net w = .ok R := by
  rcases hr : oa.authRequired url ops with ⟨⟨req, sel⟩, logs⟩
  cases req with
  | false => exact ⟨_, by simp [apiAuth.prepareAuth, hr]; rfl⟩
  | true =>
    rw [prepareAuth_of_selected oa url ops sel cfg net w (by rw [hr])]
    cases hc : oa.confirmOperationSecurityPoliciesAreDefined sel cfg with
    | some err => exact ⟨_, rfl⟩
    | none =>
      obtain ⟨c, e, w1, hl⟩ := prepareAuthLoop_returns cfg net sel
        ((confirm_none_iff oa sel cfg).mp hc) ⟨some [], url⟩ w (by simp)
      simp only [hl]
      exact ⟨_, rfl⟩

/-! ## The resolver: which scheme list applies -/

/-- Claim C1: with a non-empty operation-level list `ops`, `authRequired` returns
`(true, ops)` whatever the global list, `apiAuth.prepareAuth` returns the same result
under any two global lists `g1` and `g2` (nil included), and if `ops` names a scheme
without a definition the call returns an error, on the untouched fresh context and
state, whatever the global list holds. -/
theorem operation_schemes_supersede_global (url : String) (ops : SpecSecuritySchemes)
    (cfg : providerConfiguration) (g1 g2 : Option SpecSecuritySchemes) (net : Net) (w : World)
    (hops : ops ≠ []) :
    (apiAuth.authRequired ⟨g1⟩ url ops).1 = (true, ops) ∧
    (apiAuth.authRequired ⟨g2⟩ url ops).1 = (true, ops) ∧
    apiAuth.prepareAuth ⟨g1⟩ url ops cfg net w = apiAuth.prepareAuth ⟨g2⟩ url ops cfg net w ∧
    ((∃ s ∈ ops, cfg.securitySchemaDefinition s.Name = none) →
      ∃ e logs, apiAuth.prepareAuth ⟨g1⟩ url ops cfg net w =
        .ok ⟨⟨some [], url⟩, some e, w, logs⟩) := by
  have h1 := authRequired_of_ne_nil ⟨g1⟩ url ops hops
  have h2 := authRequired_of_ne_nil ⟨g2⟩ url ops hops
  refine ⟨by rw [h1], by rw [h2], ?_, ?_⟩
  · rw [prepareAuth_of_selected ⟨g1⟩ url ops ops cfg net w (by rw [h1]),
      prepareAuth_of_selected ⟨g2⟩ url ops ops cfg net w (by rw [h2]), h1, h2,
      confirm_irrelevant_receiver ⟨g1⟩ ⟨g2⟩ ops cfg]
  · intro hu
    obtain ⟨s, _, _, he⟩ := confirm_some_of_undefined ⟨g1⟩ ops cfg hu
    rw [prepareAuth_of_selected ⟨g1⟩ url ops ops cfg net w (by rw [h1]), he]
    exact ⟨_, _, rfl⟩

/-- Claim C1 at a concrete input: the operation names the undefined `secDef1`, the
global list names the defined `apiKeyAuth`. -/
theorem operation_schemes_supersede_global_witness :
    ([⟨"secDef1"⟩] : SpecSecuritySchemes) ≠ [] ∧
    (apiAuth.authRequired ⟨none⟩ "http://h/v1/cdns" [⟨"secDef1"⟩]).1 = (true, [⟨"secDef1"⟩]) ∧
    (apiAuth.authRequired ⟨some [⟨"apiKeyAuth"⟩]⟩ "http://h/v1/cdns" [⟨"secDef1"⟩]).1
      = (true, [⟨"secDef1"⟩]) ∧
    apiAuth.prepareAuth ⟨none⟩ "http://h/v1/cdns" [⟨"secDef1"⟩] exampleConfig exampleNet emptyWorld
      = apiAuth.prepareAuth ⟨some [⟨"apiKeyAuth"⟩]⟩ "http://h/v1/cdns" [⟨"secDef1"⟩] exampleConfig
          exampleNet emptyWorld ∧
    ((∃ s ∈ ([⟨"secDef1"⟩] : SpecSecuritySchemes),
        exampleConfig.securitySchemaDefinition s.Name = none) →
      ∃ e logs, apiAuth.prepareAuth ⟨none⟩ "http://h/v1/cdns" [⟨"secDef1"⟩] exampleConfig exampleNet
        emptyWorld = .ok ⟨⟨some [], "http://h/v1/cdns"⟩, some e, emptyWorld, logs⟩) :=
  ⟨by decide, operation_schemes_supersede_global "http://h/v1/cdns" [⟨"secDef1"⟩] exampleConfig none
    (some [⟨"apiKeyAuth"⟩]) exampleNet emptyWorld (by decide)⟩

/-- Claim C2: with an empty operation-level list and a non-empty global list `g`,
`authRequired` selects `g`, and `apiAuth.prepareAuth` returns the context, error and
state that an authenticator without global schemes (nil or empty) returns when `g` is
passed as the operation-level list. -/
theorem global_schemes_used_verbatim (url : String) (g : SpecSecuritySchemes)
    (cfg : providerConfiguration) (net : Net) (w : World) (hg : g ≠ []) :
    (apiAuth.authRequired ⟨some g⟩ url []).1 = (true, g) ∧
    (apiAuth.prepareAuth ⟨some g⟩ url [] cfg net w).map AuthResult.outcome =
      (apiAuth.prepareAuth ⟨none⟩ url g cfg net w).map AuthResult.outcome ∧
    (apiAuth.prepareAuth ⟨some g⟩ url [] cfg net w).map AuthResult.outcome =
      (apiAuth.prepareAuth ⟨some []⟩ url g cfg net w).map AuthResult.outcome := by
  have h0 := authRequired_global url g hg
  have key : ∀ oa2 : apiAuth,
      (apiAuth.prepareAuth ⟨some g⟩ url [] cfg net w).map AuthResult.outcome =
        (apiAuth.prepareAuth oa2 url g cfg net w).map AuthResult.outcome := by
    intro oa2
    have h2 : (oa2.authRequired url g).1 = (true, g) := by
      rw [authRequired_of_ne_nil oa2 url g hg]
    rw [prepareAuth_of_selected ⟨some g⟩ url [] g cfg net w h0,
      prepareAuth_of_selected oa2 url g g cfg net w h2,
      confirm_irrelevant_receiver ⟨some g⟩ oa2 g cfg]
    cases oa2.confirmOperationSecurityPoliciesAreDefined g cfg with
    | some err => rfl
    | none =>
      cases prepareAuthLoop cfg net g ⟨some [], url⟩ w with
      | error p => rfl
      | ok r => rfl
  exact ⟨h0, key ⟨none⟩, key ⟨some []⟩⟩

/-- Claim C2 at a concrete input: the global list names the header scheme and then the
query scheme. -/
theorem global_schemes_used_verbatim_witness :
    ([⟨"apiKeyAuth"⟩, ⟨"queryAuth"⟩] : SpecSecuritySchemes) ≠ [] ∧
    (apiAuth.authRequired ⟨some [⟨"apiKeyAuth"⟩, ⟨"queryAuth"⟩]⟩ "http://h/v1/cdns" []).1
      = (true, [⟨"apiKeyAuth"⟩, ⟨"queryAuth"⟩]) ∧
    (apiAuth.prepareAuth ⟨some [⟨"apiKeyAuth"⟩, ⟨"queryAuth"⟩]⟩ "http://h/v1/cdns" []
        exampleConfig exampleNet emptyWorld).map AuthResult.outcome =
      (apiAuth.prepareAuth ⟨none⟩ "http://h/v1/cdns" [⟨"apiKeyAuth"⟩, ⟨"queryAuth"⟩]
        exampleConfig exampleNet emptyWorld).map AuthResult.outcome ∧
    (apiAuth.prepareAuth ⟨some [⟨"apiKeyAuth"⟩, ⟨"queryAuth"⟩]⟩ "http://h/v1/cdns" []
        exampleConfig exampleNet emptyWorld).map AuthResult.outcome =
      (apiAuth.prepareAuth ⟨some []⟩ "http://h/v1/cdns" [⟨"apiKeyAuth"⟩, ⟨"queryAuth"⟩]
        exampleConfig exampleNet emptyWorld).map AuthResult.outcome :=
  ⟨by decide, global_schemes_used_verbatim "http://h/v1/cdns" [⟨"apiKeyAuth"⟩, ⟨"queryAuth"⟩]
    exampleConfig exampleNet emptyWorld (by decide)⟩

/-- Claim C3: with an empty operation-level list and a nil or empty global list,
`apiAuth.prepareAuth` returns no error and the context with the input URL and an empty
headers map; the state is the input state, so no authenticator was dispatched and no
transport call was made. -/
theorem no_schemes_no_auth (u : String) (cfg : providerConfiguration) (net : Net) (w : World) :
    (∃ logs, apiAuth.prepareAuth ⟨none⟩ u [] cfg net w = .ok ⟨⟨some [], u⟩, none, w, logs⟩) ∧
    (∃ logs, apiAuth.prepareAuth ⟨some []⟩ u [] cfg net w
      = .ok ⟨⟨some [], u⟩, none, w, logs⟩) := by
  constructor
  · exact ⟨_, by simp [apiAuth.prepareAuth, apiAuth.authRequired]; rfl⟩
  · exact ⟨_, by simp [apiAuth.prepareAuth, apiAuth.authRequired]; rfl⟩

/-- Claim C4: when the selected list holds a scheme without a definition, at whatever
position, `apiAuth.prepareAuth` returns the error of an undefined scheme of the list,
the context with the input URL and an empty headers map, and the input state: no
authenticator was dispatched, not even one that precedes the undefined scheme. -/
theorem undefined_scheme_fails_before_any_authenticator (oa : apiAuth) (url : String)
    (ops sel : SpecSecuritySchemes) (cfg : providerConfiguration) (net : Net) (w : World)
    (hsel : (oa.authRequired url ops).1 = (true, sel))
    (hmiss : ∃ s ∈ sel, cfg.securitySchemaDefinition s.Name = none) :
    ∃ s, s ∈ sel ∧ cfg.securitySchemaDefinition s.Name = none ∧
      oa.prepareAuth url ops cfg net w =
        .ok ⟨⟨some [], url⟩, some (policyNotDefinedError s), w, (oa.authRequired url ops).2⟩ := by
  obtain ⟨s, hs, hn, he⟩ := confirm_some_of_undefined oa sel cfg hmiss
  refine ⟨s, hs, hn, ?_⟩
  rw [prepareAuth_of_selected oa url ops sel cfg net w hsel, he]

/-- Claim C4 at a concrete input: the undefined `secDef1` comes last, after two defined
schemes. -/
theorem undefined_scheme_fails_before_any_authenticator_witness :
    ∃ s, s ∈ ([⟨"apiKeyAuth"⟩, ⟨"refreshAuth"⟩, ⟨"secDef1"⟩] : SpecSecuritySchemes) ∧
      exampleConfig.securitySchemaDefinition s.Name = none ∧
      apiAuth.prepareAuth ⟨none⟩ "http://h/v1/cdns"
          [⟨"apiKeyAuth"⟩, ⟨"refreshAuth"⟩, ⟨"secDef1"⟩] exampleConfig exampleNet emptyWorld =
        .ok ⟨⟨some [], "http://h/v1/cdns"⟩, some (policyNotDefinedError s), emptyWorld,
          (apiAuth.authRequired ⟨none⟩ "http://h/v1/cdns"
            [⟨"apiKeyAuth"⟩, ⟨"refreshAuth"⟩, ⟨"secDef1"⟩]).2⟩ :=
  undefined_scheme_fails_before_any_authenticator ⟨none⟩ "http://h/v1/cdns"
    [⟨"apiKeyAuth"⟩, ⟨"refreshAuth"⟩, ⟨"secDef1"⟩] [⟨"apiKeyAuth"⟩, ⟨"refreshAuth"⟩, ⟨"secDef1"⟩]
    exampleConfig exampleNet emptyWorld rfl ⟨⟨"secDef1"⟩, by simp, rfl⟩

/-! ## The dispatcher: an auth error stops the request -/

/-- Claim C5: for every method, URL, operation and payload, if the resolver returns an
error `e`, `performRequest` returns a nil response and `e`, and the state is the one
the resolver left: `performRequest` appends no transport call.  When the error comes
from an undefined scheme the state is the input state, so no call was made at all. -/
theorem auth_error_aborts_before_dispatch (o : ProviderClient)
    (userAgent userAgentHeader : String) (net : Net) (method resourceURL : String)
    (op : specResourceOperation) (requestPayload : Payload) (w : World) :
    (∀ r e, o.apiAuthenticator.prepareAuth resourceURL op.SecuritySchemes
          o.providerConfiguration net w = .ok r → r.err = some e →
        o.performRequest userAgent userAgentHeader net method resourceURL (some op)
          requestPayload w = .ok ⟨none, some e, r.world, r.logs⟩) ∧
    (∀ sel, (o.apiAuthenticator.authRequired resourceURL op.SecuritySchemes).1 = (true, sel) →
        (∃ s ∈ sel, o.providerConfiguration.securitySchemaDefinition s.Name = none) →
        ∃ e logs, o.performRequest userAgent userAgentHeader net method resourceURL (some op)
          requestPayload w = .ok ⟨none, some e, w, logs⟩) := by
  have part1 : ∀ r e, o.apiAuthenticator.prepareAuth resourceURL op.SecuritySchemes
        o.providerConfiguration net w = .ok r → r.err = some e →
      o.performRequest userAgent userAgentHeader net method resourceURL (some op)
        requestPayload w = .ok ⟨none, some e, r.world, r.logs⟩ := by
    intro r e hauth herr
    simp [ProviderClient.performRequest, hauth, herr]
  refine ⟨part1, ?_⟩
  intro sel hsel hmiss
  obtain ⟨s, _, _, he⟩ := confirm_some_of_undefined o.apiAuthenticator sel
    o.providerConfiguration hmiss
  have hrun := prepareAuth_of_selected o.apiAuthenticator resourceURL op.SecuritySchemes sel
    o.providerConfiguration net w hsel
  rw [he] at hrun
  exact ⟨_, _, part1 _ _ hrun rfl⟩

/-- Claim C5 at two concrete inputs: a GET whose operation needs the undefined
`secDef1` (no call at all), and a POST whose refresh-token exchange answers 404 (the
only call is the exchange, by client 7; the client's own transport, 1, is not called). -/
theorem auth_error_aborts_before_dispatch_witness :
    exampleClient.performRequest "User-Agent" "agent/1.0" exampleNet "GET" "http://h/v1/cdns/42"
        (some ⟨[⟨"secDef1"⟩], []⟩) none emptyWorld
      = .ok ⟨none, some (policyNotDefinedError ⟨"secDef1"⟩), emptyWorld,
          (apiAuth.authRequired ⟨none⟩ "http://h/v1/cdns/42" [⟨"secDef1"⟩]).2⟩ ∧
    exampleClient.performRequest "User-Agent" "agent/1.0" exampleNet404 "POST" "http://h/v1/cdns"
        (some ⟨[⟨"refreshAuth"⟩], []⟩) (some "payload") emptyWorld
      = .ok ⟨none, some (refreshStatusError "http://auth.local/refresh" 404),
          ⟨[exampleRefresh.request], [.refreshToken exampleRefresh]⟩,
          (apiAuth.authRequired ⟨none⟩ "http://h/v1/cdns" [⟨"refreshAuth"⟩]).2⟩ :=
  ⟨(auth_error_aborts_before_dispatch exampleClient "User-Agent" "agent/1.0" exampleNet "GET"
      "http://h/v1/cdns/42" ⟨[⟨"secDef1"⟩], []⟩ none emptyWorld).1
      ⟨⟨some [], "http://h/v1/cdns/42"⟩, some (policyNotDefinedError ⟨"secDef1"⟩), emptyWorld,
        (apiAuth.authRequired ⟨none⟩ "http://h/v1/cdns/42" [⟨"secDef1"⟩]).2⟩ _ rfl rfl,
   (auth_error_aborts_before_dispatch exampleClient "User-Agent" "agent/1.0" exampleNet404 "POST"
      "http://h/v1/cdns" ⟨[⟨"refreshAuth"⟩], []⟩ (some "payload") emptyWorld).1
      ⟨⟨some [], "http://h/v1/cdns"⟩, some (refreshStatusError "http://auth.local/refresh" 404),
        ⟨[exampleRefresh.request], [.refreshToken exampleRefresh]⟩,
        (apiAuth.authRequired ⟨none⟩ "http://h/v1/cdns" [⟨"refreshAuth"⟩]).2⟩ _ rfl rfl⟩

/-! ## The authenticators -/

/-- Claim C6: `apiKeyQuery{n, v}.prepareAuth` returns nil and turns the URL `u` into
`u ++ "?" ++ n ++ "=" ++ v`, whatever `u` holds; the headers map is unchanged. -/
theorem apiKeyQuery_appends_query (n v u : String) (h : Option HeaderMap) :
    apiKeyQuery.prepareAuth ⟨⟨n, v⟩⟩ ⟨h, u⟩ = .ok (⟨h, u ++ "?" ++ n ++ "=" ++ v⟩, none) := by
  rfl

/-- Claim C7: on a context with a non-nil headers map, `apiKeyHeader{n, v}.prepareAuth`
returns nil, leaves the URL unchanged, and the new map reads `v` at `n` and reads every
other key as before. -/
theorem apiKeyHeader_sets_header (n v : String) (ctx : authContext) (m : HeaderMap)
    (hm : ctx.headers = some m) :
    ∃ m2, apiKeyHeader.prepareAuth ⟨⟨n, v⟩⟩ ctx = .ok (⟨some m2, ctx.url⟩, none) ∧
      mapGet m2 n = some v ∧ ∀ k, k ≠ n → mapGet m2 k = mapGet m k := by
  refine ⟨mapSet m n v, ?_, mapGet_mapSet_same m n v, fun k hk => mapGet_mapSet_other m n v k hk⟩
  simp [apiKeyHeader.prepareAuth, apiKeyHeader.getContext, headersSet, hm]

/-- Claim C7 at a concrete input: the map already holds another header. -/
theorem apiKeyHeader_sets_header_witness :
    ∃ m2, apiKeyHeader.prepareAuth ⟨⟨"X-Api-Key", "k1"⟩⟩
        ⟨some [("Accept", "application/json")], "http://h/v1/cdns"⟩
        = .ok (⟨some m2, "http://h/v1/cdns"⟩, none) ∧
      mapGet m2 "X-Api-Key" = some "k1" ∧
      ∀ k, k ≠ "X-Api-Key" → mapGet m2 k = mapGet [("Accept", "application/json")] k :=
  apiKeyHeader_sets_header "X-Api-Key" "k1"
    ⟨some [("Accept", "application/json")], "http://h/v1/cdns"⟩
    [("Accept", "application/json")] rfl

/-- Claim C10: when the token-exchange POST succeeds at transport level, answers status
200 or 204 and carries a non-empty authorization header `t`, the refresh-token
`prepareAuth` returns nil after that one POST, leaves the URL unchanged, and the new
headers map reads `t` at the authorization key and reads every other key as before; a
nil map is replaced by a map holding that one entry. -/
theorem refresh_token_installs_access_token (a : apiRefreshTokenAuthenticator) (net : Net)
    (ctx : authContext) (w : World) (r : HttpResponse) (t : String)
    (hpost : net w.calls a.request = .ok r)
    (hstatus : r.StatusCode = 200 ∨ r.StatusCode = 204)
    (htoken : headerGet r.Header authorizationHeader = t) (hne : t ≠ "") :
    ∃ m2, a.prepareAuth net ctx w =
        .ok (⟨some m2, ctx.url⟩, none, ⟨w.calls ++ [a.request], w.dispatched⟩) ∧
      mapGet m2 authorizationHeader = some t ∧
      (∀ k, k ≠ authorizationHeader → mapGet m2 k = headersGet ctx.headers k) ∧
      (ctx.headers = none → m2 = [(authorizationHeader, t)]) := by
  have hs : ¬ (r.StatusCode ≠ StatusOK ∧ r.StatusCode ≠ StatusNoContent) := by
    simp only [StatusOK, StatusNoContent]
    rcases hstatus with h | h <;> simp [h]
  subst htoken
  cases hh : ctx.headers with
  | none =>
    refine ⟨[(authorizationHeader, headerGet r.Header authorizationHeader)], ?_, ?_, ?_, ?_⟩
    · simp [apiRefreshTokenAuthenticator.prepareAuth, httpDo, hpost, hs, hne, hh, mapSet]
    · simp [mapGet]
    · intro k hk
      simp [mapGet, headersGet, Ne.symm hk]
    · intro _; rfl
  | some m =>
    refine ⟨mapSet m authorizationHeader (headerGet r.Header authorizationHeader), ?_, ?_, ?_, ?_⟩
    · simp [apiRefreshTokenAuthenticator.prepareAuth, httpDo, hpost, hs, hne, hh]
    · exact mapGet_mapSet_same _ _ _
    · intro k hk
      simpa [headersGet] using mapGet_mapSet_other m _ _ k hk
    · intro h; cases h

/-- Claim C10 at a concrete input: the endpoint answers 200 with
`Authorization: Bearer abc`, and the context comes with a nil headers map. -/
theorem refresh_token_installs_access_token_witness :
    ∃ m2, exampleRefresh.prepareAuth exampleNet ⟨none, "http://h/v1/cdns"⟩ emptyWorld =
        .ok (⟨some m2, "http://h/v1/cdns"⟩, none,
          ⟨emptyWorld.calls ++ [exampleRefresh.request], emptyWorld.dispatched⟩) ∧
      mapGet m2 authorizationHeader = some "Bearer abc" ∧
      (∀ k, k ≠ authorizationHeader → mapGet m2 k = headersGet none k) ∧
      ((none : Option HeaderMap) = none → m2 = [(authorizationHeader, "Bearer abc")]) :=
  refresh_token_installs_access_token exampleRefresh exampleNet ⟨none, "http://h/v1/cdns"⟩
    emptyWorld ⟨200, [("Authorization", ["Bearer abc"])]⟩ "Bearer abc" rfl (Or.inl rfl) rfl
    (by decide)

/-! ## Composition of several authenticators -/

/-- Claim C8: in a successful run over a selected list in which `s1` and, later, `s2`
resolve to authenticators assigning the same header key `k`, and no scheme after `s2`
assigns `k`, the returned headers hold for `k` the value that `s2` wrote: the value of
`k` right after `s2` ran, which is the configured value when `s2` is an `apiKeyHeader`,
and the token of the answer to its own POST when `s2` is a refresh-token authenticator
(whose key is the fixed authorization key, so it overrides an earlier `apiKeyHeader`
named like it). -/
theorem last_write_wins (oa : apiAuth) (url : String) (ops : SpecSecuritySchemes)
    (cfg : providerConfiguration) (net : Net) (w : World)
    (pre mid post : SpecSecuritySchemes) (s1 s2 : SpecSecurityScheme)
    (a1 a2 : authenticator) (k : String) (R : AuthResult)
    (hsel : (oa.authRequired url ops).1 = (true, pre ++ s1 :: mid ++ s2 :: post))
    (hrun : oa.prepareAuth url ops cfg net w = .ok R) (hok : R.err = none)
    (_h1 : cfg.securitySchemaDefinition s1.Name = some a1) (_hk1 : a1.headerKey = some k)
    (h2 : cfg.securitySchemaDefinition s2.Name = some a2) (hk2 : a2.headerKey = some k)
    (hpost : ∀ t ∈ post, ∀ b, cfg.securitySchemaDefinition t.Name = some b →
      b.headerKey ≠ some k) :
    ∃ c1 w1 c2 w2,
      prepareAuthLoop cfg net (pre ++ s1 :: mid) ⟨some [], url⟩ w = .ok (c1, none, w1) ∧
      a2.prepareAuth net c1 w1 = .ok (c2, none, w2) ∧
      headersGet R.ctx.headers k = headersGet c2.headers k ∧
      (∀ h, a2 = .keyHeader h → headersGet R.ctx.headers k = some h.value) ∧
      (∀ r, a2 = .refreshToken r → ∃ resp, net w1.calls r.request = .ok resp ∧
        headersGet R.ctx.headers k = some (headerGet resp.Header authorizationHeader)) := by
  have hl := prepareAuth_ok_loop oa url ops _ cfg net w R hsel hrun hok
  obtain ⟨a, c1, w1, c2, w2, ha, hpre, hstep, hrest⟩ :=
    prepareAuthLoop_split cfg net (pre ++ s1 :: mid) post s2 _ _ w _ hl
  rw [h2] at ha
  cases ha
  have hfin := prepareAuthLoop_other_key cfg net post k hpost c2 R.ctx w2 R.world none hrest
  refine ⟨c1, w1, c2, w2, hpre, hstep, hfin, ?_, ?_⟩
  · intro h ha
    subst ha
    have hkn : h.name = k := by
      simpa [authenticator.headerKey, apiKeyHeader.getContext] using hk2
    rw [hfin, ← hkn]
    exact keyHeader_step_value h net c1 c2 w1 w2 none hstep
  · intro r ha
    subst ha
    have hkn : authorizationHeader = k := by
      simpa [authenticator.headerKey] using hk2
    obtain ⟨resp, hresp, hv⟩ := refreshToken_step_value r net c1 c2 w1 w2 hstep
    exact ⟨resp, hresp, by rw [hfin, ← hkn, hv]⟩

/-- Claim C8 at a concrete input: `legacyAuth` writes `Authorization: static-token`,
then the refresh-token scheme runs and its `Bearer abc` is what the result holds. -/
theorem last_write_wins_witness :
    (∃ c1 w1 c2 w2,
      prepareAuthLoop clashConfig exampleNet ([] ++ (⟨"legacyAuth"⟩ : SpecSecurityScheme) :: [])
        ⟨some [], "http://h/v1/cdns"⟩ emptyWorld = .ok (c1, none, w1) ∧
      (authenticator.refreshToken exampleRefresh).prepareAuth exampleNet c1 w1
        = .ok (c2, none, w2) ∧
      headersGet (some [("Authorization", "Bearer abc")]) "Authorization"
        = headersGet c2.headers "Authorization" ∧
      (∀ h, authenticator.refreshToken exampleRefresh = .keyHeader h →
        headersGet (some [("Authorization", "Bearer abc")]) "Authorization" = some h.value) ∧
      (∀ r, authenticator.refreshToken exampleRefresh = .refreshToken r →
        ∃ resp, exampleNet w1.calls r.request = .ok resp ∧
          headersGet (some [("Authorization", "Bearer abc")]) "Authorization"
            = some (headerGet resp.Header authorizationHeader))) ∧
    headersGet (some [("Authorization", "Bearer abc")]) "Authorization" = some "Bearer abc" :=
  ⟨last_write_wins ⟨none⟩ "http://h/v1/cdns" [⟨"legacyAuth"⟩, ⟨"refreshAuth"⟩] clashConfig
    exampleNet emptyWorld [] [] [] ⟨"legacyAuth"⟩ ⟨"refreshAuth"⟩
    (.keyHeader ⟨⟨"Authorization", "static-token"⟩⟩) (.refreshToken exampleRefresh)
    "Authorization"
    ⟨⟨some [("Authorization", "Bearer abc")], "http://h/v1/cdns"⟩, none,
      ⟨[exampleRefresh.request],
        [.keyHeader ⟨⟨"Authorization", "static-token"⟩⟩, .refreshToken exampleRefresh]⟩,
      (apiAuth.authRequired ⟨none⟩ "http://h/v1/cdns" [⟨"legacyAuth"⟩, ⟨"refreshAuth"⟩]).2⟩
    rfl rfl rfl rfl rfl rfl rfl (fun t ht => absurd ht (List.not_mem_nil t)),
   rfl⟩

/-- Claim C9, as amended: in a successful run over a selected list `pre ++ s :: post`,
every header key that no scheme of `post` assigns has at the end the value it had right
after the authenticator of `s` ran, so what `s` and its predecessors wrote under such a
key is still there; and no key present after `s` ran is absent at the end, whoever
assigns it later. -/
theorem earlier_write_persists_unless_rewritten (oa : apiAuth) (url : String)
    (ops : SpecSecuritySchemes) (cfg : providerConfiguration) (net : Net) (w : World)
    (pre post : SpecSecuritySchemes) (s : SpecSecurityScheme) (R : AuthResult)
    (hsel : (oa.authRequired url ops).1 = (true, pre ++ s :: post))
    (hrun : oa.prepareAuth url ops cfg net w = .ok R) (hok : R.err = none) :
    ∃ a c1 w1 c2 w2,
      cfg.securitySchemaDefinition s.Name = some a ∧
      prepareAuthLoop cfg net pre ⟨some [], url⟩ w = .ok (c1, none, w1) ∧
      a.prepareAuth net c1 w1 = .ok (c2, none, w2) ∧
      (∀ k, (∀ t ∈ post, ∀ b, cfg.securitySchemaDefinition t.Name = some b →
          b.headerKey ≠ some k) →
        headersGet R.ctx.headers k = headersGet c2.headers k) ∧
      (∀ k, headersGet c2.headers k ≠ none → headersGet R.ctx.headers k ≠ none) := by
  have hl := prepareAuth_ok_loop oa url ops _ cfg net w R hsel hrun hok
  obtain ⟨a, c1, w1, c2, w2, ha, hpre, hstep, hrest⟩ :=
    prepareAuthLoop_split cfg net pre post s _ _ w _ hl
  refine ⟨a, c1, w1, c2, w2, ha, hpre, hstep, ?_, ?_⟩
  · intro k hpost
    exact prepareAuthLoop_other_key cfg net post k hpost c2 R.ctx w2 R.world none hrest
  · intro k hk
    exact prepareAuthLoop_keeps_keys cfg net post k c2 R.ctx w2 R.world none hrest hk

/-- Claim C9, as amended, at a concrete input: the header scheme runs first, then the
query scheme and the refresh-token scheme. -/
theorem earlier_write_persists_unless_rewritten_witness :
    ∃ a c1 w1 c2 w2,
      exampleConfig.securitySchemaDefinition "apiKeyAuth" = some a ∧
      prepareAuthLoop exampleConfig exampleNet [] ⟨some [], "http://h/v1/cdns"⟩ emptyWorld
        = .ok (c1, none, w1) ∧
      a.prepareAuth exampleNet c1 w1 = .ok (c2, none, w2) ∧
      (∀ k, (∀ t ∈ ([⟨"queryAuth"⟩, ⟨"refreshAuth"⟩] : SpecSecuritySchemes), ∀ b,
          exampleConfig.securitySchemaDefinition t.Name = some b → b.headerKey ≠ some k) →
        headersGet (some [("X-Api-Key", "k1"), ("Authorization", "Bearer abc")]) k
          = headersGet c2.headers k) ∧
      (∀ k, headersGet c2.headers k ≠ none →
        headersGet (some [("X-Api-Key", "k1"), ("Authorization", "Bearer abc")]) k ≠ none) :=
  earlier_write_persists_unless_rewritten ⟨none⟩ "http://h/v1/cdns"
    [⟨"apiKeyAuth"⟩, ⟨"queryAuth"⟩, ⟨"refreshAuth"⟩] exampleConfig exampleNet emptyWorld
    [] [⟨"queryAuth"⟩, ⟨"refreshAuth"⟩] ⟨"apiKeyAuth"⟩
    ⟨⟨some [("X-Api-Key", "k1"), ("Authorization", "Bearer abc")],
        "http://h/v1/cdns?token=s3cret"⟩, none,
      ⟨[exampleRefresh.request],
        [.keyHeader ⟨⟨"X-Api-Key", "k1"⟩⟩, .keyQuery ⟨⟨"token", "s3cret"⟩⟩,
          .refreshToken exampleRefresh]⟩,
      (apiAuth.authRequired ⟨none⟩ "http://h/v1/cdns"
        [⟨"apiKeyAuth"⟩, ⟨"queryAuth"⟩, ⟨"refreshAuth"⟩]).2⟩
    rfl rfl rfl

/-- Claim C9, as stated, fails: `apiKeyA` and `apiKeyB` are two schemes with different
names whose authenticators both use the header key `X-Api-Key`.  Run alone, `apiKeyA`
leaves `X-Api-Key: first`; run before `apiKeyB`, without any error, its pair is gone
and the key holds `second`. -/
theorem later_scheme_overwrites_earlier_header :
    apiAuth.prepareAuth ⟨none⟩ "http://h/v1/cdns" [⟨"apiKeyA"⟩] clashConfig exampleNet emptyWorld
      = .ok ⟨⟨some [("X-Api-Key", "first")], "http://h/v1/cdns"⟩, none,
          ⟨[], [.keyHeader ⟨⟨"X-Api-Key", "first"⟩⟩]⟩,
          (apiAuth.authRequired ⟨none⟩ "http://h/v1/cdns" [⟨"apiKeyA"⟩]).2⟩ ∧
    apiAuth.prepareAuth ⟨none⟩ "http://h/v1/cdns" [⟨"apiKeyA"⟩, ⟨"apiKeyB"⟩] clashConfig exampleNet
        emptyWorld
      = .ok ⟨⟨some [("X-Api-Key", "second")], "http://h/v1/cdns"⟩, none,
          ⟨[], [.keyHeader ⟨⟨"X-Api-Key", "first"⟩⟩, .keyHeader ⟨⟨"X-Api-Key", "second"⟩⟩]⟩,
          (apiAuth.authRequired ⟨none⟩ "http://h/v1/cdns" [⟨"apiKeyA"⟩, ⟨"apiKeyB"⟩]).2⟩ ∧
    headersGet (some [("X-Api-Key", "second")]) "X-Api-Key" = some "second" ∧
    headersGet (some [("X-Api-Key", "second")]) "X-Api-Key" ≠ some "first" := by
  refine ⟨rfl, rfl, by decide, by decide⟩

/-! ## Auxiliary lemmas for the URL resolver and the dispatcher -/

/-- The scheme loop yields `https` exactly when `https` is an element of the list. -/
theorem defaultScheme_eq (schemes : List String) :
    defaultScheme schemes = if "https" ∈ schemes then "https" else "http" := by
  have gen : ∀ (l : List String) (d : String),
      l.foldl (fun d scheme => if scheme = "https" then "https" else d) d
        = if "https" ∈ l then "https" else d := by
    intro l
    induction l with
    | nil => intro d; simp
    | cons s rest ih =>
      intro d
      simp only [List.foldl_cons, ih, List.mem_cons]
      by_cases hs : s = "https"
      · subst hs
        simp
      · have hs2 : ¬ "https" = s := fun h => hs h.symm
        simp [hs, hs2]
  exact gen schemes "http"

/-- The joined URL is scheme, separator, host, then base path and path. -/
theorem joinResourceURL_eq (scheme host basePath rel : String) :
    joinResourceURL scheme host basePath rel =
      scheme ++ "://" ++ host ++
        ((if basePath = "" ∨ basePath = "/" then ""
          else if beginsWithSlash basePath then basePath else "/" ++ basePath)
        ++ (if beginsWithSlash rel then rel else "/" ++ rel)) := by
  unfold joinResourceURL
  by_cases h1 : basePath = ""
  · simp [h1]
  · by_cases h2 : basePath = "/"
    · simp [h2]
    · by_cases h3 : beginsWithSlash basePath = true
      · simp [h1, h2, h3, String.append_assoc]
      · simp [h1, h2, h3, String.append_assoc]

/-- Unfolding of `getResourceURL` once the three collaborators have answered. -/
theorem getResourceURL_of_collaborators (o : ProviderClient) (resource : SpecResource)
    (ids : List String) (bh rel ho : String)
    (hb : o.backendHost = .ok bh) (hp : resource.getResourcePath ids = .ok rel)
    (hh : resource.getHost = .ok ho) :
    (o.getResourceURL resource ids).1 =
      if (if o.providerConfiguration.getEndPoint resource.getResourceName ≠ "" then
            o.providerConfiguration.getEndPoint resource.getResourceName
          else if ho ≠ "" then ho else bh) = "" ∨ rel = "" then
        .error (hostAndPathMandatoryError
          (if o.providerConfiguration.getEndPoint resource.getResourceName ≠ "" then
            o.providerConfiguration.getEndPoint resource.getResourceName
          else if ho ≠ "" then ho else bh) rel)
      else
        .ok (joinResourceURL (defaultScheme o.openAPIBackendConfiguration.getHTTPSchemes)
          (if o.providerConfiguration.getEndPoint resource.getResourceName ≠ "" then
            o.providerConfiguration.getEndPoint resource.getResourceName
          else if ho ≠ "" then ho else bh)
          o.openAPIBackendConfiguration.getBasePath rel) := by
  simp only [ProviderClient.getResourceURL, hb, hp, hh]
  by_cases he : o.providerConfiguration.getEndPoint resource.getResourceName = "" <;>
  by_cases h2 : ho = "" <;>
  by_cases hr : rel = "" <;>
  by_cases hbh : bh = "" <;>
  simp [he, h2, hr, hbh]

/-- A successful `getResourceURL` had answers from its three collaborators. -/
theorem getResourceURL_ok_collaborators (o : ProviderClient) (resource : SpecResource)
    (ids : List String) (url : String) (hok : (o.getResourceURL resource ids).1 = .ok url) :
    ∃ bh rel ho, o.backendHost = .ok bh ∧ resource.getResourcePath ids = .ok rel ∧
      resource.getHost = .ok ho := by
  cases hb : o.backendHost with
  | error err => simp [ProviderClient.getResourceURL, hb] at hok
  | ok bh =>
    cases hp : resource.getResourcePath ids with
    | error err => simp [ProviderClient.getResourceURL, hb, hp] at hok
    | ok rel =>
      cases hh : resource.getHost with
      | error err => simp [ProviderClient.getResourceURL, hb, hp, hh] at hok
      | ok ho => exact ⟨bh, rel, ho, rfl, rfl, rfl⟩

/-- An error of the backend host resolution is the error of `getResourceURL`. -/
theorem getResourceURL_backend_error (o : ProviderClient) (resource : SpecResource)
    (ids : List String) (err : GoError) (hb : o.backendHost = .error err) :
    o.getResourceURL resource ids = (.error err, []) := by
  simp [ProviderClient.getResourceURL, hb]

/-- A successful `getResourceURL`: the collaborators answered, host and path are not
empty after the overrides, and the URL is the join of scheme, host, base path and path. -/
theorem getResourceURL_ok_eq (o : ProviderClient) (resource : SpecResource)
    (ids : List String) (url : String) (hok : (o.getResourceURL resource ids).1 = .ok url) :
    ∃ bh rel ho, o.backendHost = .ok bh ∧ resource.getResourcePath ids = .ok rel ∧
      resource.getHost = .ok ho ∧
      (if o.providerConfiguration.getEndPoint resource.getResourceName ≠ "" then
          o.providerConfiguration.getEndPoint resource.getResourceName
        else if ho ≠ "" then ho else bh) ≠ "" ∧ rel ≠ "" ∧
      url = joinResourceURL (defaultScheme o.openAPIBackendConfiguration.getHTTPSchemes)
        (if o.providerConfiguration.getEndPoint resource.getResourceName ≠ "" then
          o.providerConfiguration.getEndPoint resource.getResourceName
        else if ho ≠ "" then ho else bh)
        o.openAPIBackendConfiguration.getBasePath rel := by
  obtain ⟨bh, rel, ho, hb, hp, hh⟩ := getResourceURL_ok_collaborators o resource ids url hok
  have hurl := getResourceURL_of_collaborators o resource ids bh rel ho hb hp hh
  rw [hok] at hurl
  refine ⟨bh, rel, ho, hb, hp, hh, ?_⟩
  generalize (if o.providerConfiguration.getEndPoint resource.getResourceName ≠ "" then
      o.providerConfiguration.getEndPoint resource.getResourceName
    else if ho ≠ "" then ho else bh) = H at hurl ⊢
  by_cases hc : H = "" ∨ rel = ""
  · rw [if_pos hc] at hurl
    cases hurl
  · rw [if_neg hc] at hurl
    simp only [Except.ok.injEq] at hurl
    exact ⟨fun h => hc (Or.inl h), fun h => hc (Or.inr h), hurl⟩

/-- Making a string begin with a slash, as `getResourceURL` does, yields a string that
begins with a slash. -/
theorem beginsWithSlash_ensured (p : String) :
    beginsWithSlash (if beginsWithSlash p then p else "/" ++ p) = true := by
  by_cases h : beginsWithSlash p = true
  · simp [h]
  · simp only [h]
    simp [beginsWithSlash]

/-- On a string with at most one leading slash, adding a slash when none is there gives
exactly one leading slash. -/
theorem ensured_eq_exactlyOne (p : String) (h2 : beginsWithTwoSlashes p = false) :
    (if beginsWithSlash p then p else "/" ++ p) = exactlyOneLeadingSlash p := by
  apply String.ext
  rcases hp : p.data with _ | ⟨c, t⟩
  · simp [beginsWithSlash, exactlyOneLeadingSlash, hp]
  · by_cases hc : c = '/'
    · subst hc
      rcases t with _ | ⟨d, t2⟩
      · simp [beginsWithSlash, exactlyOneLeadingSlash, hp]
      · have hd : d ≠ '/' := by
          intro hd
          simp [beginsWithTwoSlashes, hp, hd] at h2
        simp [beginsWithSlash, exactlyOneLeadingSlash, hp, hd, List.dropWhile]
    · simp [beginsWithSlash, exactlyOneLeadingSlash, hp, hc, List.dropWhile]

/-- A string that ends with a slash is some string followed by a slash. -/
theorem endsWithSlash_split (u : String) (h : endsWithSlash u = true) :
    ∃ base, u = base ++ "/" := by
  unfold endsWithSlash at h
  rcases hr : u.data.reverse with _ | ⟨c, t⟩
  · simp [hr] at h
  · simp [hr] at h
    subst h
    refine ⟨String.mk t.reverse, String.ext ?_⟩
    have := congrArg List.reverse hr
    simp at this
    simp [this]

/-- One authenticator call that returned left the headers map non-nil if it was non-nil. -/
theorem authenticator_step_headers (a : authenticator) (net : Net) (ctx c : authContext)
    (w w1 : World) (e : Option GoError)
    (hrun : a.prepareAuth net ctx w = .ok (c, e, w1)) (hh : ctx.headers ≠ none) :
    c.headers ≠ none := by
  obtain ⟨c2, e2, w2, h2, hc⟩ := authenticator_step_returns a net ctx w hh
  rw [hrun] at h2
  simp only [Except.ok.injEq, Prod.mk.injEq] at h2
  rw [h2.1]
  exact hc

/-- A run of the loop that returned left the headers map non-nil if it was non-nil. -/
theorem prepareAuthLoop_headers (cfg : providerConfiguration) (net : Net)
    (sel : SpecSecuritySchemes) (ctx c : authContext) (w w1 : World) (e : Option GoError)
    (hrun : prepareAuthLoop cfg net sel ctx w = .ok (c, e, w1)) (hh : ctx.headers ≠ none) :
    c.headers ≠ none := by
  induction sel generalizing ctx w with
  | nil =>
    simp [prepareAuthLoop] at hrun
    rw [← hrun.1]
    exact hh
  | cons s rest ih =>
    simp only [prepareAuthLoop] at hrun
    cases hs : cfg.securitySchemaDefinition s.Name with
    | none => simp [hs] at hrun
    | some a =>
      rw [hs] at hrun
      simp only [] at hrun
      rcases hstep : a.prepareAuth net ctx w with p | ⟨c2, e2, w2⟩
      · simp [hstep] at hrun
      · rw [hstep] at hrun
        have h1 := authenticator_step_headers a net ctx c2 w w2 e2 hstep hh
        cases e2 with
        | some err =>
          simp at hrun
          rw [← hrun.1]
          exact h1
        | none =>
          simp only [] at hrun
          exact ih c2 w2 hrun h1

/-- The context that `apiAuth.prepareAuth` returns has a non-nil headers map. -/
theorem prepareAuth_headers (oa : apiAuth) (url : String) (ops : SpecSecuritySchemes)
    (cfg : providerConfiguration) (net : Net) (w : World) (R : AuthResult)
    (hrun : oa.prepareAuth url ops cfg net w = .ok R) :
    ∃ m, R.ctx.headers = some m := by
  have key : R.ctx.headers ≠ none := by
    rcases hr : oa.authRequired url ops with ⟨⟨req, sel⟩, logs⟩
    cases req with
    | false =>
      simp [apiAuth.prepareAuth, hr] at hrun
      rw [← hrun]
      simp
    | true =>
      rw [prepareAuth_of_selected oa url ops sel cfg net w (by rw [hr])] at hrun
      cases hc : oa.confirmOperationSecurityPoliciesAreDefined sel cfg with
      | some err =>
        simp [hc] at hrun
        rw [← hrun]
        simp
      | none =>
        rw [hc] at hrun
        simp only [] at hrun
        rcases hl : prepareAuthLoop cfg net sel ⟨some [], url⟩ w with p | ⟨c, e, w1⟩
        · simp [hl] at hrun
        · rw [hl] at hrun
          simp at hrun
          rw [← hrun]
          exact prepareAuthLoop_headers cfg net sel _ c w w1 e hl (by simp)
  cases hm : R.ctx.headers with
  | none => exact absurd hm key
  | some m => exact ⟨m, rfl⟩

/-- On a non-nil map `appendOperationHeaders` writes the operation headers one by one. -/
theorem appendOperationHeaders_some (o : ProviderClient) (ops : List SpecHeaderParam)
    (cfg : providerConfiguration) (m : HeaderMap) :
    o.appendOperationHeaders ops cfg (some m) =
      .ok (some (ops.foldl (fun acc p => mapSet acc p.Name (cfg.getHeaderValueFor p)) m)) := by
  induction ops generalizing m with
  | nil => rfl
  | cons p rest ih =>
    simp only [ProviderClient.appendOperationHeaders, headersSet, List.foldl_cons]
    exact ih _

/-- Writing the operation headers leaves a key that none of them names unchanged. -/
theorem operationHeaders_other (cfg : providerConfiguration) (ops : List SpecHeaderParam)
    (m : HeaderMap) (k : String) (hk : ∀ q ∈ ops, q.Name ≠ k) :
    mapGet (ops.foldl (fun acc p => mapSet acc p.Name (cfg.getHeaderValueFor p)) m) k
      = mapGet m k := by
  induction ops generalizing m with
  | nil => rfl
  | cons p rest ih =>
    simp only [List.foldl_cons]
    rw [ih _ (fun q hq => hk q (List.mem_cons_of_mem _ hq))]
    exact mapGet_mapSet_other m p.Name _ k (fun h => hk p (by simp) h.symm)

/-- After writing the operation headers a named key holds the value of the last
parameter that names it. -/
theorem operationHeaders_last (cfg : providerConfiguration)
    (pre post : List SpecHeaderParam) (p : SpecHeaderParam) (m : HeaderMap)
    (hpost : ∀ q ∈ post, q.Name ≠ p.Name) :
    mapGet ((pre ++ p :: post).foldl
        (fun acc p => mapSet acc p.Name (cfg.getHeaderValueFor p)) m) p.Name
      = some (cfg.getHeaderValueFor p) := by
  rw [List.foldl_append, List.foldl_cons, operationHeaders_other cfg post _ p.Name hpost]
  exact mapGet_mapSet_same _ _ _

/-- Unfolding of `performRequest` after a successful auth resolution: the headers are
merged, then the method selects the transport call. -/
theorem performRequest_of_auth_ok (o : ProviderClient) (userAgent userAgentHeader : String)
    (net : Net) (method resourceURL : String) (op : specResourceOperation)
    (requestPayload : Payload) (w : World) (r : AuthResult) (m0 : HeaderMap)
    (hauth : o.apiAuthenticator.prepareAuth resourceURL op.SecuritySchemes
      o.providerConfiguration net w = .ok r)
    (herr : r.err = none) (hm : r.ctx.headers = some m0) :
    o.performRequest userAgent userAgentHeader net method resourceURL (some op)
        requestPayload w =
      (fun (h2 : HeaderMap) =>
        (fun (logs : List LogEntry) =>
          (fun (send : HttpVerb → Payload → Bool → Except GoPanic ClientResult) =>
            if method = httpPost then send .PostJson requestPayload true
            else if method = httpPut then send .PutJson requestPayload true
            else if method = httpGet then send .Get none true
            else if method = httpDelete then send .Delete none false
            else .ok ⟨none, some ⟨"method '" ++ method ++ "' not supported"⟩, r.world, logs⟩)
          (fun verb body out =>
            .ok ⟨(net r.world.calls ⟨o.httpClient, verb, r.ctx.url, some h2, body, out⟩).toPair.1,
              (net r.world.calls ⟨o.httpClient, verb, r.ctx.url, some h2, body, out⟩).toPair.2,
              ⟨r.world.calls ++ [⟨o.httpClient, verb, r.ctx.url, some h2, body, out⟩],
                r.world.dispatched⟩, logs⟩))
        (r.logs ++ [⟨"[DEBUG] Performing %s %s", [.str method, .str r.ctx.url]⟩]
          ++ o.logHeadersSafely h2))
      (mapSet (op.HeaderParameters.foldl
        (fun acc p => mapSet acc p.Name (o.providerConfiguration.getHeaderValueFor p)) m0)
        userAgent userAgentHeader) := by
  simp only [ProviderClient.performRequest, hauth, herr, hm, appendOperationHeaders_some,
    ProviderClient.appendUserAgentHeader, headersSet, httpDo]

/-! ## The refresh-token authenticator: failures -/

/-- Claim C11: the refresh-token `prepareAuth` always returns, and it returns an error
exactly when the token-exchange POST fails at transport level, or answers a status that
is neither 200 nor 204, or answers without a non-empty authorization header.  A
transport error is returned unchanged, the message of the status error contains the
decimal status code, and whenever an error is returned the context is the input
context, headers and URL alike. -/
theorem refresh_token_fails_iff (a : apiRefreshTokenAuthenticator) (net : Net)
    (ctx : authContext) (w : World) :
    ∃ c e w1, a.prepareAuth net ctx w = .ok (c, e, w1) ∧
      (e ≠ none ↔
        ((∃ r err, net w.calls a.request = .fail r err) ∨
         (∃ r, net w.calls a.request = .ok r ∧ r.StatusCode ≠ 200 ∧ r.StatusCode ≠ 204) ∨
         (∃ r, net w.calls a.request = .ok r ∧ headerGet r.Header authorizationHeader = ""))) ∧
      (∀ r err, net w.calls a.request = .fail r err → e = some err) ∧
      (∀ r, net w.calls a.request = .ok r → r.StatusCode ≠ 200 → r.StatusCode ≠ 204 →
        ∃ before after, e = some ⟨before ++ toString r.StatusCode ++ after⟩) ∧
      (e ≠ none → c = ctx) := by
  cases hnet : net w.calls a.request with
  | fail r err =>
    refine ⟨ctx, some err, ⟨w.calls ++ [a.request], w.dispatched⟩, ?_, ?_, ?_, ?_, ?_⟩
    · simp [apiRefreshTokenAuthenticator.prepareAuth, httpDo, hnet]
    · simp
    · intro r2 err2 h
      cases h
      rfl
    · intro r2 h
      cases h
    · intro _
      rfl
  | ok r =>
    by_cases hs : r.StatusCode ≠ StatusOK ∧ r.StatusCode ≠ StatusNoContent
    · refine ⟨ctx, some (refreshStatusError a.refreshTokenURL r.StatusCode),
        ⟨w.calls ++ [a.request], w.dispatched⟩, ?_, ?_, ?_, ?_, ?_⟩
      · simp [apiRefreshTokenAuthenticator.prepareAuth, httpDo, hnet, hs]
      · simp only [StatusOK, StatusNoContent] at hs
        simp only [ne_eq, reduceCtorEq, not_false_eq_true, true_iff]
        exact Or.inr (Or.inl ⟨r, rfl, hs.1, hs.2⟩)
      · intro r2 err2 h
        cases h
      · intro r2 h _ _
        cases h
        exact ⟨"refresh token POST response '" ++ a.refreshTokenURL ++ "' status code '",
          "' not matching expected response status code [" ++ toString StatusOK ++ ", "
            ++ toString StatusNoContent ++ "]",
          by simp only [refreshStatusError, String.append_assoc]⟩
      · intro _
        rfl
    · by_cases ht : headerGet r.Header authorizationHeader = ""
      · refine ⟨ctx, some (refreshMissingTokenError a.refreshTokenURL),
          ⟨w.calls ++ [a.request], w.dispatched⟩, ?_, ?_, ?_, ?_, ?_⟩
        · simp [apiRefreshTokenAuthenticator.prepareAuth, httpDo, hnet, hs, ht]
        · simp [ht]
        · intro r2 err2 h
          cases h
        · intro r2 h h1 h2
          cases h
          exact absurd ⟨h1, h2⟩ hs
        · intro _
          rfl
      · refine ⟨{ ctx with headers := some (mapSet (match ctx.headers with
            | none => []
            | some m => m) authorizationHeader (headerGet r.Header authorizationHeader)) },
          none, ⟨w.calls ++ [a.request], w.dispatched⟩, ?_, ?_, ?_, ?_, ?_⟩
        · simp [apiRefreshTokenAuthenticator.prepareAuth, httpDo, hnet, hs, ht]
        · simp only [StatusOK, StatusNoContent] at hs
          simp only [ne_eq, not_true_eq_false, reduceCtorEq, exists_false, false_or, false_iff,
            not_or, not_exists, not_and]
          refine ⟨fun r2 h h1 h2 => ?_, fun r2 h => ?_⟩
          · cases h
            exact hs ⟨h1, h2⟩
          · cases h
            exact ht
        · intro r2 err2 h
          cases h
        · intro r2 h h1 h2
          cases h
          exact absurd ⟨h1, h2⟩ hs
        · intro h
          exact absurd rfl h

/-- Claim C11 at a concrete input: the token endpoint answers 404 and the context
already holds a header. -/
theorem refresh_token_fails_iff_witness :
    ∃ c e w1, exampleRefresh.prepareAuth exampleNet404 ⟨some [("Accept", "json")], "http://h"⟩
        emptyWorld = .ok (c, e, w1) ∧
      (e ≠ none ↔
        ((∃ r err, exampleNet404 emptyWorld.calls exampleRefresh.request = .fail r err) ∨
         (∃ r, exampleNet404 emptyWorld.calls exampleRefresh.request = .ok r ∧
            r.StatusCode ≠ 200 ∧ r.StatusCode ≠ 204) ∨
         (∃ r, exampleNet404 emptyWorld.calls exampleRefresh.request = .ok r ∧
            headerGet r.Header authorizationHeader = ""))) ∧
      (∀ r err, exampleNet404 emptyWorld.calls exampleRefresh.request = .fail r err →
        e = some err) ∧
      (∀ r, exampleNet404 emptyWorld.calls exampleRefresh.request = .ok r →
        r.StatusCode ≠ 200 → r.StatusCode ≠ 204 →
        ∃ before after, e = some ⟨before ++ toString r.StatusCode ++ after⟩) ∧
      (e ≠ none → c = ⟨some [("Accept", "json")], "http://h"⟩) :=
  refresh_token_fails_iff exampleRefresh exampleNet404 ⟨some [("Accept", "json")], "http://h"⟩
    emptyWorld

/-! ## The URL resolver -/

/-- Claim C12: when `getResourceURL` succeeds the URL is scheme, `://`, host and a rest,
where the host is the endpoint override of the resource name when that is not empty,
else the host override of the resource when that is not empty, else the host resolved
from the backend; so with both overrides configured the endpoint override is the host. -/
theorem endpoint_override_beats_host_override (o : ProviderClient) (resource : SpecResource)
    (ids : List String) (url : String)
    (hok : (o.getResourceURL resource ids).1 = .ok url) :
    ∃ bh ho rel, o.backendHost = .ok bh ∧ resource.getHost = .ok ho ∧
      resource.getResourcePath ids = .ok rel ∧
      (∃ rest, url = defaultScheme o.openAPIBackendConfiguration.getHTTPSchemes ++ "://" ++
        (if o.providerConfiguration.getEndPoint resource.getResourceName ≠ "" then
          o.providerConfiguration.getEndPoint resource.getResourceName
        else if ho ≠ "" then ho else bh) ++ rest) ∧
      (o.providerConfiguration.getEndPoint resource.getResourceName ≠ "" →
        url = joinResourceURL (defaultScheme o.openAPIBackendConfiguration.getHTTPSchemes)
          (o.providerConfiguration.getEndPoint resource.getResourceName)
          o.openAPIBackendConfiguration.getBasePath rel) ∧
      (o.providerConfiguration.getEndPoint resource.getResourceName = "" → ho ≠ "" →
        url = joinResourceURL (defaultScheme o.openAPIBackendConfiguration.getHTTPSchemes)
          ho o.openAPIBackendConfiguration.getBasePath rel) ∧
      (o.providerConfiguration.getEndPoint resource.getResourceName = "" → ho = "" →
        url = joinResourceURL (defaultScheme o.openAPIBackendConfiguration.getHTTPSchemes)
          bh o.openAPIBackendConfiguration.getBasePath rel) := by
  obtain ⟨bh, rel, ho, hb, hp, hh, _, _, hurl⟩ := getResourceURL_ok_eq o resource ids url hok
  refine ⟨bh, ho, rel, hb, hh, hp, ?_, ?_, ?_, ?_⟩
  · rw [hurl, joinResourceURL_eq]
    exact ⟨_, rfl⟩
  · intro he
    rw [hurl, if_pos he]
  · intro he hho
    rw [hurl]
    simp [he, hho]
  · intro he hho
    rw [hurl]
    simp [he, hho]

/-- Claim C12 at a concrete input: the firewall resource declares the host override
`fw.host` and the operator configured the endpoint override `endpoint.host`. -/
theorem endpoint_override_beats_host_override_witness :
    ∃ bh ho rel, endpointClient.backendHost = .ok bh ∧ firewallResource.getHost = .ok ho ∧
      firewallResource.getResourcePath ["42"] = .ok rel ∧
      (∃ rest, "http://endpoint.host/v1/cdns/42/v1/firewalls"
        = defaultScheme endpointClient.openAPIBackendConfiguration.getHTTPSchemes ++ "://" ++
        (if endpointClient.providerConfiguration.getEndPoint firewallResource.getResourceName ≠ ""
          then endpointClient.providerConfiguration.getEndPoint firewallResource.getResourceName
        else if ho ≠ "" then ho else bh) ++ rest) ∧
      (endpointClient.providerConfiguration.getEndPoint firewallResource.getResourceName ≠ "" →
        "http://endpoint.host/v1/cdns/42/v1/firewalls"
          = joinResourceURL (defaultScheme endpointClient.openAPIBackendConfiguration.getHTTPSchemes)
          (endpointClient.providerConfiguration.getEndPoint firewallResource.getResourceName)
          endpointClient.openAPIBackendConfiguration.getBasePath rel) ∧
      (endpointClient.providerConfiguration.getEndPoint firewallResource.getResourceName = "" →
        ho ≠ "" →
        "http://endpoint.host/v1/cdns/42/v1/firewalls"
          = joinResourceURL (defaultScheme endpointClient.openAPIBackendConfiguration.getHTTPSchemes)
          ho endpointClient.openAPIBackendConfiguration.getBasePath rel) ∧
      (endpointClient.providerConfiguration.getEndPoint firewallResource.getResourceName = "" →
        ho = "" →
        "http://endpoint.host/v1/cdns/42/v1/firewalls"
          = joinResourceURL (defaultScheme endpointClient.openAPIBackendConfiguration.getHTTPSchemes)
          bh endpointClient.openAPIBackendConfiguration.getBasePath rel) :=
  endpoint_override_beats_host_override endpointClient firewallResource ["42"]
    "http://endpoint.host/v1/cdns/42/v1/firewalls" rfl

/-- Claim C13: for a multi-region backend and a resource without host override and
without endpoint override, the backend host is `getHostByRegion r`, with `r` the region
set by the operator when not empty and else the default region `getDefaultRegion regions`;
an error of `getDefaultRegion` or of `getHostByRegion` is the error of `getResourceURL`,
and otherwise the URL is joined on the host of that region. -/
theorem multi_region_host_by_region (o : ProviderClient) (resource : SpecResource)
    (ids : List String) (discarded : String) (regions : List String)
    (hmulti : o.openAPIBackendConfiguration.isMultiRegion = .ok (true, discarded, regions))
    (hho : resource.getHost = .ok "")
    (hep : o.providerConfiguration.getEndPoint resource.getResourceName = "") :
    (o.providerConfiguration.getRegion ≠ "" →
      o.backendHost = o.openAPIBackendConfiguration.getHostByRegion
        o.providerConfiguration.getRegion) ∧
    (o.providerConfiguration.getRegion = "" → ∀ d,
      o.openAPIBackendConfiguration.getDefaultRegion regions = .ok d →
      o.backendHost = o.openAPIBackendConfiguration.getHostByRegion d) ∧
    (o.providerConfiguration.getRegion = "" → ∀ err,
      o.openAPIBackendConfiguration.getDefaultRegion regions = .error err →
      o.getResourceURL resource ids = (.error err, [])) ∧
    (∀ r, (o.providerConfiguration.getRegion ≠ "" ∧ r = o.providerConfiguration.getRegion ∨
        o.providerConfiguration.getRegion = "" ∧
          o.openAPIBackendConfiguration.getDefaultRegion regions = .ok r) →
      (∀ err, o.openAPIBackendConfiguration.getHostByRegion r = .error err →
        o.getResourceURL resource ids = (.error err, [])) ∧
      (∀ h rel, o.openAPIBackendConfiguration.getHostByRegion r = .ok h →
        resource.getResourcePath ids = .ok rel → h ≠ "" → rel ≠ "" →
        o.getResourceURL resource ids =
          (.ok (joinResourceURL (defaultScheme o.openAPIBackendConfiguration.getHTTPSchemes) h
            o.openAPIBackendConfiguration.getBasePath rel), []))) := by
  have h1 : o.providerConfiguration.getRegion ≠ "" →
      o.backendHost = o.openAPIBackendConfiguration.getHostByRegion
        o.providerConfiguration.getRegion := by
    intro hr
    simp [ProviderClient.backendHost, hmulti, hr]
  have h2 : o.providerConfiguration.getRegion = "" → ∀ d,
      o.openAPIBackendConfiguration.getDefaultRegion regions = .ok d →
      o.backendHost = o.openAPIBackendConfiguration.getHostByRegion d := by
    intro hr d hd
    simp [ProviderClient.backendHost, hmulti, hr, hd]
  have h3 : o.providerConfiguration.getRegion = "" → ∀ err,
      o.openAPIBackendConfiguration.getDefaultRegion regions = .error err →
      o.backendHost = .error err := by
    intro hr err hd
    simp [ProviderClient.backendHost, hmulti, hr, hd]
  refine ⟨h1, h2, ?_, ?_⟩
  · intro hr err hd
    exact getResourceURL_backend_error o resource ids err (h3 hr err hd)
  · intro r hr
    have hbh : o.backendHost = o.openAPIBackendConfiguration.getHostByRegion r := by
      rcases hr with ⟨hne, rfl⟩ | ⟨he, hd⟩
      · exact h1 hne
      · exact h2 he r hd
    refine ⟨?_, ?_⟩
    · intro err herr
      exact getResourceURL_backend_error o resource ids err (by rw [hbh, herr])
    · intro h rel hh hp hne hrel
      simp [ProviderClient.getResourceURL, hbh, hh, hp, hho, hep, hne, hrel]

/-- Claim C13 at a concrete input: the operator set no region, the default region is
`rst1`, and the URL is built on the host of `rst1`. -/
theorem multi_region_host_by_region_witness :
    (multiRegionClient.providerConfiguration.getRegion = "" → ∀ d,
      multiRegionClient.openAPIBackendConfiguration.getDefaultRegion ["rst1", "dub1"] = .ok d →
      multiRegionClient.backendHost
        = multiRegionClient.openAPIBackendConfiguration.getHostByRegion d) ∧
    multiRegionClient.getResourceURL cdnResource []
      = (.ok "https://api.rst1.host/api/v1/cdns", []) :=
  ⟨(multi_region_host_by_region multiRegionClient cdnResource [] "api.${region}.host"
      ["rst1", "dub1"] rfl rfl rfl).2.1,
   ((multi_region_host_by_region multiRegionClient cdnResource [] "api.${region}.host"
      ["rst1", "dub1"] rfl rfl rfl).2.2.2 "rst1" (Or.inr ⟨rfl, rfl⟩)).2
      "api.rst1.host" "/v1/cdns" rfl rfl (by decide) (by decide)⟩

/-- Claim C14: a URL returned by `getResourceURL` begins with `https://` when some
element of the scheme list is exactly `https`, and begins with `http://` (and not with
`https://`) otherwise; `HTTPS`, `https` followed by a blank and the empty list all give
`http`. -/
theorem scheme_is_https_iff_declared (o : ProviderClient) (resource : SpecResource)
    (ids : List String) (url : String)
    (hok : (o.getResourceURL resource ids).1 = .ok url) :
    ("https" ∈ o.openAPIBackendConfiguration.getHTTPSchemes → ∃ rest, url = "https://" ++ rest) ∧
    ("https" ∉ o.openAPIBackendConfiguration.getHTTPSchemes →
      (∃ rest, url = "http://" ++ rest) ∧ ¬ ∃ rest, url = "https://" ++ rest) ∧
    defaultScheme ["HTTPS"] = "http" ∧ defaultScheme ["https "] = "http" ∧
    defaultScheme [] = "http" ∧ defaultScheme ["http", "https"] = "https" := by
  obtain ⟨bh, rel, ho, _, _, _, _, _, hurl⟩ := getResourceURL_ok_eq o resource ids url hok
  rw [joinResourceURL_eq] at hurl
  generalize (if o.providerConfiguration.getEndPoint resource.getResourceName ≠ "" then
      o.providerConfiguration.getEndPoint resource.getResourceName
    else if ho ≠ "" then ho else bh) = H at hurl
  generalize ((if o.openAPIBackendConfiguration.getBasePath = "" ∨
      o.openAPIBackendConfiguration.getBasePath = "/" then ""
    else if beginsWithSlash o.openAPIBackendConfiguration.getBasePath then
      o.openAPIBackendConfiguration.getBasePath
    else "/" ++ o.openAPIBackendConfiguration.getBasePath)
    ++ (if beginsWithSlash rel then rel else "/" ++ rel)) = rest at hurl
  have hrest := hurl
  refine ⟨?_, ?_, by decide, by decide, by decide, by decide⟩
  · intro hin
    rw [defaultScheme_eq, if_pos hin] at hrest
    exact ⟨_, by rw [hrest, String.append_assoc, String.append_assoc]; rfl⟩
  · intro hnot
    rw [defaultScheme_eq, if_neg hnot] at hrest
    refine ⟨⟨_, by rw [hrest, String.append_assoc, String.append_assoc]; rfl⟩, ?_⟩
    rintro ⟨r2, hr2⟩
    rw [hrest] at hr2
    have := congrArg String.data hr2
    simp at this

/-- Claim C14 at two concrete inputs: a backend declaring http and https, and a backend
declaring http only. -/
theorem scheme_is_https_iff_declared_witness :
    ("https" ∈ multiRegionClient.openAPIBackendConfiguration.getHTTPSchemes →
      ∃ rest, "https://api.rst1.host/api/v1/cdns" = "https://" ++ rest) ∧
    ("https" ∉ exampleClient.openAPIBackendConfiguration.getHTTPSchemes →
      (∃ rest, "http://h/v1/cdns" = "http://" ++ rest) ∧
        ¬ ∃ rest, "http://h/v1/cdns" = "https://" ++ rest) :=
  ⟨(scheme_is_https_iff_declared multiRegionClient cdnResource []
      "https://api.rst1.host/api/v1/cdns" rfl).1,
   (scheme_is_https_iff_declared exampleClient cdnResource [] "http://h/v1/cdns" rfl).2.1⟩

/-- Claim C15: when the backend host resolution, `getResourcePath` and
`resource.getHost` return no error, `getResourceURL` fails exactly when the host after
both overrides is empty or the relative path is empty; the error message then holds
that host and that path, and an empty backend host is accepted as soon as an override
gives a non-empty host and the path is not empty. -/
theorem fails_iff_host_or_path_empty (o : ProviderClient) (resource : SpecResource)
    (ids : List String) (bh rel ho : String)
    (hb : o.backendHost = .ok bh) (hp : resource.getResourcePath ids = .ok rel)
    (hh : resource.getHost = .ok ho) :
    ((∃ err, (o.getResourceURL resource ids).1 = .error err) ↔
      ((if o.providerConfiguration.getEndPoint resource.getResourceName ≠ "" then
          o.providerConfiguration.getEndPoint resource.getResourceName
        else if ho ≠ "" then ho else bh) = "" ∨ rel = "")) ∧
    (((if o.providerConfiguration.getEndPoint resource.getResourceName ≠ "" then
          o.providerConfiguration.getEndPoint resource.getResourceName
        else if ho ≠ "" then ho else bh) = "" ∨ rel = "") →
      (o.getResourceURL resource ids).1 = .error
        ⟨"host and path are mandatory attributes to get the resource URL - host['" ++
          (if o.providerConfiguration.getEndPoint resource.getResourceName ≠ "" then
            o.providerConfiguration.getEndPoint resource.getResourceName
          else if ho ≠ "" then ho else bh) ++ "'], path['" ++ rel ++ "']"⟩) ∧
    (bh = "" → rel ≠ "" →
      (o.providerConfiguration.getEndPoint resource.getResourceName ≠ "" ∨ ho ≠ "") →
      ∃ url, (o.getResourceURL resource ids).1 = .ok url) := by
  have hurl := getResourceURL_of_collaborators o resource ids bh rel ho hb hp hh
  generalize hH : (if o.providerConfiguration.getEndPoint resource.getResourceName ≠ "" then
      o.providerConfiguration.getEndPoint resource.getResourceName
    else if ho ≠ "" then ho else bh) = H at hurl ⊢
  by_cases hc : H = "" ∨ rel = ""
  · rw [if_pos hc] at hurl
    refine ⟨⟨fun _ => hc, fun _ => ⟨_, hurl⟩⟩, fun _ => ?_, ?_⟩
    · rw [hurl]
      simp only [hostAndPathMandatoryError, String.append_assoc]
    · intro hbh hrel hov
      exfalso
      rcases hc with hc | hc
      · rcases hov with hov | hov
        · rw [if_pos hov] at hH
          exact hov (hH.trans hc)
        · by_cases he : o.providerConfiguration.getEndPoint resource.getResourceName ≠ ""
          · rw [if_pos he] at hH
            exact he (hH.trans hc)
          · rw [if_neg he, if_pos hov] at hH
            exact hov (hH.trans hc)
      · exact hrel hc
  · rw [if_neg hc] at hurl
    refine ⟨⟨fun ⟨err, herr⟩ => ?_, fun h => absurd h hc⟩, fun h => absurd h hc,
      fun _ _ _ => ⟨_, hurl⟩⟩
    rw [hurl] at herr
    cases herr

/-- Claim C15 at two concrete inputs: the backend host is empty; the firewall resource
overrides it with `fw.host` and resolves, the cdn resource has no override and fails. -/
theorem fails_iff_host_or_path_empty_witness :
    (hostlessClient.backendHost = .ok "" ∧ firewallResource.getHost = .ok "fw.host") ∧
    (∃ url, (hostlessClient.getResourceURL firewallResource ["42"]).1 = .ok url) ∧
    (hostlessClient.getResourceURL cdnResource []).1 = .error
      ⟨"host and path are mandatory attributes to get the resource URL - host[''], path['/v1/cdns']"⟩ :=
  ⟨⟨rfl, rfl⟩,
   (fails_iff_host_or_path_empty hostlessClient firewallResource ["42"] ""
      "/v1/cdns/42/v1/firewalls" "fw.host" rfl rfl rfl).2.2 rfl (by decide)
      (Or.inr (by decide)),
   (fails_iff_host_or_path_empty hostlessClient cdnResource [] "" "/v1/cdns" "" rfl rfl
      rfl).2.1 (Or.inl rfl)⟩

/-- Claim C16, as amended: a URL returned by `getResourceURL` is scheme, `://`, host,
`B` and `P`, where `P` is the relative path `p` when `p` begins with a slash and a slash
followed by `p` otherwise, and `B` is empty when the base path `b` is empty or `/`, is
`b` when `b` begins with a slash and a slash followed by `b` otherwise.  `P` begins
with a slash, and with exactly one when `p` begins with at most one; the same holds for
the base path.  Leading slashes beyond the first are kept. -/
theorem url_join_keeps_leading_slashes (o : ProviderClient) (resource : SpecResource)
    (ids : List String) (url : String)
    (hok : (o.getResourceURL resource ids).1 = .ok url) :
    ∃ bh ho p, o.backendHost = .ok bh ∧ resource.getHost = .ok ho ∧
      resource.getResourcePath ids = .ok p ∧
      url = defaultScheme o.openAPIBackendConfiguration.getHTTPSchemes ++ "://" ++
        (if o.providerConfiguration.getEndPoint resource.getResourceName ≠ "" then
          o.providerConfiguration.getEndPoint resource.getResourceName
        else if ho ≠ "" then ho else bh) ++
        ((if o.openAPIBackendConfiguration.getBasePath = "" ∨
            o.openAPIBackendConfiguration.getBasePath = "/" then ""
          else if beginsWithSlash o.openAPIBackendConfiguration.getBasePath then
            o.openAPIBackendConfiguration.getBasePath
          else "/" ++ o.openAPIBackendConfiguration.getBasePath)
        ++ (if beginsWithSlash p then p else "/" ++ p)) ∧
      beginsWithSlash (if beginsWithSlash p then p else "/" ++ p) = true ∧
      (beginsWithTwoSlashes p = false →
        (if beginsWithSlash p then p else "/" ++ p) = exactlyOneLeadingSlash p) ∧
      (beginsWithTwoSlashes o.openAPIBackendConfiguration.getBasePath = false →
        (if beginsWithSlash o.openAPIBackendConfiguration.getBasePath then
            o.openAPIBackendConfiguration.getBasePath
          else "/" ++ o.openAPIBackendConfiguration.getBasePath)
          = exactlyOneLeadingSlash o.openAPIBackendConfiguration.getBasePath) := by
  obtain ⟨bh, rel, ho, hb, hp, hh, _, _, hurl⟩ := getResourceURL_ok_eq o resource ids url hok
  refine ⟨bh, ho, rel, hb, hh, hp, ?_, beginsWithSlash_ensured rel,
    ensured_eq_exactlyOne rel, ensured_eq_exactlyOne _⟩
  rw [hurl, joinResourceURL_eq]

/-- Claim C16, as amended, at a concrete input: base path `api` without leading
slash, path `/v1/cdns`. -/
theorem url_join_keeps_leading_slashes_witness :
    ∃ bh ho p, multiRegionClient.backendHost = .ok bh ∧ cdnResource.getHost = .ok ho ∧
      cdnResource.getResourcePath [] = .ok p ∧
      "https://api.rst1.host/api/v1/cdns"
        = defaultScheme multiRegionClient.openAPIBackendConfiguration.getHTTPSchemes ++ "://" ++
        (if multiRegionClient.providerConfiguration.getEndPoint cdnResource.getResourceName ≠ ""
          then multiRegionClient.providerConfiguration.getEndPoint cdnResource.getResourceName
        else if ho ≠ "" then ho else bh) ++
        ((if multiRegionClient.openAPIBackendConfiguration.getBasePath = "" ∨
            multiRegionClient.openAPIBackendConfiguration.getBasePath = "/" then ""
          else if beginsWithSlash multiRegionClient.openAPIBackendConfiguration.getBasePath then
            multiRegionClient.openAPIBackendConfiguration.getBasePath
          else "/" ++ multiRegionClient.openAPIBackendConfiguration.getBasePath)
        ++ (if beginsWithSlash p then p else "/" ++ p)) ∧
      beginsWithSlash (if beginsWithSlash p then p else "/" ++ p) = true ∧
      (beginsWithTwoSlashes p = false →
        (if beginsWithSlash p then p else "/" ++ p) = exactlyOneLeadingSlash p) ∧
      (beginsWithTwoSlashes multiRegionClient.openAPIBackendConfiguration.getBasePath = false →
        (if beginsWithSlash multiRegionClient.openAPIBackendConfiguration.getBasePath then
            multiRegionClient.openAPIBackendConfiguration.getBasePath
          else "/" ++ multiRegionClient.openAPIBackendConfiguration.getBasePath)
          = exactlyOneLeadingSlash multiRegionClient.openAPIBackendConfiguration.getBasePath) :=
  url_join_keeps_leading_slashes multiRegionClient cdnResource []
    "https://api.rst1.host/api/v1/cdns" rfl

/-- Claim C16, as stated, fails: for the relative path `//cdns` the code returns
`http://h//cdns`, while the path normalised to exactly one leading slash is `/cdns`. -/
theorem double_leading_slash_is_kept :
    (exampleClient.getResourceURL doubleSlashResource []).1 = .ok "http://h//cdns" ∧
    exactlyOneLeadingSlash "//cdns" = "/cdns" ∧
    "http://h//cdns" ≠ "http" ++ "://" ++ "h" ++ "" ++ exactlyOneLeadingSlash "//cdns" := by
  refine ⟨rfl, by decide, by decide⟩

/-- Claim C17: `getResourceIDURL` fails on the empty id list whatever the client and
the resource are; on a non-empty list it returns an error of `getResourceURL` as it is,
and for a collection URL `u` it returns `u`, a slash and the last id when `u` does not
end with a slash, and `u` followed by the last id when it does, so in both cases some
base, one slash and the last id, where `u` is that base with or without the slash. -/
theorem instance_url_appends_last_id (o : ProviderClient) (resource : SpecResource)
    (ids : List String) (hne : ids ≠ []) :
    (o.getResourceIDURL resource [] =
      (.error ⟨"getResourceIDURL cannot be called without the instance id"⟩, [])) ∧
    (∀ err, (o.getResourceURL resource ids).1 = .error err →
      (o.getResourceIDURL resource ids).1 = .error err) ∧
    (∀ u, (o.getResourceURL resource ids).1 = .ok u →
      (endsWithSlash u = false →
        (o.getResourceIDURL resource ids).1 = .ok (u ++ "/" ++ ids.getLast hne)) ∧
      (endsWithSlash u = true →
        (o.getResourceIDURL resource ids).1 = .ok (u ++ ids.getLast hne)) ∧
      ∃ base, (o.getResourceIDURL resource ids).1 = .ok (base ++ "/" ++ ids.getLast hne) ∧
        (u = base ∨ u = base ++ "/")) := by
  have hlen : ¬ ids.length ≤ 0 := by
    intro h
    exact hne (List.length_eq_zero.mp (Nat.le_zero.mp h))
  have hlast : ids.getLast?.getD "" = ids.getLast hne := by
    rw [List.getLast?_eq_getLast ids hne]
    rfl
  refine ⟨by simp [ProviderClient.getResourceIDURL], ?_, ?_⟩
  · intro err herr
    rcases hr : o.getResourceURL resource ids with ⟨res, logs⟩
    rw [hr] at herr
    simp only at herr
    subst herr
    simp [ProviderClient.getResourceIDURL, hlen, hr]
  · intro u hu
    rcases hr : o.getResourceURL resource ids with ⟨res, logs⟩
    rw [hr] at hu
    simp only at hu
    subst hu
    have hfalse : endsWithSlash u = false →
        (o.getResourceIDURL resource ids).1 = .ok (u ++ "/" ++ ids.getLast hne) := by
      intro he
      simp [ProviderClient.getResourceIDURL, hlen, hr, he, hlast]
    have htrue : endsWithSlash u = true →
        (o.getResourceIDURL resource ids).1 = .ok (u ++ ids.getLast hne) := by
      intro he
      simp [ProviderClient.getResourceIDURL, hlen, hr, he, hlast]
    refine ⟨hfalse, htrue, ?_⟩
    cases he : endsWithSlash u with
    | false => exact ⟨u, hfalse he, Or.inl rfl⟩
    | true =>
      obtain ⟨base, hbase⟩ := endsWithSlash_split u he
      refine ⟨base, ?_, Or.inr hbase⟩
      rw [htrue he, hbase]

/-- Claim C17 at a concrete input: collection URL `http://h/v1/cdns/42/v1/firewalls`,
last id `1337`. -/
theorem instance_url_appends_last_id_witness :
    (exampleClient.getResourceURL firewallResourcePlain ["42", "1337"]).1
      = .ok "http://h/v1/cdns/42/v1/firewalls" ∧
    (exampleClient.getResourceIDURL firewallResourcePlain ["42", "1337"]).1
      = .ok "http://h/v1/cdns/42/v1/firewalls/1337" :=
  ⟨rfl, ((instance_url_appends_last_id exampleClient firewallResourcePlain ["42", "1337"]
      (by decide)).2.2 "http://h/v1/cdns/42/v1/firewalls" rfl).1 rfl⟩

/-! ## The dispatcher: the four verbs and the transport call -/

/-- Claim C18, code at the failing input: for the cdn resource the instance URL of id
`42` resolves to `http://h/v1/cdns/42`, yet `Get`, `Put` and `Delete` called with id `42`
return the error of the empty id list and leave the state untouched: no request is
issued. -/
theorem instance_verbs_drop_the_id :
    (exampleClient.getResourceIDURL cdnResource ["42"]).1 = .ok "http://h/v1/cdns/42" ∧
    exampleClient.Get "User-Agent" "agent/1.0" exampleNet cdnResource "42" emptyWorld
      = .ok ⟨none, some ⟨"getResourceIDURL cannot be called without the instance id"⟩,
          emptyWorld, []⟩ ∧
    exampleClient.Put "User-Agent" "agent/1.0" exampleNet cdnResource "42" (some "payload")
        emptyWorld
      = .ok ⟨none, some ⟨"getResourceIDURL cannot be called without the instance id"⟩,
          emptyWorld, []⟩ ∧
    exampleClient.Delete "User-Agent" "agent/1.0" exampleNet cdnResource "42" emptyWorld
      = .ok ⟨none, some ⟨"getResourceIDURL cannot be called without the instance id"⟩,
          emptyWorld, []⟩ := by
  refine ⟨rfl, rfl, rfl, rfl⟩

/-- Claim C19: after a successful auth resolution with context `c`, `performRequest`
with method POST, PUT, GET or DELETE appends exactly one transport call, PostJson,
PutJson, Get or Delete respectively, on the URL of `c`, and returns what the transport
answers.  The headers of the call are those of `c` with every operation header
parameter written in order and then the user-agent key: they read the user-agent value
at the user-agent key, the value of the last operation header parameter of that name
at any other operation header name, and the auth value at every other key. -/
theorem performRequest_dispatches_once (o : ProviderClient)
    (userAgent userAgentHeader : String) (net : Net) (method resourceURL : String)
    (op : specResourceOperation) (requestPayload : Payload) (w : World) (r : AuthResult)
    (hauth : o.apiAuthenticator.prepareAuth resourceURL op.SecuritySchemes
      o.providerConfiguration net w = .ok r)
    (herr : r.err = none) :
    ∃ m0 h2, r.ctx.headers = some m0 ∧
      h2 = mapSet (op.HeaderParameters.foldl
        (fun acc p => mapSet acc p.Name (o.providerConfiguration.getHeaderValueFor p)) m0)
        userAgent userAgentHeader ∧
      (∀ verb body out,
        (method = "POST" ∧ verb = HttpVerb.PostJson ∧ body = requestPayload ∧ out = true) ∨
        (method = "PUT" ∧ verb = HttpVerb.PutJson ∧ body = requestPayload ∧ out = true) ∨
        (method = "GET" ∧ verb = HttpVerb.Get ∧ body = none ∧ out = true) ∨
        (method = "DELETE" ∧ verb = HttpVerb.Delete ∧ body = none ∧ out = false) →
        o.performRequest userAgent userAgentHeader net method resourceURL (some op)
            requestPayload w =
          .ok ⟨(net r.world.calls ⟨o.httpClient, verb, r.ctx.url, some h2, body, out⟩).toPair.1,
            (net r.world.calls ⟨o.httpClient, verb, r.ctx.url, some h2, body, out⟩).toPair.2,
            ⟨r.world.calls ++ [⟨o.httpClient, verb, r.ctx.url, some h2, body, out⟩],
              r.world.dispatched⟩,
            r.logs ++ [⟨"[DEBUG] Performing %s %s", [.str method, .str r.ctx.url]⟩]
              ++ o.logHeadersSafely h2⟩) ∧
      mapGet h2 userAgent = some userAgentHeader ∧
      (∀ pre p post, op.HeaderParameters = pre ++ p :: post →
        (∀ q ∈ post, q.Name ≠ p.Name) → p.Name ≠ userAgent →
        mapGet h2 p.Name = some (o.providerConfiguration.getHeaderValueFor p)) ∧
      (∀ k, k ≠ userAgent → (∀ q ∈ op.HeaderParameters, q.Name ≠ k) →
        mapGet h2 k = mapGet m0 k) := by
  obtain ⟨m0, hm⟩ := prepareAuth_headers _ _ _ _ _ _ r hauth
  refine ⟨m0, _, hm, rfl, ?_, mapGet_mapSet_same _ _ _, ?_, ?_⟩
  · intro verb body out hcase
    rw [performRequest_of_auth_ok o userAgent userAgentHeader net method resourceURL op
      requestPayload w r m0 hauth herr hm]
    rcases hcase with ⟨h1, h2, h3, h4⟩ | ⟨h1, h2, h3, h4⟩ | ⟨h1, h2, h3, h4⟩ | ⟨h1, h2, h3, h4⟩
    · subst h1 h2 h3 h4
      simp [httpPost]
    · subst h1 h2 h3 h4
      simp [httpPost, httpPut]
    · subst h1 h2 h3 h4
      simp [httpPost, httpPut, httpGet]
    · subst h1 h2 h3 h4
      simp [httpPost, httpPut, httpGet, httpDelete]
  · intro pre p post hsplit hpost hne
    rw [mapGet_mapSet_other _ _ _ _ hne, hsplit]
    exact operationHeaders_last o.providerConfiguration pre post p m0 hpost
  · intro k hk hnone
    rw [mapGet_mapSet_other _ _ _ _ hk]
    exact operationHeaders_other o.providerConfiguration op.HeaderParameters m0 k hnone

/-- Claim C19 at a concrete input: a POST whose operation header `X-Api-Key` collides
with the header of the auth scheme. -/
theorem performRequest_dispatches_once_witness :
    ∃ m0 h2, securedAuthResult.ctx.headers = some m0 ∧
      h2 = mapSet (securedOperation.HeaderParameters.foldl
        (fun acc p => mapSet acc p.Name (exampleClient.providerConfiguration.getHeaderValueFor p))
        m0) "User-Agent" "agent/1.0" ∧
      (∀ verb body out,
        ("POST" = "POST" ∧ verb = HttpVerb.PostJson ∧ body = some "payload" ∧ out = true) ∨
        ("POST" = "PUT" ∧ verb = HttpVerb.PutJson ∧ body = some "payload" ∧ out = true) ∨
        ("POST" = "GET" ∧ verb = HttpVerb.Get ∧ body = none ∧ out = true) ∨
        ("POST" = "DELETE" ∧ verb = HttpVerb.Delete ∧ body = none ∧ out = false) →
        exampleClient.performRequest "User-Agent" "agent/1.0" exampleNet "POST"
            "http://h/v1/cdns" (some securedOperation) (some "payload") emptyWorld =
          .ok ⟨(exampleNet securedAuthResult.world.calls
              ⟨exampleClient.httpClient, verb, securedAuthResult.ctx.url, some h2, body,
                out⟩).toPair.1,
            (exampleNet securedAuthResult.world.calls
              ⟨exampleClient.httpClient, verb, securedAuthResult.ctx.url, some h2, body,
                out⟩).toPair.2,
            ⟨securedAuthResult.world.calls ++
              [⟨exampleClient.httpClient, verb, securedAuthResult.ctx.url, some h2, body, out⟩],
              securedAuthResult.world.dispatched⟩,
            securedAuthResult.logs ++
              [⟨"[DEBUG] Performing %s %s", [.str "POST", .str securedAuthResult.ctx.url]⟩]
              ++ exampleClient.logHeadersSafely h2⟩) ∧
      mapGet h2 "User-Agent" = some "agent/1.0" ∧
      (∀ pre p post, securedOperation.HeaderParameters = pre ++ p :: post →
        (∀ q ∈ post, q.Name ≠ p.Name) → p.Name ≠ "User-Agent" →
        mapGet h2 p.Name = some (exampleClient.providerConfiguration.getHeaderValueFor p)) ∧
      (∀ k, k ≠ "User-Agent" → (∀ q ∈ securedOperation.HeaderParameters, q.Name ≠ k) →
        mapGet h2 k = mapGet m0 k) :=
  performRequest_dispatches_once exampleClient "User-Agent" "agent/1.0" exampleNet "POST"
    "http://h/v1/cdns" securedOperation (some "payload") emptyWorld securedAuthResult rfl rfl

/-- Claim C20: after a successful auth resolution, `performRequest` with a method
other than `GET`, `POST`, `PUT` and `DELETE` returns a nil response and the error
`method '<method>' not supported`, and the state is the one the resolver left: no
transport call is made. -/
theorem unsupported_method_is_rejected (o : ProviderClient)
    (userAgent userAgentHeader : String) (net : Net) (method resourceURL : String)
    (op : specResourceOperation) (requestPayload : Payload) (w : World) (r : AuthResult)
    (hauth : o.apiAuthenticator.prepareAuth resourceURL op.SecuritySchemes
      o.providerConfiguration net w = .ok r)
    (herr : r.err = none)
    (hget : method ≠ "GET") (hpost : method ≠ "POST") (hput : method ≠ "PUT")
    (hdelete : method ≠ "DELETE") :
    ∃ m0, r.ctx.headers = some m0 ∧
      o.performRequest userAgent userAgentHeader net method resourceURL (some op)
        requestPayload w =
      .ok ⟨none, some ⟨"method '" ++ method ++ "' not supported"⟩, r.world,
        r.logs ++ [⟨"[DEBUG] Performing %s %s", [.str method, .str r.ctx.url]⟩]
          ++ o.logHeadersSafely (mapSet (op.HeaderParameters.foldl
            (fun acc p => mapSet acc p.Name (o.providerConfiguration.getHeaderValueFor p)) m0)
            userAgent userAgentHeader)⟩ := by
  obtain ⟨m0, hm⟩ := prepareAuth_headers _ _ _ _ _ _ r hauth
  rw [performRequest_of_auth_ok o userAgent userAgentHeader net method resourceURL op
    requestPayload w r m0 hauth herr hm]
  exact ⟨m0, hm, by simp [httpPost, httpPut, httpGet, httpDelete, hget, hpost, hput, hdelete]⟩

/-- Claim C20 at a concrete input: the method `PATCH`. -/
theorem unsupported_method_is_rejected_witness :
    ∃ m0, securedAuthResult.ctx.headers = some m0 ∧
      exampleClient.performRequest "User-Agent" "agent/1.0" exampleNet "PATCH"
        "http://h/v1/cdns" (some securedOperation) (some "payload") emptyWorld =
      .ok ⟨none, some ⟨"method '" ++ "PATCH" ++ "' not supported"⟩, securedAuthResult.world,
        securedAuthResult.logs ++
          [⟨"[DEBUG] Performing %s %s", [.str "PATCH", .str securedAuthResult.ctx.url]⟩]
          ++ exampleClient.logHeadersSafely (mapSet (securedOperation.HeaderParameters.foldl
            (fun acc p => mapSet acc p.Name
              (exampleClient.providerConfiguration.getHeaderValueFor p)) m0)
            "User-Agent" "agent/1.0")⟩ :=
  unsupported_method_is_rejected exampleClient "User-Agent" "agent/1.0" exampleNet "PATCH"
    "http://h/v1/cdns" securedOperation (some "payload") emptyWorld securedAuthResult rfl rfl
    (by decide) (by decide) (by decide) (by decide)

/-! ## The remaining properties of the dispatcher and the URL resolver -/

/-- Claim C27: whatever the client, the network, the resource, the id and the payload
are, `Get`, `Put` and `Delete` return a nil response and the error of
`getResourceIDURL` for an empty id list, with the input state and no log line: the
result does not depend on the backend configuration, no authenticator runs and no
transport call is made.  `Post` resolves its URL with the empty id list. -/
theorem instance_verbs_always_fail (o : ProviderClient) (userAgent userAgentHeader : String)
    (net : Net) (resource : SpecResource) (id : String) (requestPayload : Payload)
    (w : World) :
    o.Get userAgent userAgentHeader net resource id w
      = .ok ⟨none, some ⟨"getResourceIDURL cannot be called without the instance id"⟩, w, []⟩ ∧
    o.Put userAgent userAgentHeader net resource id requestPayload w
      = .ok ⟨none, some ⟨"getResourceIDURL cannot be called without the instance id"⟩, w, []⟩ ∧
    o.Delete userAgent userAgentHeader net resource id w
      = .ok ⟨none, some ⟨"getResourceIDURL cannot be called without the instance id"⟩, w, []⟩ ∧
    o.getResourceIDURL resource []
      = (.error ⟨"getResourceIDURL cannot be called without the instance id"⟩, []) ∧
    o.Post userAgent userAgentHeader net resource requestPayload w
      = o.performAfterURL userAgent userAgentHeader net httpPost (o.getResourceURL resource [])
          resource.getResourceOperations.Post requestPayload w := by
  refine ⟨?_, ?_, ?_, ?_, rfl⟩
  · simp [ProviderClient.Get, ProviderClient.getResourceIDURL, ProviderClient.performAfterURL]
  · simp [ProviderClient.Put, ProviderClient.getResourceIDURL, ProviderClient.performAfterURL]
  · simp [ProviderClient.Delete, ProviderClient.getResourceIDURL,
      ProviderClient.performAfterURL]
  · simp [ProviderClient.getResourceIDURL]

/-- Claim C30: in `getResourceURL` an error of `isMultiRegion`, of `getDefaultRegion`, of
`getHostByRegion` or of `getHost` is returned as it is, whatever host override the
resource declares and whatever endpoint override the operator set.  After the backend
host, an error of `getResourcePath` is returned whatever `resource.getHost` answers;
then an error of `resource.getHost`; the check for an empty host or path comes last. -/
theorem backend_errors_come_first (o : ProviderClient) (resource : SpecResource)
    (ids : List String) :
    (∀ err, o.openAPIBackendConfiguration.isMultiRegion = .error err →
      o.getResourceURL resource ids = (.error err, [])) ∧
    (∀ err discarded regions,
      o.openAPIBackendConfiguration.isMultiRegion = .ok (true, discarded, regions) →
      o.providerConfiguration.getRegion = "" →
      o.openAPIBackendConfiguration.getDefaultRegion regions = .error err →
      o.getResourceURL resource ids = (.error err, [])) ∧
    (∀ err discarded regions region,
      o.openAPIBackendConfiguration.isMultiRegion = .ok (true, discarded, regions) →
      (o.providerConfiguration.getRegion ≠ "" ∧ region = o.providerConfiguration.getRegion ∨
        o.providerConfiguration.getRegion = "" ∧
          o.openAPIBackendConfiguration.getDefaultRegion regions = .ok region) →
      o.openAPIBackendConfiguration.getHostByRegion region = .error err →
      o.getResourceURL resource ids = (.error err, [])) ∧
    (∀ err discarded regions,
      o.openAPIBackendConfiguration.isMultiRegion = .ok (false, discarded, regions) →
      o.openAPIBackendConfiguration.getHost = .error err →
      o.getResourceURL resource ids = (.error err, [])) ∧
    (∀ err, o.backendHost = .error err → o.getResourceURL resource ids = (.error err, [])) ∧
    (∀ bh err, o.backendHost = .ok bh → resource.getResourcePath ids = .error err →
      o.getResourceURL resource ids = (.error err, [])) ∧
    (∀ bh rel err, o.backendHost = .ok bh → resource.getResourcePath ids = .ok rel →
      resource.getHost = .error err → o.getResourceURL resource ids = (.error err, [])) ∧
    (∀ err, (o.getResourceURL resource ids).1 = .error err →
      o.backendHost = .error err ∨
      (∃ bh, o.backendHost = .ok bh ∧ resource.getResourcePath ids = .error err) ∨
      (∃ bh rel, o.backendHost = .ok bh ∧ resource.getResourcePath ids = .ok rel ∧
        resource.getHost = .error err) ∨
      (∃ bh rel ho host, o.backendHost = .ok bh ∧ resource.getResourcePath ids = .ok rel ∧
        resource.getHost = .ok ho ∧ (host = "" ∨ rel = "") ∧
        err = hostAndPathMandatoryError host rel)) := by
  have hback : ∀ err, o.backendHost = .error err →
      o.getResourceURL resource ids = (.error err, []) :=
    fun err h => getResourceURL_backend_error o resource ids err h
  refine ⟨?_, ?_, ?_, ?_, hback, ?_, ?_, ?_⟩
  · intro err h
    exact hback err (by simp [ProviderClient.backendHost, h])
  · intro err discarded regions h hr hd
    exact hback err (by simp [ProviderClient.backendHost, h, hr, hd])
  · intro err discarded regions region h hr hh
    apply hback
    rcases hr with ⟨hne, rfl⟩ | ⟨he, hd⟩
    · simp [ProviderClient.backendHost, h, hne, hh]
    · simp [ProviderClient.backendHost, h, he, hd, hh]
  · intro err discarded regions h hh
    exact hback err (by simp [ProviderClient.backendHost, h, hh])
  · intro bh err hb hp
    simp [ProviderClient.getResourceURL, hb, hp]
  · intro bh rel err hb hp hh
    simp [ProviderClient.getResourceURL, hb, hp, hh]
  · intro err herr
    cases hb : o.backendHost with
    | error e =>
      rw [getResourceURL_backend_error o resource ids e hb] at herr
      simp only [Except.error.injEq] at herr
      exact Or.inl (by rw [herr])
    | ok bh =>
      cases hp : resource.getResourcePath ids with
      | error e =>
        simp [ProviderClient.getResourceURL, hb, hp] at herr
        exact Or.inr (Or.inl ⟨bh, rfl, by rw [herr]⟩)
      | ok rel =>
        cases hh : resource.getHost with
        | error e =>
          simp [ProviderClient.getResourceURL, hb, hp, hh] at herr
          exact Or.inr (Or.inr (Or.inl ⟨bh, rel, rfl, rfl, by rw [herr]⟩))
        | ok ho =>
          have hurl := getResourceURL_of_collaborators o resource ids bh rel ho hb hp hh
          rw [herr] at hurl
          generalize (if o.providerConfiguration.getEndPoint resource.getResourceName ≠ "" then
              o.providerConfiguration.getEndPoint resource.getResourceName
            else if ho ≠ "" then ho else bh) = H at hurl
          by_cases hc : H = "" ∨ rel = ""
          · rw [if_pos hc] at hurl
            simp only [Except.error.injEq] at hurl
            exact Or.inr (Or.inr (Or.inr ⟨bh, rel, ho, H, rfl, rfl, rfl, hc, hurl⟩))
          · rw [if_neg hc] at hurl
            cases hurl

/-- Claim C30 at a concrete input: the backend host fails while the firewall resource
declares a host override and the operator an endpoint override. -/
theorem backend_errors_come_first_witness :
    (firewallResource.getHost = .ok "fw.host" ∧
      brokenClient.providerConfiguration.getEndPoint firewallResource.getResourceName
        = "endpoint.host") ∧
    brokenClient.getResourceURL firewallResource ["42"]
      = (.error ⟨"host not configured"⟩, []) :=
  ⟨⟨rfl, rfl⟩,
   (backend_errors_come_first brokenClient firewallResource ["42"]).2.2.2.1
      ⟨"host not configured"⟩ "" [] rfl rfl⟩

/-! ## Security schemes and header parameters from the description -/

/-- Claim C23: for a non-empty list of alternative groups, `createSecuritySchemes`
returns one scheme for each name of the first group, in the order of the group and
nothing else: a scheme is in the result exactly when its name is in the first group,
so a name that occurs only in a later group is not; for the groups of the test the
result holds `secDef1` and `secDef2` and not `secDef3`. -/
theorem first_group_takes_precedence (first : List (String × List String))
    (later : List (List (String × List String))) :
    createSecuritySchemes (first :: later) = first.map (fun entry => ⟨entry.1⟩) ∧
    (createSecuritySchemes (first :: later)).length = first.length ∧
    (∀ name, (⟨name⟩ : SpecSecurityScheme) ∈ createSecuritySchemes (first :: later) ↔
      name ∈ first.map (fun entry => entry.1)) ∧
    (∀ name, name ∉ first.map (fun entry => entry.1) →
      (⟨name⟩ : SpecSecurityScheme) ∉ createSecuritySchemes (first :: later)) ∧
    createSecuritySchemes exampleRequirements = [⟨"secDef1"⟩, ⟨"secDef2"⟩] ∧
    (⟨"secDef3"⟩ : SpecSecurityScheme) ∉ createSecuritySchemes exampleRequirements := by
  have hmem : ∀ name, (⟨name⟩ : SpecSecurityScheme) ∈ createSecuritySchemes (first :: later) ↔
      name ∈ first.map (fun entry => entry.1) := by
    intro name
    simp only [createSecuritySchemes, List.mem_map]
    constructor
    · rintro ⟨e, he, heq⟩
      exact ⟨e, he, by cases heq; rfl⟩
    · rintro ⟨e, he, heq⟩
      exact ⟨e, he, by rw [heq]⟩
  refine ⟨rfl, by simp [createSecuritySchemes], hmem, fun name h hin => h ((hmem name).mp hin),
    by decide, by decide⟩

/-- The header configuration of one parameter: one entry for a header parameter, none
for any other. -/
theorem appendHeaderConfiguration_eq (acc : SpecHeaderParameters) (parameter : Parameter) :
    appendHeaderConfiguration acc parameter =
      acc ++ (if parameter.In = "header" then
        [{ Name := parameter.Name,
           TerraformName := (parameter.extensionString extTfHeader).getD "" }]
      else []) := by
  unfold appendHeaderConfiguration
  by_cases h : parameter.In = "header"
  · cases he : parameter.extensionString extTfHeader <;> simp [h]
  · simp [h]

/-- The inner loop appends the header configurations of the parameters of one group. -/
theorem foldl_appendHeaderConfiguration (acc : SpecHeaderParameters)
    (parameters : List Parameter) :
    parameters.foldl appendHeaderConfiguration acc =
      acc ++ parameters.flatMap (fun parameter =>
        if parameter.In = "header" then
          [{ Name := parameter.Name,
             TerraformName := (parameter.extensionString extTfHeader).getD "" }]
        else []) := by
  induction parameters generalizing acc with
  | nil => simp
  | cons p rest ih =>
    simp only [List.foldl_cons, ih, appendHeaderConfiguration_eq, List.flatMap_cons,
      List.append_assoc]

/-- The outer loop started from any accumulator. -/
theorem foldl_groups_eq (acc : SpecHeaderParameters) (groups : parameterGroups) :
    groups.foldl
      (fun headerParameters parameters => parameters.foldl appendHeaderConfiguration
        headerParameters) acc =
      acc ++ groups.flatten.flatMap (fun parameter =>
        if parameter.In = "header" then
          [{ Name := parameter.Name,
             TerraformName := (parameter.extensionString extTfHeader).getD "" }]
        else []) := by
  induction groups generalizing acc with
  | nil => simp
  | cons g rest ih =>
    rw [List.foldl_cons, ih, foldl_appendHeaderConfiguration]
    simp only [List.flatten_cons, List.flatMap_append, List.append_assoc]

/-- The header configurations of a list of groups: those of all parameters in order. -/
theorem getHeaderConfigurationsForParameterGroups_eq (groups : parameterGroups) :
    getHeaderConfigurationsForParameterGroups groups =
      groups.flatten.flatMap (fun parameter =>
        if parameter.In = "header" then
          [{ Name := parameter.Name,
             TerraformName := (parameter.extensionString extTfHeader).getD "" }]
        else []) := by
  unfold getHeaderConfigurationsForParameterGroups
  rw [foldl_groups_eq]
  simp

/-- Claim C26: `getHeaderConfigurationsForParameterGroups` returns, for the parameters of
all groups in group order and then parameter order, one entry for each parameter whose
`In` is exactly `header` and none for any other, without de-duplication: the entry has
the name of the parameter and, as terraform name, the `x-terraform-header` extension
value when present and the empty string otherwise.  So the length is the number of
header parameters, the function distributes over concatenation of group lists,
`getHeaderConfigurations ps` is the result for the single group `ps`, and
`getPathHeaderParams` is the result for the parameters of the non-nil operations in
the order Post, Get, Put, Delete. -/
theorem header_configurations_in_order (groups groups2 : parameterGroups)
    (ps : List Parameter) (path : PathItem) :
    getHeaderConfigurationsForParameterGroups groups =
      (groups.flatten.filter (fun parameter => decide (parameter.In = "header"))).map
        (fun parameter =>
          { Name := parameter.Name,
            TerraformName :=
              match parameter.extensionString extTfHeader with
              | some preferredName => preferredName
              | none => "" }) ∧
    (getHeaderConfigurationsForParameterGroups groups).length =
      (groups.flatten.filter (fun parameter => decide (parameter.In = "header"))).length ∧
    getHeaderConfigurationsForParameterGroups (groups ++ groups2) =
      getHeaderConfigurationsForParameterGroups groups ++
        getHeaderConfigurationsForParameterGroups groups2 ∧
    getHeaderConfigurations ps = getHeaderConfigurationsForParameterGroups [ps] ∧
    getPathHeaderParams path =
      getHeaderConfigurationsForParameterGroups
        ([path.Post, path.Get, path.Put, path.Delete].filterMap
          (fun operation => operation.map (fun op => op.Parameters))) ∧
    getPathHeaderParams examplePath =
      [⟨"X-Request-ID", "x_request_id"⟩, ⟨"X-Trace", ""⟩, ⟨"X-Trace", ""⟩] := by
  have hform : ∀ l : List Parameter,
      l.flatMap (fun parameter =>
        if parameter.In = "header" then
          [({ Name := parameter.Name,
              TerraformName := (parameter.extensionString extTfHeader).getD "" } :
            SpecHeaderParam)]
        else []) =
      (l.filter (fun parameter => decide (parameter.In = "header"))).map
        (fun parameter =>
          { Name := parameter.Name,
            TerraformName :=
              match parameter.extensionString extTfHeader with
              | some preferredName => preferredName
              | none => "" }) := by
    intro l
    induction l with
    | nil => rfl
    | cons p rest ih =>
      rw [List.flatMap_cons, ih]
      by_cases h : p.In = "header"
      · cases he : p.extensionString extTfHeader <;> simp [h, he]
      · simp [h]
  have h1 := getHeaderConfigurationsForParameterGroups_eq groups
  refine ⟨by rw [h1, hform], by rw [h1, hform, List.length_map], ?_, rfl, ?_, by decide⟩
  · rw [getHeaderConfigurationsForParameterGroups_eq, getHeaderConfigurationsForParameterGroups_eq,
      getHeaderConfigurationsForParameterGroups_eq, List.flatten_append, List.flatMap_append]
  · unfold getPathHeaderParams
    cases path.Post <;> cases path.Get <;> cases path.Put <;> cases path.Delete <;>
      simp [appendOperationParametersIfPresent]

/-! ## Logging of headers -/

/-- The lines of `logHeadersSafely` are those of the shapes of the headers, in order. -/
theorem logHeadersSafely_eq (o : ProviderClient) (headers : HeaderMap) :
    o.logHeadersSafely headers = (headers.map headerShape).flatMap headerShapeLines := by
  induction headers with
  | nil => rfl
  | cons h rest ih =>
    obtain ⟨name, value⟩ := h
    simp only [ProviderClient.logHeadersSafely, ih, List.map_cons, List.flatMap_cons,
      headerShape, headerShapeLines]
    by_cases hv : value = "" <;> simp [hv]

/-- Claim C21: the lines that `logHeadersSafely` emits are a function of the names of
the headers and of whether each value is empty.  Two header maps with the same names
and the same empty values, listed in any order, give the same lines up to order, also
on two different clients; a header with a non-empty value gives exactly one line and a
header with an empty value two, so the number of lines is the number of headers plus
the number of empty values; and every argument of every line is a header name. -/
theorem logHeadersSafely_depends_on_shape (o o2 : ProviderClient) (m1 m2 : HeaderMap)
    (hshape : (m1.map headerShape).Perm (m2.map headerShape)) :
    (o.logHeadersSafely m1).Perm (o2.logHeadersSafely m2) ∧
    (∀ name value, value ≠ "" →
      o.logHeadersSafely [(name, value)] =
        [⟨"[DEBUG] Request Header '%s' sent", [.str name]⟩]) ∧
    (∀ name,
      o.logHeadersSafely [(name, "")] =
        [⟨"[DEBUG] Request Header '%s' sent with empty value :(", [.str name]⟩,
         ⟨"[DEBUG] Request Header '%s' sent", [.str name]⟩]) ∧
    (∀ front back, o.logHeadersSafely (front ++ back) =
      o.logHeadersSafely front ++ o.logHeadersSafely back) ∧
    (o.logHeadersSafely m1).length =
      m1.length + (m1.filter (fun header => decide (header.2 = ""))).length ∧
    (∀ line ∈ o.logHeadersSafely m1, ∀ arg ∈ line.args,
      ∃ header ∈ m1, arg = LogArg.str header.1) := by
  refine ⟨?_, ?_, ?_, ?_, ?_, ?_⟩
  · rw [logHeadersSafely_eq, logHeadersSafely_eq]
    exact List.Perm.flatMap_right _ hshape
  · intro name value hv
    simp [ProviderClient.logHeadersSafely, hv]
  · intro name
    simp [ProviderClient.logHeadersSafely]
  · intro front back
    simp [logHeadersSafely_eq, List.flatMap_append]
  · have hlen : ∀ l : HeaderMap, (o.logHeadersSafely l).length =
        l.length + (l.filter (fun header => decide (header.2 = ""))).length := by
      intro l
      induction l with
      | nil => rfl
      | cons h rest ih =>
        obtain ⟨name, value⟩ := h
        by_cases hv : value = ""
        · simp [ProviderClient.logHeadersSafely, hv, ih]
          omega
        · simp [ProviderClient.logHeadersSafely, hv, ih]
          omega
    exact hlen m1
  · intro line hline arg harg
    rw [logHeadersSafely_eq] at hline
    simp only [List.mem_flatMap, List.mem_map] at hline
    obtain ⟨shape, ⟨header, hheader, rfl⟩, hl⟩ := hline
    refine ⟨header, hheader, ?_⟩
    simp only [headerShapeLines, headerShape] at hl
    by_cases hv : header.2 = ""
    · simp [hv] at hl
      rcases hl with rfl | rfl <;> simpa using harg
    · simp [hv] at hl
      subst hl
      simpa using harg

/-- Claim C21 at a concrete input: the same two header names in the other order, with
another secret as the non-empty value. -/
theorem logHeadersSafely_depends_on_shape_witness :
    (exampleClient.logHeadersSafely [("Authorization", "Bearer abc"), ("X-Empty", "")]).Perm
      (endpointClient.logHeadersSafely [("X-Empty", ""), ("Authorization", "other-secret")]) :=
  (logHeadersSafely_depends_on_shape exampleClient endpointClient
    [("Authorization", "Bearer abc"), ("X-Empty", "")]
    [("X-Empty", ""), ("Authorization", "other-secret")]
    (List.Perm.swap ("X-Empty", true) ("Authorization", false) [])).1

/-! ## The refresh-token authenticator: one exchange for every call -/

/-- The state after one call of the refresh-token `prepareAuth`: one more transport
call, the request of the authenticator. -/
theorem refresh_prepareAuth_world (a : apiRefreshTokenAuthenticator) (net : Net)
    (ctx : authContext) (w : World) :
    ∃ c e, a.prepareAuth net ctx w = .ok (c, e, ⟨w.calls ++ [a.request], w.dispatched⟩) := by
  simp only [apiRefreshTokenAuthenticator.prepareAuth, httpDo]
  split
  · exact ⟨_, _, rfl⟩
  · split
    · exact ⟨_, _, rfl⟩
    · split
      · exact ⟨_, _, rfl⟩
      · exact ⟨_, _, rfl⟩

/-- Claim C25: each call of the refresh-token `prepareAuth` returns and appends exactly
one transport call: a POST by the client of the authenticator to `refreshTokenURL`,
with the single header (key name, refresh token) and a nil body, also for an
authenticator built by `newAPIRefreshTokenAuthenticator`.  After `k` successive calls
the state holds `k` more such POSTs, and the context and error of a call are the same
in any two runs in which its own POST gets the same answer. -/
theorem refresh_token_posts_every_time (a : apiRefreshTokenAuthenticator) (net : Net)
    (ctx : authContext) (w : World) (k : Nat) :
    (∃ c e, a.prepareAuth net ctx w = .ok (c, e, ⟨w.calls ++ [a.request], w.dispatched⟩)) ∧
    a.request = ⟨a.httpClient, .PostJson, a.refreshTokenURL, some [(a.name, a.value)], none,
      false⟩ ∧
    (∀ name refreshToken refreshTokenURL client,
      (newAPIRefreshTokenAuthenticator name refreshToken refreshTokenURL client).request =
        ⟨client, .PostJson, refreshTokenURL, some [(name, refreshToken)], none, false⟩) ∧
    (∃ c, prepareAuthTimes a net k ctx w =
      .ok (c, ⟨w.calls ++ List.replicate k a.request, w.dispatched⟩)) ∧
    (∀ net2 w2, net w.calls a.request = net2 w2.calls a.request →
      (a.prepareAuth net ctx w).map (fun r => (r.1, r.2.1)) =
        (a.prepareAuth net2 ctx w2).map (fun r => (r.1, r.2.1))) := by
  refine ⟨refresh_prepareAuth_world a net ctx w, rfl, fun _ _ _ _ => rfl, ?_, ?_⟩
  · induction k generalizing ctx w with
    | zero => exact ⟨ctx, by simp [prepareAuthTimes]⟩
    | succ k ih =>
      obtain ⟨c, e, h⟩ := refresh_prepareAuth_world a net ctx w
      obtain ⟨c2, h2⟩ := ih c ⟨w.calls ++ [a.request], w.dispatched⟩
      refine ⟨c2, ?_⟩
      simp only [prepareAuthTimes, h, h2, List.replicate_succ, List.append_assoc,
        List.singleton_append]
  · intro net2 w2 hsame
    simp only [apiRefreshTokenAuthenticator.prepareAuth, httpDo, ← hsame]
    cases net w.calls a.request with
    | fail r err => rfl
    | ok r =>
      simp only []
      split
      · rfl
      · split
        · rfl
        · rfl

/-- Claim C25 at a concrete input: three calls, the first on a nil headers map; and one
call made before and one made after another exchange, both answered alike. -/
theorem refresh_token_posts_every_time_witness :
    (∃ c, prepareAuthTimes exampleRefresh exampleNet 3 ⟨none, "http://h/v1/cdns"⟩ emptyWorld =
      .ok (c, ⟨emptyWorld.calls ++ List.replicate 3 exampleRefresh.request,
        emptyWorld.dispatched⟩)) ∧
    (exampleRefresh.prepareAuth exampleNet ⟨none, "http://h/v1/cdns"⟩ emptyWorld).map
        (fun r => (r.1, r.2.1)) =
      (exampleRefresh.prepareAuth exampleNet ⟨none, "http://h/v1/cdns"⟩
        ⟨[exampleRefresh.request], []⟩).map (fun r => (r.1, r.2.1)) :=
  ⟨(refresh_token_posts_every_time exampleRefresh exampleNet ⟨none, "http://h/v1/cdns"⟩
      emptyWorld 3).2.2.2.1,
   (refresh_token_posts_every_time exampleRefresh exampleNet ⟨none, "http://h/v1/cdns"⟩
      emptyWorld 3).2.2.2.2 exampleNet ⟨[exampleRefresh.request], []⟩ rfl⟩

/-! ## Composition of several authenticators: order and failure -/

/-- The fold does not move once an authenticator failed. -/
theorem foldPrepareAuth_stuck (net : Net) (auths : List authenticator)
    (acc : Except GoPanic (authContext × Option GoError × World))
    (hacc : ∀ c w, acc ≠ .ok (c, none, w)) :
    auths.foldl
      (fun acc a =>
        match acc with
        | .ok (c, none, w1) => a.prepareAuth net c w1
        | other => other) acc = acc := by
  induction auths with
  | nil => rfl
  | cons a rest ih =>
    rw [List.foldl_cons]
    rcases acc with p | ⟨c, e, w1⟩
    · exact ih
    · cases e with
      | none => exact absurd rfl (hacc c w1)
      | some err => exact ih

/-- The loop of `apiAuth.prepareAuth` over schemes that resolve to the authenticators
`auths` is the left fold of their `prepareAuth`. -/
theorem prepareAuthLoop_eq_fold (cfg : providerConfiguration) (net : Net)
    (sel : SpecSecuritySchemes) (auths : List authenticator)
    (hdef : sel.map (fun s => cfg.securitySchemaDefinition s.Name) = auths.map some)
    (ctx : authContext) (w : World) :
    prepareAuthLoop cfg net sel ctx w = foldPrepareAuth net auths ctx w := by
  induction sel generalizing auths ctx w with
  | nil =>
    cases auths with
    | nil => rfl
    | cons a rest => simp at hdef
  | cons s rest ih =>
    cases auths with
    | nil => simp at hdef
    | cons a more =>
      simp only [List.map_cons, List.cons.injEq] at hdef
      obtain ⟨ha, hrest⟩ := hdef
      simp only [prepareAuthLoop, ha, foldPrepareAuth, List.foldl_cons]
      rcases hstep : a.prepareAuth net ctx w with p | ⟨c, e, w1⟩
      · simp only []
        exact (foldPrepareAuth_stuck net more _ (fun c w h => by cases h)).symm
      · cases e with
        | some err =>
          simp only []
          exact (foldPrepareAuth_stuck net more _ (fun c w h => by cases h)).symm
        | none =>
          simp only []
          exact ih more hrest c w1

/-- Claim C24: when the selected schemes resolve to the authenticators `auths` and the
run succeeds, the context and state that `apiAuth.prepareAuth` returns are those of the
left fold of the `prepareAuth` of `auths`, in list order, over the one initial context
with the target URL and an empty headers map.  For two API-key-in-query schemes
`(n1, v1)` then `(n2, v2)` the URL is the target followed by `?n1=v1` and then `?n2=v2`,
whatever the two are, so in the reversed list the two suffixes are reversed. -/
theorem prepareAuth_is_left_fold (oa : apiAuth) (url : String) (ops sel : SpecSecuritySchemes)
    (cfg : providerConfiguration) (net : Net) (w : World) (auths : List authenticator)
    (R : AuthResult)
    (hsel : (oa.authRequired url ops).1 = (true, sel))
    (hdef : sel.map (fun s => cfg.securitySchemaDefinition s.Name) = auths.map some)
    (hrun : oa.prepareAuth url ops cfg net w = .ok R) (hok : R.err = none) :
    foldPrepareAuth net auths ⟨some [], url⟩ w = .ok (R.ctx, none, R.world) ∧
    (∀ n1 v1 n2 v2, auths = [.keyQuery ⟨⟨n1, v1⟩⟩, .keyQuery ⟨⟨n2, v2⟩⟩] →
      R.ctx = ⟨some [], url ++ "?" ++ n1 ++ "=" ++ v1 ++ "?" ++ n2 ++ "=" ++ v2⟩) := by
  have hloop := prepareAuth_ok_loop oa url ops sel cfg net w R hsel hrun hok
  rw [prepareAuthLoop_eq_fold cfg net sel auths hdef] at hloop
  refine ⟨hloop, ?_⟩
  intro n1 v1 n2 v2 hauths
  subst hauths
  simp [foldPrepareAuth, authenticator.prepareAuth, apiKeyQuery.prepareAuth,
    apiKeyQuery.getContext] at hloop
  rw [← hloop.1]

/-- Claim C24 at two concrete inputs: two query schemes in one order and in the other. -/
theorem prepareAuth_is_left_fold_witness :
    (∀ n1 v1 n2 v2,
      [authenticator.keyQuery ⟨⟨"token", "s3cret"⟩⟩, .keyQuery ⟨⟨"sig", "abc"⟩⟩]
        = [.keyQuery ⟨⟨n1, v1⟩⟩, .keyQuery ⟨⟨n2, v2⟩⟩] →
      (⟨some [], "http://h/v1/cdns?token=s3cret?sig=abc"⟩ : authContext)
        = ⟨some [], "http://h/v1/cdns" ++ "?" ++ n1 ++ "=" ++ v1 ++ "?" ++ n2 ++ "=" ++ v2⟩) ∧
    (∀ n1 v1 n2 v2,
      [authenticator.keyQuery ⟨⟨"sig", "abc"⟩⟩, .keyQuery ⟨⟨"token", "s3cret"⟩⟩]
        = [.keyQuery ⟨⟨n1, v1⟩⟩, .keyQuery ⟨⟨n2, v2⟩⟩] →
      (⟨some [], "http://h/v1/cdns?sig=abc?token=s3cret"⟩ : authContext)
        = ⟨some [], "http://h/v1/cdns" ++ "?" ++ n1 ++ "=" ++ v1 ++ "?" ++ n2 ++ "=" ++ v2⟩) :=
  ⟨(prepareAuth_is_left_fold ⟨none⟩ "http://h/v1/cdns" [⟨"queryAuth"⟩, ⟨"signatureAuth"⟩]
      [⟨"queryAuth"⟩, ⟨"signatureAuth"⟩] twoQueryConfig exampleNet emptyWorld
      [.keyQuery ⟨⟨"token", "s3cret"⟩⟩, .keyQuery ⟨⟨"sig", "abc"⟩⟩]
      ⟨⟨some [], "http://h/v1/cdns?token=s3cret?sig=abc"⟩, none,
        ⟨[], [.keyQuery ⟨⟨"token", "s3cret"⟩⟩, .keyQuery ⟨⟨"sig", "abc"⟩⟩]⟩,
        (apiAuth.authRequired ⟨none⟩ "http://h/v1/cdns"
          [⟨"queryAuth"⟩, ⟨"signatureAuth"⟩]).2⟩ rfl rfl rfl rfl).2,
   (prepareAuth_is_left_fold ⟨none⟩ "http://h/v1/cdns" [⟨"signatureAuth"⟩, ⟨"queryAuth"⟩]
      [⟨"signatureAuth"⟩, ⟨"queryAuth"⟩] twoQueryConfig exampleNet emptyWorld
      [.keyQuery ⟨⟨"sig", "abc"⟩⟩, .keyQuery ⟨⟨"token", "s3cret"⟩⟩]
      ⟨⟨some [], "http://h/v1/cdns?sig=abc?token=s3cret"⟩, none,
        ⟨[], [.keyQuery ⟨⟨"sig", "abc"⟩⟩, .keyQuery ⟨⟨"token", "s3cret"⟩⟩]⟩,
        (apiAuth.authRequired ⟨none⟩ "http://h/v1/cdns"
          [⟨"signatureAuth"⟩, ⟨"queryAuth"⟩]).2⟩ rfl rfl rfl rfl).2⟩

/-- One authenticator call adds itself, and nothing else, to the dispatch trace. -/
theorem authenticator_step_dispatched (a : authenticator) (net : Net) (ctx c : authContext)
    (w w1 : World) (e : Option GoError)
    (hrun : a.prepareAuth net ctx w = .ok (c, e, w1)) :
    w1.dispatched = w.dispatched ++ [a] := by
  cases a with
  | keyHeader h =>
    cases hh : ctx.headers with
    | none =>
      simp [authenticator.prepareAuth, apiKeyHeader.prepareAuth, headersSet, hh] at hrun
    | some m =>
      simp [authenticator.prepareAuth, apiKeyHeader.prepareAuth, headersSet, hh] at hrun
      rw [← hrun.2.2]
  | keyQuery q =>
    simp [authenticator.prepareAuth, apiKeyQuery.prepareAuth] at hrun
    rw [← hrun.2.2]
  | refreshToken r =>
    obtain ⟨c2, e2, h2⟩ := refresh_prepareAuth_world r net ctx
      { w with dispatched := w.dispatched ++ [.refreshToken r] }
    simp only [authenticator.prepareAuth] at hrun
    rw [h2] at hrun
    simp only [Except.ok.injEq, Prod.mk.injEq] at hrun
    rw [← hrun.2.2]

/-- An authenticator call that returns an error leaves the context as it was. -/
theorem authenticator_step_failure (a : authenticator) (net : Net) (ctx c : authContext)
    (w w1 : World) (err : GoError)
    (hrun : a.prepareAuth net ctx w = .ok (c, some err, w1)) :
    c = ctx := by
  cases a with
  | keyHeader h =>
    cases hh : ctx.headers with
    | none =>
      simp [authenticator.prepareAuth, apiKeyHeader.prepareAuth, headersSet, hh] at hrun
    | some m =>
      simp [authenticator.prepareAuth, apiKeyHeader.prepareAuth, headersSet, hh] at hrun
  | keyQuery q =>
    simp [authenticator.prepareAuth, apiKeyQuery.prepareAuth] at hrun
  | refreshToken r =>
    simp only [authenticator.prepareAuth, apiRefreshTokenAuthenticator.prepareAuth, httpDo] at hrun
    split at hrun
    · simp at hrun
      exact hrun.1.symm
    · split at hrun
      · simp at hrun
        exact hrun.1.symm
      · split at hrun
        · simp at hrun
          exact hrun.1.symm
        · simp at hrun

/-- A successful run of the loop over schemes that resolve to `auths` adds exactly
`auths` to the dispatch trace. -/
theorem prepareAuthLoop_dispatched (cfg : providerConfiguration) (net : Net)
    (sel : SpecSecuritySchemes) (auths : List authenticator)
    (hdef : sel.map (fun s => cfg.securitySchemaDefinition s.Name) = auths.map some)
    (ctx c : authContext) (w w1 : World)
    (hrun : prepareAuthLoop cfg net sel ctx w = .ok (c, none, w1)) :
    w1.dispatched = w.dispatched ++ auths := by
  induction sel generalizing auths ctx w with
  | nil =>
    cases auths with
    | nil =>
      simp [prepareAuthLoop] at hrun
      rw [← hrun.2]
      simp
    | cons a rest => simp at hdef
  | cons s rest ih =>
    cases auths with
    | nil => simp at hdef
    | cons a more =>
      simp only [List.map_cons, List.cons.injEq] at hdef
      obtain ⟨ha, hrest⟩ := hdef
      simp only [prepareAuthLoop, ha] at hrun
      rcases hstep : a.prepareAuth net ctx w with p | ⟨c2, e2, w2⟩
      · simp [hstep] at hrun
      · rw [hstep] at hrun
        cases e2 with
        | some err => simp at hrun
        | none =>
          simp only [] at hrun
          rw [ih more hrest c2 w2 hrun,
            authenticator_step_dispatched a net ctx c2 w w2 none hstep]
          simp

/-- Claim C28: for a selected list `pre ++ s :: post` whose schemes are all defined, if
the authenticators of `pre` succeed and the authenticator of `s` returns an error, then
`apiAuth.prepareAuth` returns that error with the context that the run over `pre` left,
not the fresh one, and with the state right after the failing call: the dispatch trace
holds the authenticators of `pre` and the failing one, and none of `post`. -/
theorem failure_keeps_earlier_writes (oa : apiAuth) (url : String) (ops : SpecSecuritySchemes)
    (cfg : providerConfiguration) (net : Net) (w : World)
    (pre post : SpecSecuritySchemes) (s : SpecSecurityScheme) (preAuths : List authenticator)
    (a : authenticator) (c1 c2 : authContext) (w1 w2 : World) (err : GoError)
    (hsel : (oa.authRequired url ops).1 = (true, pre ++ s :: post))
    (hdef : ∀ t ∈ pre ++ s :: post, ∃ b, cfg.securitySchemaDefinition t.Name = some b)
    (hpreAuths : pre.map (fun t => cfg.securitySchemaDefinition t.Name) = preAuths.map some)
    (ha : cfg.securitySchemaDefinition s.Name = some a)
    (hpre : prepareAuthLoop cfg net pre ⟨some [], url⟩ w = .ok (c1, none, w1))
    (hfail : a.prepareAuth net c1 w1 = .ok (c2, some err, w2)) :
    oa.prepareAuth url ops cfg net w = .ok ⟨c1, some err, w2, (oa.authRequired url ops).2⟩ ∧
    c2 = c1 ∧
    w2.dispatched = w.dispatched ++ preAuths ++ [a] := by
  have hc : c2 = c1 := authenticator_step_failure a net c1 c2 w1 w2 err hfail
  subst hc
  refine ⟨?_, rfl, ?_⟩
  · rw [prepareAuth_of_selected oa url ops _ cfg net w hsel,
      (confirm_none_iff oa _ cfg).mpr hdef]
    simp only []
    rw [prepareAuthLoop_append, hpre]
    simp only [prepareAuthLoop, ha, hfail]
  · rw [authenticator_step_dispatched a net c2 c2 w1 w2 _ hfail,
      prepareAuthLoop_dispatched cfg net pre preAuths hpreAuths _ c2 w w1 hpre]

/-- Claim C28 at a concrete input: the header scheme and the query scheme succeed, the
token exchange answers 404, and a further scheme follows; the returned context holds
the header and the rewritten URL. -/
theorem failure_keeps_earlier_writes_witness :
    apiAuth.prepareAuth ⟨none⟩ "http://h/v1/cdns"
        [⟨"apiKeyAuth"⟩, ⟨"queryAuth"⟩, ⟨"refreshAuth"⟩, ⟨"apiKeyAuth"⟩] exampleConfig
        exampleNet404 emptyWorld
      = .ok ⟨⟨some [("X-Api-Key", "k1")], "http://h/v1/cdns?token=s3cret"⟩,
          some (refreshStatusError "http://auth.local/refresh" 404),
          ⟨[exampleRefresh.request],
            [.keyHeader ⟨⟨"X-Api-Key", "k1"⟩⟩, .keyQuery ⟨⟨"token", "s3cret"⟩⟩,
              .refreshToken exampleRefresh]⟩,
          (apiAuth.authRequired ⟨none⟩ "http://h/v1/cdns"
            [⟨"apiKeyAuth"⟩, ⟨"queryAuth"⟩, ⟨"refreshAuth"⟩, ⟨"apiKeyAuth"⟩]).2⟩ :=
  (failure_keeps_earlier_writes ⟨none⟩ "http://h/v1/cdns"
    [⟨"apiKeyAuth"⟩, ⟨"queryAuth"⟩, ⟨"refreshAuth"⟩, ⟨"apiKeyAuth"⟩] exampleConfig
    exampleNet404 emptyWorld [⟨"apiKeyAuth"⟩, ⟨"queryAuth"⟩] [⟨"apiKeyAuth"⟩] ⟨"refreshAuth"⟩
    [.keyHeader ⟨⟨"X-Api-Key", "k1"⟩⟩, .keyQuery ⟨⟨"token", "s3cret"⟩⟩]
    (.refreshToken exampleRefresh)
    ⟨some [("X-Api-Key", "k1")], "http://h/v1/cdns?token=s3cret"⟩
    ⟨some [("X-Api-Key", "k1")], "http://h/v1/cdns?token=s3cret"⟩
    ⟨[], [.keyHeader ⟨⟨"X-Api-Key", "k1"⟩⟩, .keyQuery ⟨⟨"token", "s3cret"⟩⟩]⟩
    ⟨[exampleRefresh.request],
      [.keyHeader ⟨⟨"X-Api-Key", "k1"⟩⟩, .keyQuery ⟨⟨"token", "s3cret"⟩⟩,
        .refreshToken exampleRefresh]⟩
    (refreshStatusError "http://auth.local/refresh" 404)
    rfl ((confirm_none_iff ⟨none⟩ _ exampleConfig).mp rfl) rfl rfl rfl rfl).1

/-! ## The plugin configuration: environment before file -/

/-- Claim C22: let `url` be the value of the swagger URL variable of the provider,
read under the provider name as given and, when that is empty, under the upper-cased
name.  If `url` is not empty (and `GetServiceConfig` finds the one service just stored
under the provider name, whose `GetSwaggerURL` is the stored URL), then
`getServiceConfiguration` returns the service configuration holding `url` and a nil
error, whatever `Configuration` is, and the reader is not read.  If the variable is
empty under both spellings and `Configuration` is nil, it returns the error that the
swagger URL was not provided. -/
theorem environment_url_beats_file (p : PluginConfiguration) (k : PluginEnvironment)
    (url : String) :
    ((k.getenv (otfVarSwaggerURL p.ProviderName) ≠ "" ∧
        url = k.getenv (otfVarSwaggerURL p.ProviderName) ∨
      k.getenv (otfVarSwaggerURL p.ProviderName) = "" ∧
        url = k.getenv (otfVarSwaggerURL (k.toUpper p.ProviderName)) ∧ url ≠ "") →
      k.getServiceConfig
        ⟨[(p.ProviderName, ⟨url, k.parseBool (k.getenv otfVarInsecureSkipVerify)⟩)]⟩
        p.ProviderName
        = .ok (some ⟨url, k.parseBool (k.getenv otfVarInsecureSkipVerify)⟩) →
      k.getSwaggerURL ⟨url, k.parseBool (k.getenv otfVarInsecureSkipVerify)⟩ = url →
      ∃ envName, p.getServiceConfiguration k =
        ⟨some ⟨url, k.parseBool (k.getenv otfVarInsecureSkipVerify)⟩, none,
          [⟨"[INFO] %s set with value %s", [.str envName, .str url]⟩,
           ⟨"[DEBUG] serviceConfig = %+v",
            [.serviceConfig
              (some ⟨url, k.parseBool (k.getenv otfVarInsecureSkipVerify)⟩)]⟩],
          false⟩) ∧
    (k.getenv (otfVarSwaggerURL p.ProviderName) = "" →
      k.getenv (otfVarSwaggerURL (k.toUpper p.ProviderName)) = "" →
      p.Configuration = none →
      p.getServiceConfiguration k =
        ⟨none, some (swaggerURLNotProvidedError p.ProviderName),
          [⟨"[DEBUG] serviceConfig = %+v", [.serviceConfig none]⟩], false⟩) := by
  constructor
  · intro hurl hget hswagger
    rcases hurl with ⟨hne, rfl⟩ | ⟨he, rfl, hne⟩
    · refine ⟨otfVarSwaggerURL p.ProviderName, ?_⟩
      simp [PluginConfiguration.getServiceConfiguration, hne, hget,
        PluginConfiguration.fallBackToReader, PluginConfiguration.checkServiceConfiguration,
        hswagger]
    · refine ⟨otfVarSwaggerURL (k.toUpper p.ProviderName), ?_⟩
      simp [PluginConfiguration.getServiceConfiguration, he, hne, hget,
        PluginConfiguration.fallBackToReader, PluginConfiguration.checkServiceConfiguration,
        hswagger]
  · intro h1 h2 hc
    simp [PluginConfiguration.getServiceConfiguration, h1, h2, hc,
      PluginConfiguration.fallBackToReader, PluginConfiguration.checkServiceConfiguration]

/-- Claim C22 at two concrete inputs: the variable is set under the upper-cased name
only while a configuration file is present; and nothing is set and no file is there. -/
theorem environment_url_beats_file_witness :
    (∃ envName,
      PluginConfiguration.getServiceConfiguration
        ⟨"myprovider", some (.ok "version: '1'")⟩ exampleEnvironment =
        ⟨some ⟨"http://h/swagger.yaml", false⟩, none,
          [⟨"[INFO] %s set with value %s", [.str envName, .str "http://h/swagger.yaml"]⟩,
           ⟨"[DEBUG] serviceConfig = %+v",
            [.serviceConfig (some ⟨"http://h/swagger.yaml", false⟩)]⟩],
          false⟩) ∧
    PluginConfiguration.getServiceConfiguration ⟨"myprovider", none⟩ emptyEnvironment =
      ⟨none, some (swaggerURLNotProvidedError "myprovider"),
        [⟨"[DEBUG] serviceConfig = %+v", [.serviceConfig none]⟩], false⟩ :=
  ⟨(environment_url_beats_file ⟨"myprovider", some (.ok "version: '1'")⟩ exampleEnvironment
      "http://h/swagger.yaml").1 (Or.inr ⟨rfl, rfl, by decide⟩) rfl rfl,
   (environment_url_beats_file ⟨"myprovider", none⟩ emptyEnvironment "").2 rfl rfl rfl⟩

/-! ## The query key in the debug line -/

/-- Two strings split at the same length are equal part by part. -/
theorem string_append_inj (a b c d : String) (h : a ++ b = c ++ d)
    (hl : a.length = c.length) : a = c ∧ b = d := by
  have hd : a.data ++ b.data = c.data ++ d.data := by
    rw [← String.data_append, ← String.data_append, h]
  have := List.append_inj hd hl
  exact ⟨String.ext this.1, String.ext this.2⟩

/-- A successful authenticator call appends its query suffix to the URL; on another
URL and a state with the same transport calls, it succeeds with the same headers. -/
theorem authenticator_step_shift (a : authenticator) (net : Net) (h : Option HeaderMap)
    (u u2 : String) (w w2 w1 : World) (c : authContext)
    (hcalls : w2.calls = w.calls)
    (hrun : a.prepareAuth net ⟨h, u⟩ w = .ok (c, none, w1)) :
    c.url = u ++ a.querySuffix ∧
    a.prepareAuth net ⟨h, u2⟩ w2 =
      .ok (⟨c.headers, u2 ++ a.querySuffix⟩, none, ⟨w1.calls, w2.dispatched ++ [a]⟩) := by
  cases a with
  | keyHeader k =>
    cases h with
    | none => simp [authenticator.prepareAuth, apiKeyHeader.prepareAuth, headersSet] at hrun
    | some m =>
      simp only [authenticator.prepareAuth, apiKeyHeader.prepareAuth, headersSet,
        Except.ok.injEq, Prod.mk.injEq] at hrun ⊢
      obtain ⟨hc, -, hw⟩ := hrun
      subst hc hw
      simp [authenticator.querySuffix, hcalls]
  | keyQuery q =>
    simp only [authenticator.prepareAuth, apiKeyQuery.prepareAuth,
      Except.ok.injEq, Prod.mk.injEq] at hrun ⊢
    obtain ⟨hc, -, hw⟩ := hrun
    subst hc hw
    simp [authenticator.querySuffix, hcalls, String.append_assoc]
  | refreshToken r =>
    simp only [authenticator.prepareAuth, apiRefreshTokenAuthenticator.prepareAuth, httpDo,
      hcalls] at hrun ⊢
    split at hrun
    · simp at hrun
    · rename_i resp hresp
      split at hrun
      · simp at hrun
      · rename_i hstatus
        rw [if_neg hstatus]
        split at hrun
        · simp at hrun
        · rename_i htoken
          rw [if_neg htoken]
          simp only [Except.ok.injEq, Prod.mk.injEq] at hrun ⊢
          obtain ⟨hc, -, hw⟩ := hrun
          subst hc hw
          simp [authenticator.querySuffix]

/-- A successful run of the loop appends the query suffixes of its schemes to the URL.
Under a second credential store that differs from the first only in the value of an
API-key-in-query scheme, on another URL and a state with the same transport calls, the
loop succeeds with the same headers. -/
theorem prepareAuthLoop_shift (cfg cfg2 : providerConfiguration) (net : Net)
    (n v v2 : String)
    (hdiff : ∀ name,
      cfg2.securitySchemaDefinition name = cfg.securitySchemaDefinition name ∨
      (cfg.securitySchemaDefinition name = some (.keyQuery ⟨⟨n, v⟩⟩) ∧
        cfg2.securitySchemaDefinition name = some (.keyQuery ⟨⟨n, v2⟩⟩)))
    (sel : SpecSecuritySchemes) (h : Option HeaderMap) (u u2 : String) (w w2 w1 : World)
    (c : authContext) (hcalls : w2.calls = w.calls)
    (hrun : prepareAuthLoop cfg net sel ⟨h, u⟩ w = .ok (c, none, w1)) :
    c.url = u ++ querySuffixes cfg sel ∧
    ∃ w3, w3.calls = w1.calls ∧
      prepareAuthLoop cfg2 net sel ⟨h, u2⟩ w2 =
        .ok (⟨c.headers, u2 ++ querySuffixes cfg2 sel⟩, none, w3) := by
  induction sel generalizing h u u2 w w2 with
  | nil =>
    simp only [prepareAuthLoop, Except.ok.injEq, Prod.mk.injEq, true_and] at hrun
    obtain ⟨hc, hw⟩ := hrun
    subst hc hw
    exact ⟨by simp [querySuffixes], w2, hcalls, by simp [prepareAuthLoop, querySuffixes]⟩
  | cons s rest ih =>
    simp only [prepareAuthLoop] at hrun
    cases hs : cfg.securitySchemaDefinition s.Name with
    | none => simp [hs] at hrun
    | some a =>
      rw [hs] at hrun
      simp only [] at hrun
      rcases hstep : a.prepareAuth net ⟨h, u⟩ w with p | ⟨c1, e1, w1a⟩
      · simp [hstep] at hrun
      · rw [hstep] at hrun
        cases e1 with
        | some err => simp at hrun
        | none =>
          simp only [] at hrun
          obtain ⟨h1, u1⟩ := c1
          have hs1 := authenticator_step_shift a net h u u2 w w2 w1a ⟨h1, u1⟩ hcalls hstep
          simp only [] at hs1
          rcases hdiff s.Name with heq | ⟨hq1, hq2⟩
          · rw [hs] at heq
            obtain ⟨hurl, w3, hw3, hrest⟩ :=
              ih h1 u1 (u2 ++ a.querySuffix) w1a ⟨w1a.calls, w2.dispatched ++ [a]⟩ rfl hrun
            refine ⟨?_, w3, hw3, ?_⟩
            · rw [hurl, hs1.1]
              simp [querySuffixes, hs, String.append_assoc]
            · simp only [prepareAuthLoop, heq, hs1.2, querySuffixes]
              rw [hrest, String.append_assoc]
          · rw [hs] at hq1
            have ha : a = .keyQuery ⟨⟨n, v⟩⟩ := by simpa using hq1
            have hs2 := authenticator_step_shift (.keyQuery ⟨⟨n, v2⟩⟩) net h u2 u2 w2 w2
              { w2 with dispatched := w2.dispatched ++ [.keyQuery ⟨⟨n, v2⟩⟩] }
              ⟨h, u2 ++ "?" ++ n ++ "=" ++ v2⟩ rfl
              (by simp [authenticator.prepareAuth, apiKeyQuery.prepareAuth,
                apiKeyQuery.getContext])
            have hh1 : h1 = h := by
              have := hs1.2
              rw [ha] at hstep
              simp [authenticator.prepareAuth, apiKeyQuery.prepareAuth] at hstep
              exact hstep.1.1.symm
            obtain ⟨hurl, w3, hw3, hrest⟩ :=
              ih h1 u1 (u2 ++ (authenticator.keyQuery ⟨⟨n, v2⟩⟩).querySuffix) w1a
                ⟨w1a.calls, w2.dispatched ++ [.keyQuery ⟨⟨n, v2⟩⟩]⟩ rfl hrun
            refine ⟨?_, w3, hw3, ?_⟩
            · rw [hurl, hs1.1]
              simp [querySuffixes, hs, String.append_assoc]
            · have hw1a : w1a.calls = w2.calls := by
                have := hs1.2
                rw [ha] at hstep
                simp [authenticator.prepareAuth, apiKeyQuery.prepareAuth] at hstep
                rw [← hstep.2, hcalls]
              simp only [prepareAuthLoop, hq2, hs2.2, querySuffixes]
              rw [← hw1a, ← hh1, hrest, String.append_assoc]

/-- The suffixes of a concatenation of scheme lists. -/
theorem querySuffixes_append (cfg : providerConfiguration) (pre post : SpecSecuritySchemes) :
    querySuffixes cfg (pre ++ post) = querySuffixes cfg pre ++ querySuffixes cfg post := by
  induction pre with
  | nil => simp [querySuffixes]
  | cons s rest ih => simp [querySuffixes, ih, String.append_assoc]

/-- The suffixes under two credential stores that differ only in the value of an
API-key-in-query scheme differ as soon as one scheme of the list has that key. -/
theorem querySuffixes_ne (cfg cfg2 : providerConfiguration) (n v v2 : String) (hv : v2 ≠ v)
    (hdiff : ∀ name,
      cfg2.securitySchemaDefinition name = cfg.securitySchemaDefinition name ∨
      (cfg.securitySchemaDefinition name = some (.keyQuery ⟨⟨n, v⟩⟩) ∧
        cfg2.securitySchemaDefinition name = some (.keyQuery ⟨⟨n, v2⟩⟩)))
    (sel : SpecSecuritySchemes) (s : SpecSecurityScheme) (hs : s ∈ sel)
    (hq : cfg.securitySchemaDefinition s.Name = some (.keyQuery ⟨⟨n, v⟩⟩))
    (hq2 : cfg2.securitySchemaDefinition s.Name = some (.keyQuery ⟨⟨n, v2⟩⟩)) :
    querySuffixes cfg sel ≠ querySuffixes cfg2 sel := by
  have hsecret : ∀ x : String,
      (authenticator.keyQuery ⟨⟨n, x⟩⟩).querySuffix = "?" ++ n ++ "=" ++ x := fun _ => rfl
  have hlenq : ∀ x : String,
      ("?" ++ n ++ "=" ++ x).length = ("?" ++ n ++ "=").length + x.length := by
    intro x
    rw [String.length_append]
  by_cases hl : v.length = v2.length
  · -- equal lengths: the suffixes agree part by part
    have key : ∀ l : SpecSecuritySchemes, querySuffixes cfg l = querySuffixes cfg2 l →
        ∀ t ∈ l, cfg.securitySchemaDefinition t.Name = some (.keyQuery ⟨⟨n, v⟩⟩) →
          cfg2.securitySchemaDefinition t.Name = some (.keyQuery ⟨⟨n, v2⟩⟩) → False := by
      intro l
      induction l with
      | nil => intro _ t ht; simp at ht
      | cons t0 rest ih =>
        intro heq t ht h1 h2
        simp only [querySuffixes] at heq
        rcases hdiff t0.Name with he | ⟨g1, g2⟩
        · rw [he] at heq
          have hparts := string_append_inj _ _ _ _ heq rfl
          rcases List.mem_cons.mp ht with rfl | hin
          · rw [h1] at he
            rw [h2] at he
            simp at he
            exact hv he
          · exact ih hparts.2 t hin h1 h2
        · rw [g1, g2] at heq
          simp only [hsecret] at heq
          have hparts := string_append_inj _ _ _ _ heq (by rw [hlenq, hlenq, hl])
          have hx := (string_append_inj _ _ _ _ hparts.1 rfl).2
          exact hv hx.symm
    intro heq
    exact key sel heq s hs hq hq2
  · -- different lengths: the total lengths differ
    have key : ∀ l : SpecSecuritySchemes, ∃ k : Nat,
        ((querySuffixes cfg l).length : Int) - (querySuffixes cfg2 l).length =
          k * ((v.length : Int) - v2.length) ∧
        ((∃ t ∈ l, cfg.securitySchemaDefinition t.Name = some (.keyQuery ⟨⟨n, v⟩⟩) ∧
          cfg2.securitySchemaDefinition t.Name = some (.keyQuery ⟨⟨n, v2⟩⟩)) → 1 ≤ k) := by
      intro l
      induction l with
      | nil => exact ⟨0, by simp [querySuffixes], by simp⟩
      | cons t0 rest ih =>
        obtain ⟨k, hk, hk1⟩ := ih
        rcases hdiff t0.Name with he | ⟨g1, g2⟩
        · refine ⟨k, ?_, ?_⟩
          · simp only [querySuffixes, he, String.length_append]
            push_cast
            linarith
          · rintro ⟨t, ht, h1, h2⟩
            rcases List.mem_cons.mp ht with rfl | hin
            · rw [h1, h2] at he
              simp at he
              exact absurd he hv
            · exact hk1 ⟨t, hin, h1, h2⟩
        · refine ⟨k + 1, ?_, fun _ => by omega⟩
          simp only [querySuffixes, g1, g2, hsecret, String.length_append]
          push_cast
          linarith
    obtain ⟨k, hk, hk1⟩ := key sel
    have hk2 := hk1 ⟨s, hs, hq, hq2⟩
    intro heq
    rw [heq] at hk
    simp only [sub_self] at hk
    have hd : ((v.length : Int) - v2.length) ≠ 0 := by
      intro h0
      apply hl
      omega
    have hkz : (k : Int) ≠ 0 := by
      intro h0
      have : k = 0 := by exact_mod_cast h0
      omega
    exact (mul_ne_zero hkz hd) hk.symm

/-- The text of the debug line of `performRequest`. -/
theorem renderStrings_performing (method url : String) :
    renderStrings "[DEBUG] Performing %s %s" [method, url] =
      "[DEBUG] Performing " ++ method ++ " " ++ url := by
  apply String.ext
  simp [renderStrings, renderFormat]

/-- The lines of `logHeadersSafely` do not change with a non-empty header value. -/
theorem logHeadersSafely_mapSet_value (o : ProviderClient) (m : HeaderMap)
    (key x y : String) (hx : x ≠ "") (hy : y ≠ "") :
    o.logHeadersSafely (mapSet m key x) = o.logHeadersSafely (mapSet m key y) := by
  induction m with
  | nil => simp [mapSet, ProviderClient.logHeadersSafely, hx, hy]
  | cons entry rest ih =>
    obtain ⟨k1, v1⟩ := entry
    by_cases hk : k1 = key
    · simp [mapSet, ProviderClient.logHeadersSafely, hk, hx, hy]
    · simp [mapSet, ProviderClient.logHeadersSafely, hk, ih]

/-- After a successful auth resolution `performRequest` returns, and its log is the log
of the resolver, the debug line with the method and the URL of the auth context, and
the lines of `logHeadersSafely`. -/
theorem performRequest_logs_of_auth_ok (o : ProviderClient)
    (userAgent userAgentHeader : String) (net : Net) (method resourceURL : String)
    (op : specResourceOperation) (requestPayload : Payload) (w : World) (r : AuthResult)
    (m0 : HeaderMap)
    (hauth : o.apiAuthenticator.prepareAuth resourceURL op.SecuritySchemes
      o.providerConfiguration net w = .ok r)
    (herr : r.err = none) (hm : r.ctx.headers = some m0) :
    ∃ res, o.performRequest userAgent userAgentHeader net method resourceURL (some op)
        requestPayload w = .ok res ∧
      res.logs = r.logs ++ [⟨"[DEBUG] Performing %s %s", [.str method, .str r.ctx.url]⟩]
        ++ o.logHeadersSafely (mapSet (op.HeaderParameters.foldl
          (fun acc p => mapSet acc p.Name (o.providerConfiguration.getHeaderValueFor p)) m0)
          userAgent userAgentHeader) := by
  rw [performRequest_of_auth_ok o userAgent userAgentHeader net method resourceURL op
    requestPayload w r m0 hauth herr hm]
  simp only []
  split_ifs <;> exact ⟨_, rfl, rfl⟩

/-- Claim C29: take a run of `performRequest` whose auth resolution succeeds, with a
selected scheme that is an API key in the query with name `n` and value `v`.  The run
returns, and its log holds the debug line with the URL of the auth context as its
argument; that URL is the resource URL followed by the query suffixes of the selected
schemes, so it contains `?n=v`, and so does the text of the line.  A second run that
differs from the first only in the value of that key (`v2` for `v` in the credential
store) returns too, and its log differs from the first exactly in the URL of the debug
line: the two URLs, the two texts and the two logs are different.  By contrast the
lines of `logHeadersSafely` are the same for two non-empty values of a header. -/
theorem query_key_value_reaches_the_log (o : ProviderClient)
    (userAgent userAgentHeader : String) (net : Net) (method resourceURL : String)
    (op : specResourceOperation) (requestPayload : Payload) (w : World)
    (sel : SpecSecuritySchemes) (s : SpecSecurityScheme) (n v v2 : String)
    (cfg2 : OpenAPI.providerConfiguration) (r : AuthResult)
    (hsel : (o.apiAuthenticator.authRequired resourceURL op.SecuritySchemes).1 = (true, sel))
    (hs : s ∈ sel)
    (hq : o.providerConfiguration.securitySchemaDefinition s.Name =
      some (.keyQuery ⟨⟨n, v⟩⟩))
    (hauth : o.apiAuthenticator.prepareAuth resourceURL op.SecuritySchemes
      o.providerConfiguration net w = .ok r)
    (herr : r.err = none)
    (hv : v2 ≠ v)
    (hq2 : cfg2.securitySchemaDefinition s.Name = some (.keyQuery ⟨⟨n, v2⟩⟩))
    (hdiff : ∀ name,
      cfg2.securitySchemaDefinition name =
        o.providerConfiguration.securitySchemaDefinition name ∨
      (o.providerConfiguration.securitySchemaDefinition name = some (.keyQuery ⟨⟨n, v⟩⟩) ∧
        cfg2.securitySchemaDefinition name = some (.keyQuery ⟨⟨n, v2⟩⟩)))
    (hvalues : cfg2.getHeaderValueFor = o.providerConfiguration.getHeaderValueFor) :
    ∃ res res2 back,
      o.performRequest userAgent userAgentHeader net method resourceURL (some op)
        requestPayload w = .ok res ∧
      res.logs =
        r.logs ++ [⟨"[DEBUG] Performing %s %s", [.str method, .str r.ctx.url]⟩] ++ back ∧
      r.ctx.url = resourceURL ++ querySuffixes o.providerConfiguration sel ∧
      (∃ before after, r.ctx.url = before ++ ("?" ++ n ++ "=" ++ v) ++ after) ∧
      (∃ before after,
        renderStrings "[DEBUG] Performing %s %s" [method, r.ctx.url] =
          before ++ ("?" ++ n ++ "=" ++ v) ++ after) ∧
      ProviderClient.performRequest { o with providerConfiguration := cfg2 } userAgent
        userAgentHeader net method resourceURL (some op) requestPayload w = .ok res2 ∧
      res2.logs =
        r.logs ++ [⟨"[DEBUG] Performing %s %s",
          [.str method, .str (resourceURL ++ querySuffixes cfg2 sel)]⟩] ++ back ∧
      resourceURL ++ querySuffixes cfg2 sel ≠ r.ctx.url ∧
      renderStrings "[DEBUG] Performing %s %s"
          [method, resourceURL ++ querySuffixes cfg2 sel] ≠
        renderStrings "[DEBUG] Performing %s %s" [method, r.ctx.url] ∧
      res2.logs ≠ res.logs ∧
      (∀ (m : HeaderMap) (key x y : String), x ≠ "" → y ≠ "" →
        o.logHeadersSafely (mapSet m key x) = o.logHeadersSafely (mapSet m key y)) := by
  -- the first run
  have hloop := prepareAuth_ok_loop o.apiAuthenticator resourceURL op.SecuritySchemes sel
    o.providerConfiguration net w r hsel hauth herr
  obtain ⟨hurl, w3, -, hloop2⟩ := prepareAuthLoop_shift o.providerConfiguration cfg2 net n v v2
    hdiff sel (some []) resourceURL resourceURL w w r.world r.ctx rfl hloop
  obtain ⟨m0, hm⟩ := prepareAuth_headers o.apiAuthenticator resourceURL op.SecuritySchemes
    o.providerConfiguration net w r hauth
  obtain ⟨res, hres, hlogs⟩ := performRequest_logs_of_auth_ok o userAgent userAgentHeader net
    method resourceURL op requestPayload w r m0 hauth herr hm
  -- the log of the resolver and the definedness of the selected schemes
  have hfirst := hauth
  rw [prepareAuth_of_selected o.apiAuthenticator resourceURL op.SecuritySchemes sel
    o.providerConfiguration net w hsel] at hfirst
  have hdef : o.apiAuthenticator.confirmOperationSecurityPoliciesAreDefined sel
      o.providerConfiguration = none := by
    cases hc : o.apiAuthenticator.confirmOperationSecurityPoliciesAreDefined sel
        o.providerConfiguration with
    | none => rfl
    | some err =>
      rw [hc] at hfirst
      simp only [Except.ok.injEq] at hfirst
      rw [← hfirst] at herr
      simp at herr
  have hrlogs : r.logs =
      (o.apiAuthenticator.authRequired resourceURL op.SecuritySchemes).2 := by
    rw [hdef, hloop] at hfirst
    simp only [Except.ok.injEq] at hfirst
    rw [← hfirst]
  have hdef2 : o.apiAuthenticator.confirmOperationSecurityPoliciesAreDefined sel cfg2
      = none := by
    rw [confirm_none_iff] at hdef ⊢
    intro t ht
    obtain ⟨a, ha⟩ := hdef t ht
    rcases hdiff t.Name with he | ⟨-, h2⟩
    · exact ⟨a, by rw [he, ha]⟩
    · exact ⟨_, h2⟩
  -- the second run
  have hauth2 : o.apiAuthenticator.prepareAuth resourceURL op.SecuritySchemes cfg2 net w =
      .ok ⟨⟨r.ctx.headers, resourceURL ++ querySuffixes cfg2 sel⟩, none, w3, r.logs⟩ := by
    rw [prepareAuth_of_selected o.apiAuthenticator resourceURL op.SecuritySchemes sel
      cfg2 net w hsel, hdef2]
    simp only [hloop2, hrlogs]
  obtain ⟨res2, hres2, hlogs2⟩ := performRequest_logs_of_auth_ok
    { o with providerConfiguration := cfg2 } userAgent userAgentHeader net
    method resourceURL op requestPayload w
    ⟨⟨r.ctx.headers, resourceURL ++ querySuffixes cfg2 sel⟩, none, w3, r.logs⟩ m0
    hauth2 rfl hm
  simp only [hvalues] at hlogs2
  rw [logHeadersSafely_eq, ← logHeadersSafely_eq o] at hlogs2
  -- the two URLs
  have hne : querySuffixes o.providerConfiguration sel ≠ querySuffixes cfg2 sel :=
    querySuffixes_ne o.providerConfiguration cfg2 n v v2 hv hdiff sel s hs hq hq2
  have hurlne : resourceURL ++ querySuffixes cfg2 sel ≠ r.ctx.url := by
    rw [hurl]
    intro heq
    exact hne (string_append_inj _ _ _ _ heq rfl).2.symm
  obtain ⟨pre, post, hsplit⟩ := List.append_of_mem hs
  have hsub : r.ctx.url =
      (resourceURL ++ querySuffixes o.providerConfiguration pre) ++ ("?" ++ n ++ "=" ++ v)
        ++ querySuffixes o.providerConfiguration post := by
    rw [hurl, hsplit, querySuffixes_append]
    simp only [querySuffixes, hq, authenticator.querySuffix, apiKeyQuery.getContext,
      String.append_assoc]
  refine ⟨res, res2, _, hres, hlogs, hurl, ⟨_, _, hsub⟩, ?_, hres2, hlogs2, hurlne, ?_, ?_,
    fun m key x y hx hy => logHeadersSafely_mapSet_value o m key x y hx hy⟩
  · refine ⟨"[DEBUG] Performing " ++ method ++ " " ++
      (resourceURL ++ querySuffixes o.providerConfiguration pre),
      querySuffixes o.providerConfiguration post, ?_⟩
    rw [renderStrings_performing, hsub]
    simp only [String.append_assoc]
  · rw [renderStrings_performing, renderStrings_performing]
    intro heq
    exact hurlne (string_append_inj _ _ _ _ heq rfl).2
  · rw [hlogs, hlogs2]
    intro heq
    simp only [List.append_assoc, List.append_cancel_left_eq, List.cons_append,
      List.nil_append, List.cons.injEq, LogEntry.mk.injEq, LogArg.str.injEq, true_and,
      and_true] at heq
    exact hurlne heq

/-- Claim C29 at a concrete input: a POST on `securedOperation`, whose query key is
`token` with the value `s3cret`, and the same request after the value was rotated. -/
theorem query_key_value_reaches_the_log_witness :
    ∃ res res2 back,
      exampleClient.performRequest "User-Agent" "agent/1.0" exampleNet "POST"
        "http://h/v1/cdns" (some securedOperation) (some "payload") emptyWorld = .ok res ∧
      res.logs =
        securedAuthResult.logs ++
          [⟨"[DEBUG] Performing %s %s", [.str "POST", .str securedAuthResult.ctx.url]⟩]
          ++ back ∧
      securedAuthResult.ctx.url =
        "http://h/v1/cdns" ++
          querySuffixes exampleClient.providerConfiguration [⟨"apiKeyAuth"⟩, ⟨"queryAuth"⟩] ∧
      (∃ before after,
        securedAuthResult.ctx.url = before ++ ("?" ++ "token" ++ "=" ++ "s3cret") ++ after) ∧
      (∃ before after,
        renderStrings "[DEBUG] Performing %s %s" ["POST", securedAuthResult.ctx.url] =
          before ++ ("?" ++ "token" ++ "=" ++ "s3cret") ++ after) ∧
      ProviderClient.performRequest
        { exampleClient with providerConfiguration := rotatedConfig } "User-Agent"
        "agent/1.0" exampleNet "POST" "http://h/v1/cdns" (some securedOperation)
        (some "payload") emptyWorld = .ok res2 ∧
      res2.logs =
        securedAuthResult.logs ++ [⟨"[DEBUG] Performing %s %s",
          [.str "POST", .str ("http://h/v1/cdns" ++
            querySuffixes rotatedConfig [⟨"apiKeyAuth"⟩, ⟨"queryAuth"⟩])]⟩] ++ back ∧
      "http://h/v1/cdns" ++ querySuffixes rotatedConfig [⟨"apiKeyAuth"⟩, ⟨"queryAuth"⟩] ≠
        securedAuthResult.ctx.url ∧
      renderStrings "[DEBUG] Performing %s %s"
          ["POST", "http://h/v1/cdns" ++
            querySuffixes rotatedConfig [⟨"apiKeyAuth"⟩, ⟨"queryAuth"⟩]] ≠
        renderStrings "[DEBUG] Performing %s %s" ["POST", securedAuthResult.ctx.url] ∧
      res2.logs ≠ res.logs ∧
      (∀ (m : HeaderMap) (key x y : String), x ≠ "" → y ≠ "" →
        exampleClient.logHeadersSafely (mapSet m key x) =
          exampleClient.logHeadersSafely (mapSet m key y)) :=
  query_key_value_reaches_the_log exampleClient "User-Agent" "agent/1.0" exampleNet "POST"
    "http://h/v1/cdns" securedOperation (some "payload") emptyWorld
    [⟨"apiKeyAuth"⟩, ⟨"queryAuth"⟩] ⟨"queryAuth"⟩ "token" "s3cret" "rotated" rotatedConfig
    securedAuthResult rfl (by decide) rfl rfl rfl (by decide) rfl
    (fun name => by
      by_cases h1 : name = "queryAuth"
      · subst h1
        exact Or.inr ⟨rfl, rfl⟩
      · left
        have h2 : ¬ "queryAuth" = name := fun h => h1 h.symm
        simp [providerConfiguration.securitySchemaDefinition, rotatedConfig, exampleClient,
          exampleConfig, List.find?, h2])
    rfl

end OpenAPI
